import Mathlib

/-!
# The fuzzer aggregation pipeline (`fuzzer/go/aggregator/aggregator.go`)

A shallow embedding of the aggregator: the scanner (`findBadFuzzPaths`, `scanHelper`,
`SortedStringSlice`), the analysis stage (`waitForAnalysis`, `analysisHelper`, `calculateHash`,
`performAnalysis`, `analyze`), the upload stage (`waitForUploads`, `upload`,
`uploadBinaryFromDisk`, `uploadString`), the bug-report stage (`waitForBugReporting`,
`bugReportingHelper`), the drain detection (`WaitForEmptyQueues`) and the life cycle (`start`,
`ShutDown`, `RestartAnalysis`); and, in the namespace `Swarming`, of the mock of the swarming
client (`go/swarming/testutils.go`): `ListBots`, `ListFreeBots`, `md5Tags`, `TriggerTask`,
`MockTriggerTaskFailure`.

Conventions of the embedding.

* The work queues are FIFO lists; a send appends at the back, a receive takes the head.  The
  blocking of a send on a full work queue is not represented.  The shutdown channel is its
  length and its capacity, and a send on it when it is full blocks.
* The stage counters are `int64` in the source.  They start at zero and move by one per processed
  item, so they stay far from the `int64` bounds; they are embedded as `Int`.
* Everything the aggregator obtains from its environment (parsers of the `data` package,
  configuration values, process execution, the filesystem, the outcome of storage writes) is a
  field of `World`, so every theorem quantifies over all of them.
* `filepath.Join dir name` is only ever applied to a cleaned directory path and one plain
  component; it is embedded as `dir ++ "/" ++ name`.
* An `error` is represented by its text, `nil` by `none`; where the source wraps an error with
  `fmt.Errorf`, the cause is kept unwrapped.
* Logging and metrics calls have no effect on the pipeline and are left out.
* The Go standard library is embedded by what it computes: `sort.Search` as its loop,
  `sort.Sort` as an increasing rearrangement, `sha1.Sum` as SHA-1 on 32-bit words.  The
  message digest of RFC 3174 is stated a second time, from the standard (`rfcSHA1`), and
  `sha1Sum_refines` shows that the embedded `sha1.Sum` computes it.
-/

namespace Fuzzer

/-! ## Constants and packages -/

/-- The constant `BAD_FUZZ`. -/
def BAD_FUZZ : String := "bad"

/-- The constant `GREY_FUZZ`. -/
def GREY_FUZZ : String := "grey"

/-- The constant `HANG_THRESHOLD`. -/
def HANG_THRESHOLD : Nat := 100

/-- The per-build outputs held in a `data.GCSPackage` (`Debug` and `Release`), with the fields
the aggregator reads and writes. -/
structure OutputFiles where
  Asan : String
  Dump : String
  StdErr : String
  deriving DecidableEq, Repr

/-- The type `data.GCSPackage`, with the fields the aggregator reads and writes. -/
structure GCSPackage where
  Name : String
  FuzzCategory : String
  Debug : OutputFiles
  Release : OutputFiles
  deriving DecidableEq, Repr

/-- The struct `uploadPackage`. -/
structure uploadPackage where
  Data : GCSPackage
  FilePath : String
  FuzzType : String
  deriving DecidableEq, Repr

/-- The struct `bugReportingPackage`. -/
structure bugReportingPackage where
  FuzzName : String
  CommitHash : String
  IsBadFuzz : Bool
  deriving DecidableEq, Repr

/-- The part of the result of `data.ParseGCSPackage` that `analyze` inspects: the flag words of
the debug and the release build (`r.Debug.Flags`, `r.Release.Flags`). -/
structure FuzzResult where
  DebugFlags : Int
  ReleaseFlags : Int
  deriving DecidableEq, Repr

/-- The struct `exec.Command`, with the fields `performAnalysis` sets. -/
structure Command where
  Name : String
  Args : List String
  Dir : String
  InheritPath : Bool
  Env : List String
  deriving DecidableEq, Repr

/-- What one `exec.Run` does: the bytes the process wrote to the two buffers and the error
`exec.Run` returned (`none` for `nil`).  `started` tells whether the process could be invoked at
all; `exec.Run` returns an error both when it could not and when it ran and exited non-zero. -/
structure ExecResult where
  Stdout : String
  Stderr : String
  err : Option String
  started : Bool := true
  deriving DecidableEq, Repr

/-- The contents of a file, `[]byte`. -/
abbrev Bytes := List UInt8

/-- The outcome of `os.Open`. -/
inductive OpenResult where
  | ok
  | notExist
  | failed (msg : String)
  deriving DecidableEq, Repr

/-- An `os.FileInfo`, with the two accessors the scanner calls. -/
structure FileInfo where
  Name : String
  IsDir : Bool
  deriving DecidableEq, Repr

/-- The environment of the aggregator.  `Report` is `data.FuzzReport`. -/
structure World (Report : Type) where
  /-- The function `data.ParseGCSPackage`. -/
  ParseGCSPackage : GCSPackage → FuzzResult
  /-- The flag value `data.TerminatedGracefully`. -/
  TerminatedGracefully : Int
  /-- The function `data.ParseReport`. -/
  ParseReport : GCSPackage → Report
  /-- The value `config.Generator.SkiaVersion.Hash`. -/
  SkiaVersionHash : String
  /-- The value `config.Generator.AflOutputPath`. -/
  AflOutputPath : String
  /-- The value `config.Aggregator.NumAnalysisProcesses`. -/
  NumAnalysisProcesses : Int
  /-- The value `config.Aggregator.NumUploadProcesses`. -/
  NumUploadProcesses : Int
  /-- The constant `common.TEST_HARNESS_NAME`. -/
  TEST_HARNESS_NAME : String
  /-- The constant `common.ASAN_OPTIONS`. -/
  ASAN_OPTIONS : String
  /-- The function `common.AnalysisArgsFor`. -/
  AnalysisArgsFor : String → String → String → List String
  /-- The function `exec.Run`, as the outcome it has for each command. -/
  Run : Command → ExecResult
  /-- The function `os.Open`, as the outcome it has for each path. -/
  Open : String → OpenResult
  /-- The method `Readdir(-1)` of the directory opened at a path. -/
  Readdir : String → Except String (List FileInfo)
  /-- The outcome of the storage writes, numbered in the order they are made: `none` when the
  write succeeds, the error otherwise. -/
  writeErr : Nat → Option String
  /-- The function `ioutil.ReadFile`, as the outcome it has for each path. -/
  ReadFile : String → Except String Bytes
  /-- The error `ioutil.WriteFile` returns for each path (`none` for `nil`). -/
  WriteFile : String → Option String
  /-- The error of each of the ten calls `buildAnalysisBinaries` makes, numbered in the order of
  the source: `fileutil.EnsureDirExists` twice, then four times a build of the harness followed
  by `fileutil.CopyExecutable` (`none` for `nil`). -/
  buildStepErr : Nat → Option String

/-- The call `filepath.Join dir name` for a cleaned directory path and a plain component. -/
def pathJoin (dir name : String) : String := dir ++ "/" ++ name

/-- The function `strings.HasPrefix`. -/
def HasPrefix (s pre : String) : Bool := pre.data.isPrefixOf s.data


/-! ## The sorted string slice of the scanner -/

/-- The loop of `sort.Search` of the Go standard library: binary search on `[i, j)` for the least
index at which `f` holds.  `fuel` bounds the number of iterations. -/
def searchLoop (f : Nat → Bool) : Nat → Nat → Nat → Nat
  | 0, i, _ => i
  | fuel + 1, i, j =>
    if i < j then
      let h := (i + j) / 2
      if !f h then searchLoop f fuel (h + 1) j else searchLoop f fuel i h
    else i

/-- The function `sort.Search n f`.  The interval shrinks at every iteration, so `n` iterations
are enough. -/
def Search (n : Nat) (f : Nat → Bool) : Nat := searchLoop f n 0 n

/-- The method `sort.StringSlice.Search`: `sort.Search` with the test `a[i] >= x`. -/
def StringSliceSearch (a : List String) (x : String) : Nat :=
  Search a.length (fun i => decide (x ≤ a.getD i ""))

/-- The method `sort.StringSlice.Sort` of the Go standard library: the slice rearranged in
increasing order. -/
def StringSliceSort (a : List String) : List String :=
  a.insertionSort (fun x y => x ≤ y)

/-- The struct `SortedStringSlice`. -/
structure SortedStringSlice where
  strings : List String
  deriving DecidableEq, Repr

/-- The method `SortedStringSlice.Contains`. -/
def SortedStringSlice.Contains (s : SortedStringSlice) (str : String) : Bool :=
  let i := StringSliceSearch s.strings str
  if i < s.strings.length ∧ s.strings.getD i "" = str then true else false

/-- The method `SortedStringSlice.Append`. -/
def SortedStringSlice.Append (s : SortedStringSlice) (strs : List String) : SortedStringSlice :=
  { strings := StringSliceSort (s.strings ++ strs) }

/-! ## The aggregator -/

/-- Modelled from the spec: the `deduplicator.Deduplicator`, whose `isUnique(report)` records the
report as seen and returns false on a repeat, and whose `clear()` forgets everything.  `calls`
counts the `IsUnique` calls made so far; it is there to observe whether the deduplicator was
consulted and has no influence on any answer. -/
structure Deduplicator (Report : Type) where
  seen : List Report
  calls : Nat

/-- Modelled from the spec: `Deduplicator.IsUnique`. -/
def Deduplicator.IsUnique {Report : Type} [DecidableEq Report] (d : Deduplicator Report)
    (r : Report) : Bool × Deduplicator Report :=
  if r ∈ d.seen then (false, { d with calls := d.calls + 1 })
  else (true, { seen := d.seen ++ [r], calls := d.calls + 1 })

/-- Modelled from the spec: `Deduplicator.Clear`. -/
def Deduplicator.Clear {Report : Type} (d : Deduplicator Report) : Deduplicator Report :=
  { seen := [], calls := d.calls }

/-- What a storage object is written from: the file `uploadBinaryFromDisk` copies, or the string
`uploadString` writes. -/
inductive ObjectBody where
  | fromDisk (filePath : String)
  | fromString (contents : String)
  deriving DecidableEq, Repr

/-- An object written to the storage bucket. -/
structure StorageObject where
  name : String
  ContentEncoding : String
  body : ObjectBody
  deriving DecidableEq, Repr

/-- The storage sink behind `storageClient`: the objects written so far, and the number of writes
attempted so far. -/
structure StorageClient where
  objects : List StorageObject
  writes : Nat
  deriving DecidableEq, Repr

/-- The struct `Aggregator`.  The channels are lists, the shutdown machinery is left to
`ShutDown`. -/
structure Aggregator (Report : Type) where
  MakeBugOnBadFuzz : Bool
  UploadGreyFuzzes : Bool
  Category : String
  storageClient : StorageClient
  fuzzPath : String
  executablePath : String
  forAnalysis : List String
  forUpload : List uploadPackage
  forBugReporting : List bugReportingPackage
  deduplicator : Deduplicator Report
  analysisCount : Int
  uploadCount : Int
  bugReportCount : Int
  greyNames : List String
  badNames : List String

section
variable {Report : Type}

/-- The variable `CLANG_DEBUG`. -/
def CLANG_DEBUG (w : World Report) : String := w.TEST_HARNESS_NAME ++ "_clang_debug"

/-- The variable `CLANG_RELEASE`. -/
def CLANG_RELEASE (w : World Report) : String := w.TEST_HARNESS_NAME ++ "_clang_release"

/-- The variable `ASAN_DEBUG`. -/
def ASAN_DEBUG (w : World Report) : String := w.TEST_HARNESS_NAME ++ "_asan_debug"

/-- The variable `ASAN_RELEASE`. -/
def ASAN_RELEASE (w : World Report) : String := w.TEST_HARNESS_NAME ++ "_asan_release"

/-! ### Analysis -/

/-- The method `Aggregator.performAnalysis`: the two buffers and the returned error.  Both
branches on the error of `exec.Run` return `nil`. -/
def Aggregator.performAnalysis (w : World Report) (agg : Aggregator Report)
    (workingDirPath executableName pathToFile : String) : String × String × Option String :=
  let cmd : Command :=
    { Name := "timeout"
      Args := w.AnalysisArgsFor agg.Category ("./" ++ executableName) pathToFile
      Dir := workingDirPath
      InheritPath := true
      Env := [w.ASAN_OPTIONS] }
  let r := w.Run cmd
  match r.err with
  | some _ => (r.Stdout, r.Stderr, none)
  | none => (r.Stdout, r.Stderr, none)

/-- The method `Aggregator.analyze`: the package and the returned error. -/
def Aggregator.analyze (w : World Report) (agg : Aggregator Report)
    (workingDirPath fileName : String) : uploadPackage × Option String :=
  let upload : uploadPackage :=
    { Data :=
        { Name := fileName
          FuzzCategory := agg.Category
          Debug := { Asan := "", Dump := "", StdErr := "" }
          Release := { Asan := "", Dump := "", StdErr := "" } }
      FuzzType := BAD_FUZZ
      FilePath := pathJoin agg.fuzzPath fileName }
  match agg.performAnalysis w workingDirPath (CLANG_DEBUG w) upload.FilePath with
  | (_, _, some err) => (upload, some err)
  | (dump, stderr, none) =>
  let upload := { upload with Data := { upload.Data with
    Debug := { upload.Data.Debug with Dump := dump, StdErr := stderr } } }
  match agg.performAnalysis w workingDirPath (CLANG_RELEASE w) upload.FilePath with
  | (_, _, some err) => (upload, some err)
  | (dump, stderr, none) =>
  let upload := { upload with Data := { upload.Data with
    Release := { upload.Data.Release with Dump := dump, StdErr := stderr } } }
  match agg.performAnalysis w workingDirPath (ASAN_DEBUG w) upload.FilePath with
  | (_, _, some err) => (upload, some err)
  | (_, stderr, none) =>
  let upload := { upload with Data := { upload.Data with
    Debug := { upload.Data.Debug with Asan := stderr } } }
  match agg.performAnalysis w workingDirPath (ASAN_RELEASE w) upload.FilePath with
  | (_, _, some err) => (upload, some err)
  | (_, stderr, none) =>
  let upload := { upload with Data := { upload.Data with
    Release := { upload.Data.Release with Asan := stderr } } }
  let r := w.ParseGCSPackage upload.Data
  if r.DebugFlags = w.TerminatedGracefully ∧ r.ReleaseFlags = w.TerminatedGracefully then
    ({ upload with FuzzType := GREY_FUZZ }, none)
  else (upload, none)

/-- The method `Aggregator.performAnalysis`, with the log of the commands handed to `exec.Run`:
the call appends its command to the log. -/
def Aggregator.performAnalysisLogged (w : World Report) (agg : Aggregator Report)
    (log : List Command) (workingDirPath executableName pathToFile : String) :
    (String × String × Option String) × List Command :=
  let cmd : Command :=
    { Name := "timeout"
      Args := w.AnalysisArgsFor agg.Category ("./" ++ executableName) pathToFile
      Dir := workingDirPath
      InheritPath := true
      Env := [w.ASAN_OPTIONS] }
  let r := w.Run cmd
  match r.err with
  | some _ => ((r.Stdout, r.Stderr, none), log ++ [cmd])
  | none => ((r.Stdout, r.Stderr, none), log ++ [cmd])

/-- The method `Aggregator.analyze`, with the log of the commands handed to `exec.Run`. -/
def Aggregator.analyzeLogged (w : World Report) (agg : Aggregator Report)
    (log : List Command) (workingDirPath fileName : String) :
    (uploadPackage × Option String) × List Command :=
  let upload : uploadPackage :=
    { Data :=
        { Name := fileName
          FuzzCategory := agg.Category
          Debug := { Asan := "", Dump := "", StdErr := "" }
          Release := { Asan := "", Dump := "", StdErr := "" } }
      FuzzType := BAD_FUZZ
      FilePath := pathJoin agg.fuzzPath fileName }
  match agg.performAnalysisLogged w log workingDirPath (CLANG_DEBUG w) upload.FilePath with
  | ((_, _, some err), log) => ((upload, some err), log)
  | ((dump, stderr, none), log) =>
  let upload := { upload with Data := { upload.Data with
    Debug := { upload.Data.Debug with Dump := dump, StdErr := stderr } } }
  match agg.performAnalysisLogged w log workingDirPath (CLANG_RELEASE w) upload.FilePath with
  | ((_, _, some err), log) => ((upload, some err), log)
  | ((dump, stderr, none), log) =>
  let upload := { upload with Data := { upload.Data with
    Release := { upload.Data.Release with Dump := dump, StdErr := stderr } } }
  match agg.performAnalysisLogged w log workingDirPath (ASAN_DEBUG w) upload.FilePath with
  | ((_, _, some err), log) => ((upload, some err), log)
  | ((_, stderr, none), log) =>
  let upload := { upload with Data := { upload.Data with
    Debug := { upload.Data.Debug with Asan := stderr } } }
  match agg.performAnalysisLogged w log workingDirPath (ASAN_RELEASE w) upload.FilePath with
  | ((_, _, some err), log) => ((upload, some err), log)
  | ((_, stderr, none), log) =>
  let upload := { upload with Data := { upload.Data with
    Release := { upload.Data.Release with Asan := stderr } } }
  let r := w.ParseGCSPackage upload.Data
  if r.DebugFlags = w.TerminatedGracefully ∧ r.ReleaseFlags = w.TerminatedGracefully then
    (({ upload with FuzzType := GREY_FUZZ }, none), log)
  else ((upload, none), log)

/-! ### The fingerprint (`crypto/sha1`, `fmt.Sprintf("%x", ...)`)

The function `sha1.Sum` of the Go standard library, as FIPS 180 defines SHA-1.  Words are
natural numbers below `2 ^ 32`; every addition and rotation is reduced modulo `2 ^ 32`. -/

/-- The rotation to the left of a 32-bit word by `n` bits. -/
def rotl32 (x n : Nat) : Nat := ((x <<< n) ||| (x >>> (32 - n))) % 2 ^ 32

/-- The `n` low bytes of `x`, most significant first. -/
def beBytes : Nat → Nat → List Nat
  | 0, _ => []
  | n + 1, x => (x >>> (8 * n)) % 256 :: beBytes n x

/-- The padding of SHA-1: the bit `1`, zeros up to 56 modulo 64 bytes, and the length of the
message in bits on 8 bytes. -/
def sha1Pad (msg : List Nat) : List Nat :=
  msg ++ [0x80] ++ List.replicate ((119 - msg.length % 64) % 64) 0 ++ beBytes 8 (8 * msg.length)

/-- The 32-bit word of four bytes, most significant first. -/
def beWord : List Nat → Nat
  | a :: b :: c :: d :: _ => ((a * 256 + b) * 256 + c) * 256 + d
  | _ => 0

/-- The first `n` words of a block. -/
def blockWords : Nat → List Nat → List Nat
  | 0, _ => []
  | n + 1, bs => beWord bs :: blockWords n (bs.drop 4)

/-- The message schedule extended by `n` words; `ws` holds the words so far, the latest
first. -/
def sha1Schedule : Nat → List Nat → List Nat
  | 0, ws => ws
  | n + 1, ws =>
    sha1Schedule n
      (rotl32 (ws.getD 2 0 ^^^ ws.getD 7 0 ^^^ ws.getD 13 0 ^^^ ws.getD 15 0) 1 :: ws)

/-- The five working words of SHA-1. -/
structure Sha1State where
  a : Nat
  b : Nat
  c : Nat
  d : Nat
  e : Nat
  deriving DecidableEq, Repr

/-- The round `t` of SHA-1 on the schedule word `wt`. -/
def sha1Round (t : Nat) (s : Sha1State) (wt : Nat) : Sha1State :=
  let fk : Nat × Nat :=
    if t < 20 then ((s.b &&& s.c) ||| ((s.b ^^^ 0xFFFFFFFF) &&& s.d), 0x5A827999)
    else if t < 40 then (s.b ^^^ s.c ^^^ s.d, 0x6ED9EBA1)
    else if t < 60 then ((s.b &&& s.c) ||| (s.b &&& s.d) ||| (s.c &&& s.d), 0x8F1BBCDC)
    else (s.b ^^^ s.c ^^^ s.d, 0xCA62C1D6)
  { a := (rotl32 s.a 5 + fk.1 + s.e + fk.2 + wt) % 2 ^ 32
    b := s.a
    c := rotl32 s.b 30
    d := s.c
    e := s.d }

/-- The rounds of SHA-1 over the schedule, from round `t` on. -/
def sha1Rounds : Nat → List Nat → Sha1State → Sha1State
  | _, [], s => s
  | t, wt :: ws, s => sha1Rounds (t + 1) ws (sha1Round t s wt)

/-- The compression of one 64-byte block into the chaining value `h`. -/
def sha1Block (h : Sha1State) (block : List Nat) : Sha1State :=
  let ws := (sha1Schedule 64 (blockWords 16 block).reverse).reverse
  let s := sha1Rounds 0 ws h
  { a := (h.a + s.a) % 2 ^ 32, b := (h.b + s.b) % 2 ^ 32, c := (h.c + s.c) % 2 ^ 32,
    d := (h.d + s.d) % 2 ^ 32, e := (h.e + s.e) % 2 ^ 32 }

/-- The compression of `n` successive blocks. -/
def sha1Blocks : Nat → List Nat → Sha1State → Sha1State
  | 0, _, h => h
  | n + 1, bs, h => sha1Blocks n (bs.drop 64) (sha1Block h (bs.take 64))

/-- The function `sha1.Sum`: the 20 bytes of the SHA-1 digest. -/
def sha1Sum (data : Bytes) : Bytes :=
  let padded := sha1Pad (data.map UInt8.toNat)
  let h := sha1Blocks (padded.length / 64) padded
    { a := 0x67452301, b := 0xEFCDAB89, c := 0x98BADCFE, d := 0x10325476, e := 0xC3D2E1F0 }
  (beBytes 4 h.a ++ beBytes 4 h.b ++ beBytes 4 h.c ++ beBytes 4 h.d ++ beBytes 4 h.e).map
    UInt8.ofNat

/-- The lowercase hexadecimal digit of a number below 16. -/
def hexDigit (n : Nat) : Char :=
  if n < 10 then Char.ofNat (48 + n) else Char.ofNat (87 + n)

/-- The formatting `fmt.Sprintf("%x", bs)` of a byte array: two lowercase hexadecimal digits
per byte. -/
def hexString (bs : Bytes) : String :=
  String.mk (bs.flatMap fun b => [hexDigit (b.toNat / 16), hexDigit (b.toNat % 16)])

/-- The function `calculateHash`: the hash, the contents and the returned error. -/
def calculateHash (w : World Report) (path : String) : String × Bytes × Option String :=
  match w.ReadFile path with
  | .error err => ("", [], some err)
  | .ok data => (hexString (sha1Sum data), data, none)

/-- The files of the directory `fuzzPath`, in which the analysis retains its copies: each path
with its contents. -/
structure Disk where
  files : List (String × Bytes)
  deriving DecidableEq, Repr

/-- A successful `ioutil.WriteFile(path, data, 0644)`: the file at `path` is created or
replaced. -/
def Disk.write (disk : Disk) (path : String) (data : Bytes) : Disk :=
  { files := (path, data) :: disk.files.filter fun f => f.1 ≠ path }

/-- The method `Aggregator.analysisHelper`: the aggregator and the retained files afterwards,
and the returned error. -/
def Aggregator.analysisHelper (w : World Report) (agg : Aggregator Report) (disk : Disk)
    (executableDir badFuzzPath : String) : Aggregator Report × Disk × Option String :=
  match calculateHash w badFuzzPath with
  | (_, _, some err) => (agg, disk, some err)
  | (hash, data, none) =>
    let newFuzzPath := pathJoin agg.fuzzPath hash
    match w.WriteFile newFuzzPath with
    | some err => (agg, disk, some err)
    | none =>
      let disk := disk.write newFuzzPath data
      match agg.analyze w executableDir hash with
      | (_, some err) => (agg, disk, some err)
      | (upload, none) => ({ agg with forUpload := agg.forUpload ++ [upload] }, disk, none)

/-- The call `atomic.AddInt64(&agg.analysisCount, delta)`. -/
def Aggregator.addAnalysisCount (agg : Aggregator Report) (delta : Int) : Aggregator Report :=
  { agg with analysisCount := agg.analysisCount + delta }

/-- The rest of the case `badFuzzPath := <-agg.forAnalysis` of the loop of `waitForAnalysis`,
after the increment of `analysisCount`: the aggregator and the retained files afterwards, and
whether the worker goes on with its loop (`false` when it returns). -/
def Aggregator.waitForAnalysisFinish (w : World Report) (agg : Aggregator Report) (disk : Disk)
    (executableDir badFuzzPath : String) : Aggregator Report × Disk × Bool :=
  match agg.analysisHelper w disk executableDir badFuzzPath with
  | (agg, disk, some _) => (agg.addAnalysisCount (-1), disk, false)
  | (agg, disk, none) => (agg, disk, true)

/-- The body of the case `badFuzzPath := <-agg.forAnalysis` of the loop of `waitForAnalysis`. -/
def Aggregator.waitForAnalysisBody (w : World Report) (agg : Aggregator Report) (disk : Disk)
    (executableDir badFuzzPath : String) : Aggregator Report × Disk × Bool :=
  (agg.addAnalysisCount 1).waitForAnalysisFinish w disk executableDir badFuzzPath

/-! ### Scanning -/

/-- The innermost loop of `findBadFuzzPaths`, over the entries of one crash directory;
`badFuzzPaths` is the slice collected so far. -/
def scanCrashContents (alreadyFoundFuzzes : SortedStringSlice) (crashPath : String) :
    List FileInfo → List String → List String
  | [], badFuzzPaths => badFuzzPaths
  | crash :: rest, badFuzzPaths =>
    if crash.Name ≠ "README.txt" then
      let fuzzPath := pathJoin crashPath crash.Name
      if !alreadyFoundFuzzes.Contains fuzzPath then
        scanCrashContents alreadyFoundFuzzes crashPath rest (badFuzzPaths ++ [fuzzPath])
      else scanCrashContents alreadyFoundFuzzes crashPath rest badFuzzPaths
    else scanCrashContents alreadyFoundFuzzes crashPath rest badFuzzPaths

/-- The calls `os.Open(path)` and then `Readdir(-1)` on the directory it returns, as
`findBadFuzzPaths` makes them for each fuzzer folder and each crash folder: the entries, or the
first error. -/
def World.listDir (w : World Report) (path : String) : Except String (List FileInfo) :=
  match w.Open path with
  | .notExist => .error "file does not exist"
  | .failed err => .error err
  | .ok => w.Readdir path

/-- The middle loop of `findBadFuzzPaths`, over the entries of one fuzzer folder at `path`. -/
def scanFuzzerContents (w : World Report) (alreadyFoundFuzzes : SortedStringSlice)
    (path : String) : List FileInfo → List String → Except String (List String)
  | [], badFuzzPaths => .ok badFuzzPaths
  | info :: rest, badFuzzPaths =>
    if info.IsDir && HasPrefix info.Name "crashes" then
      let crashPath := pathJoin path info.Name
      match w.listDir crashPath with
      | .error err => .error err
      | .ok crashContents =>
        scanFuzzerContents w alreadyFoundFuzzes path rest
          (scanCrashContents alreadyFoundFuzzes crashPath crashContents badFuzzPaths)
    else scanFuzzerContents w alreadyFoundFuzzes path rest badFuzzPaths

/-- The outer loop of `findBadFuzzPaths`, over the fuzzer folders of `scanPath`. -/
def scanFuzzerFolders (w : World Report) (alreadyFoundFuzzes : SortedStringSlice)
    (scanPath : String) : List FileInfo → List String → Except String (List String)
  | [], badFuzzPaths => .ok badFuzzPaths
  | fuzzerFolderInfo :: rest, badFuzzPaths =>
    let path := pathJoin scanPath fuzzerFolderInfo.Name
    match w.listDir path with
    | .error err => .error err
    | .ok fuzzerContents =>
      match scanFuzzerContents w alreadyFoundFuzzes path fuzzerContents badFuzzPaths with
      | .error err => .error err
      | .ok badFuzzPaths => scanFuzzerFolders w alreadyFoundFuzzes scanPath rest badFuzzPaths

/-- The path `filepath.Join(config.Generator.AflOutputPath, agg.Category)` that is scanned. -/
def Aggregator.scanPath (w : World Report) (agg : Aggregator Report) : String :=
  pathJoin w.AflOutputPath agg.Category

/-- The method `Aggregator.findBadFuzzPaths`. -/
def Aggregator.findBadFuzzPaths (w : World Report) (agg : Aggregator Report)
    (alreadyFoundFuzzes : SortedStringSlice) : Except String (List String) :=
  let scanPath := agg.scanPath w
  match w.Open scanPath with
  | .notExist => .ok []
  | .failed err => .error err
  | .ok =>
    match w.Readdir scanPath with
    | .error err => .error err
    | .ok fuzzerFolders => scanFuzzerFolders w alreadyFoundFuzzes scanPath fuzzerFolders []

/-- The method `Aggregator.scanHelper`: the aggregator and the already-found slice after the
call, and the returned error. -/
def Aggregator.scanHelper (w : World Report) (agg : Aggregator Report)
    (alreadyFoundFuzzes : SortedStringSlice) :
    Aggregator Report × SortedStringSlice × Option String :=
  match agg.findBadFuzzPaths w alreadyFoundFuzzes with
  | .error err => (agg, alreadyFoundFuzzes, some err)
  | .ok newlyFound =>
    ({ agg with forAnalysis := agg.forAnalysis ++ newlyFound },
     alreadyFoundFuzzes.Append newlyFound, none)

/-- Repeated `scanHelper` calls on the same environment, as `scanForNewCandidates` makes them
one per tick; the scanner stops at the first error. -/
def Aggregator.scanTicks (w : World Report) :
    Nat → Aggregator Report → SortedStringSlice → Aggregator Report × SortedStringSlice
  | 0, agg, alreadyFoundFuzzes => (agg, alreadyFoundFuzzes)
  | n + 1, agg, alreadyFoundFuzzes =>
    match agg.scanHelper w alreadyFoundFuzzes with
    | (agg1, found1, none) => Aggregator.scanTicks w n agg1 found1
    | (agg1, found1, some _) => (agg1, found1)

/-! ### Upload -/

/-- The object name `fmt.Sprintf("%s/%s/%s/%s/%s", ...)` that both upload helpers compose. -/
def objectName (w : World Report) (p : uploadPackage) (fileName : String) : String :=
  p.Data.FuzzCategory ++ "/" ++ w.SkiaVersionHash ++ "/" ++ p.FuzzType ++ "/" ++ p.Data.Name
    ++ "/" ++ fileName

/-- One write to the storage sink: it takes the next outcome of `writeErr`; the object is there
afterwards when the write succeeded. -/
def StorageClient.write (w : World Report) (c : StorageClient) (o : StorageObject) :
    StorageClient × Option String :=
  match w.writeErr c.writes with
  | none => ({ objects := c.objects ++ [o], writes := c.writes + 1 }, none)
  | some err => ({ objects := c.objects, writes := c.writes + 1 }, some err)

/-- Writing a list of objects one after the other, stopping at the first write that fails. -/
def writeSeq (w : World Report) : StorageClient → List StorageObject → StorageClient × Option String
  | c, [] => (c, none)
  | c, o :: os =>
    match (c.write w o).2 with
    | some err => ((c.write w o).1, some err)
    | none => writeSeq w (c.write w o).1 os

/-- The seven artifacts of a package as the storage scheme names them, in the order of upload:
the key of each is `{category}/{revision}/{classification}/{fingerprint}/{artifact-name}`; the
first is the retained file, the other six carry the text fields of the package. -/
def expectedObjects (revision : String) (p : uploadPackage) : List StorageObject :=
  let key := fun (artifact : String) =>
    p.Data.FuzzCategory ++ "/" ++ revision ++ "/" ++ p.FuzzType ++ "/" ++ p.Data.Name ++ "/"
      ++ artifact
  [ { name := key p.Data.Name, ContentEncoding := "application/octet-stream",
      body := .fromDisk p.FilePath },
    { name := key (p.Data.Name ++ "_debug.asan"), ContentEncoding := "text/plain",
      body := .fromString p.Data.Debug.Asan },
    { name := key (p.Data.Name ++ "_debug.dump"), ContentEncoding := "text/plain",
      body := .fromString p.Data.Debug.Dump },
    { name := key (p.Data.Name ++ "_debug.err"), ContentEncoding := "text/plain",
      body := .fromString p.Data.Debug.StdErr },
    { name := key (p.Data.Name ++ "_release.asan"), ContentEncoding := "text/plain",
      body := .fromString p.Data.Release.Asan },
    { name := key (p.Data.Name ++ "_release.dump"), ContentEncoding := "text/plain",
      body := .fromString p.Data.Release.Dump },
    { name := key (p.Data.Name ++ "_release.err"), ContentEncoding := "text/plain",
      body := .fromString p.Data.Release.StdErr } ]

/-- The accumulated name lists after `upload` has appended the name of `p`. -/
def Aggregator.withName (agg : Aggregator Report) (p : uploadPackage) : Aggregator Report :=
  if p.FuzzType = GREY_FUZZ then { agg with greyNames := agg.greyNames ++ [p.Data.Name] }
  else { agg with badNames := agg.badNames ++ [p.Data.Name] }

/-- The method `Aggregator.uploadBinaryFromDisk`. -/
def Aggregator.uploadBinaryFromDisk (w : World Report) (agg : Aggregator Report)
    (p : uploadPackage) (fileName filePath : String) : Aggregator Report × Option String :=
  let name := objectName w p fileName
  match w.Open filePath with
  | .notExist => (agg, some "file does not exist")
  | .failed err => (agg, some err)
  | .ok =>
    match agg.storageClient.write w
      { name := name, ContentEncoding := "application/octet-stream", body := .fromDisk filePath } with
    | (c, some err) => ({ agg with storageClient := c }, some err)
    | (c, none) => ({ agg with storageClient := c }, none)

/-- The method `Aggregator.uploadString`. -/
def Aggregator.uploadString (w : World Report) (agg : Aggregator Report)
    (p : uploadPackage) (fileName contents : String) : Aggregator Report × Option String :=
  let name := objectName w p fileName
  match agg.storageClient.write w
    { name := name, ContentEncoding := "text/plain", body := .fromString contents } with
  | (c, some err) => ({ agg with storageClient := c }, some err)
  | (c, none) => ({ agg with storageClient := c }, none)

/-- The method `Aggregator.upload`. -/
def Aggregator.upload (w : World Report) (agg : Aggregator Report) (p : uploadPackage) :
    Aggregator Report × Option String :=
  let agg :=
    if p.FuzzType = GREY_FUZZ then { agg with greyNames := agg.greyNames ++ [p.Data.Name] }
    else { agg with badNames := agg.badNames ++ [p.Data.Name] }
  match agg.uploadBinaryFromDisk w p p.Data.Name p.FilePath with
  | (agg, some err) => (agg, some err)
  | (agg, none) =>
  match agg.uploadString w p (p.Data.Name ++ "_debug.asan") p.Data.Debug.Asan with
  | (agg, some err) => (agg, some err)
  | (agg, none) =>
  match agg.uploadString w p (p.Data.Name ++ "_debug.dump") p.Data.Debug.Dump with
  | (agg, some err) => (agg, some err)
  | (agg, none) =>
  match agg.uploadString w p (p.Data.Name ++ "_debug.err") p.Data.Debug.StdErr with
  | (agg, some err) => (agg, some err)
  | (agg, none) =>
  match agg.uploadString w p (p.Data.Name ++ "_release.asan") p.Data.Release.Asan with
  | (agg, some err) => (agg, some err)
  | (agg, none) =>
  match agg.uploadString w p (p.Data.Name ++ "_release.dump") p.Data.Release.Dump with
  | (agg, some err) => (agg, some err)
  | (agg, none) =>
  agg.uploadString w p (p.Data.Name ++ "_release.err") p.Data.Release.StdErr

/-- The body of the case `p := <-agg.forUpload` of the loop of `waitForUploads`: the aggregator
afterwards, and whether the worker goes on with its loop (`false` when it returns). -/
def Aggregator.waitForUploadsBody [DecidableEq Report] (w : World Report)
    (agg : Aggregator Report) (p : uploadPackage) : Aggregator Report × Bool :=
  let agg := { agg with uploadCount := agg.uploadCount + 1 }
  if !agg.UploadGreyFuzzes && p.FuzzType = GREY_FUZZ then
    ({ agg with bugReportCount := agg.bugReportCount + 1 }, true)
  else
    -- `p.FuzzType != GREY_FUZZ && !agg.deduplicator.IsUnique(...)`: the deduplicator is asked
    -- only when the first operand holds
    let asked : Bool × Aggregator Report :=
      if p.FuzzType ≠ GREY_FUZZ then
        let u := agg.deduplicator.IsUnique (w.ParseReport p.Data)
        (!u.1, { agg with deduplicator := u.2 })
      else (false, agg)
    let agg := asked.2
    if asked.1 then
      ({ agg with bugReportCount := agg.bugReportCount + 1 }, true)
    else
      match agg.upload w p with
      | (agg, some _) => ({ agg with bugReportCount := agg.bugReportCount + 1 }, false)
      | (agg, none) =>
        ({ agg with forBugReporting := agg.forBugReporting ++
            [{ FuzzName := p.Data.Name, CommitHash := w.SkiaVersionHash,
               IsBadFuzz := p.FuzzType = BAD_FUZZ }] }, true)

/-- One iteration of the loop of `waitForUploads` that receives from `forUpload`: with an empty
channel the worker waits and nothing changes. -/
def Aggregator.waitForUploadsStep [DecidableEq Report] (w : World Report)
    (agg : Aggregator Report) : Aggregator Report × Bool :=
  match agg.forUpload with
  | [] => (agg, true)
  | p :: rest => Aggregator.waitForUploadsBody w { agg with forUpload := rest } p

/-! ### Bug reporting -/

/-- The method `Aggregator.bugReportingHelper`: the aggregator afterwards, whether the branch
`agg.MakeBugOnBadFuzz && p.IsBadFuzz` (the bug action, which logs that a bug should be created)
was taken, and the returned error.  The deferred increment runs when the function returns. -/
def Aggregator.bugReportingHelper (agg : Aggregator Report) (p : bugReportingPackage) :
    Aggregator Report × Bool × Option String :=
  let bugAction := if agg.MakeBugOnBadFuzz && p.IsBadFuzz then true else false
  ({ agg with bugReportCount := agg.bugReportCount + 1 }, bugAction, none)

/-- The body of the case `p := <-agg.forBugReporting` of the loop of `waitForBugReporting`: the
aggregator afterwards, and whether the worker goes on with its loop. -/
def Aggregator.waitForBugReportingBody (agg : Aggregator Report) (p : bugReportingPackage) :
    Aggregator Report × Bool :=
  match agg.bugReportingHelper p with
  | (agg, _, some _) => (agg, false)
  | (agg, _, none) => (agg, true)

/-! ### The pipeline, one worker loop iteration at a time -/

/-- One iteration of the loop of some worker that receives an item: an analysis worker (with
its working directory, and whatever the retained files are) takes the head of `forAnalysis`, an
upload worker the head of `forUpload`, the bug-report worker the head of `forBugReporting`.  The
flag tells whether the worker goes on; it is `false` when the iteration ended in an error. -/
inductive Iteration [DecidableEq Report] (w : World Report) :
    Aggregator Report → Aggregator Report → Bool → Prop where
  | analysis (agg : Aggregator Report) (badFuzzPath : String) (rest : List String)
      (disk : Disk) (executableDir : String) (h : agg.forAnalysis = badFuzzPath :: rest) :
      Iteration w agg
        (Aggregator.waitForAnalysisBody w { agg with forAnalysis := rest } disk executableDir
          badFuzzPath).1
        (Aggregator.waitForAnalysisBody w { agg with forAnalysis := rest } disk executableDir
          badFuzzPath).2.2
  | upload (agg : Aggregator Report) (p : uploadPackage) (rest : List uploadPackage)
      (h : agg.forUpload = p :: rest) :
      Iteration w agg
        (Aggregator.waitForUploadsBody w { agg with forUpload := rest } p).1
        (Aggregator.waitForUploadsBody w { agg with forUpload := rest } p).2
  | bugReport (agg : Aggregator Report) (p : bugReportingPackage)
      (rest : List bugReportingPackage) (h : agg.forBugReporting = p :: rest) :
      Iteration w agg
        (Aggregator.waitForBugReportingBody { agg with forBugReporting := rest } p).1
        (Aggregator.waitForBugReportingBody { agg with forBugReporting := rest } p).2

/-- An execution of `n` iterations, none of which ended in an error. -/
inductive Execution [DecidableEq Report] (w : World Report) :
    Nat → Aggregator Report → Aggregator Report → Prop where
  | start (agg : Aggregator Report) : Execution w 0 agg agg
  | step (n : Nat) (agg mid next : Aggregator Report) (h : Execution w n agg mid)
      (hi : Iteration w mid next true) : Execution w (n + 1) agg next

/-- The states the pipeline passes through from a state: by worker loop iterations, also those
that end in an error, and by the paths the scanner and `ForceAnalysis` send to `forAnalysis`. -/
inductive Reachable [DecidableEq Report] (w : World Report) :
    Aggregator Report → Aggregator Report → Prop where
  | start (agg : Aggregator Report) : Reachable w agg agg
  | iteration (agg mid next : Aggregator Report) (cont : Bool) (h : Reachable w agg mid)
      (hi : Iteration w mid next cont) : Reachable w agg next
  | queued (agg mid : Aggregator Report) (badFuzzPath : String) (h : Reachable w agg mid) :
      Reachable w agg { mid with forAnalysis := mid.forAnalysis ++ [badFuzzPath] }

/-! ### Drain detection -/

/-- The condition `a == 0 && u == 0 && b == 0 && agg.analysisCount == agg.uploadCount &&
agg.uploadCount == agg.bugReportCount` that `WaitForEmptyQueues` tests. -/
def Aggregator.drained (agg : Aggregator Report) : Bool :=
  agg.forAnalysis.length == 0 && agg.forUpload.length == 0 && agg.forBugReporting.length == 0
    && agg.analysisCount == agg.uploadCount && agg.uploadCount == agg.bugReportCount

/-- How a call of `WaitForEmptyQueues` ended: the number of polling rounds it made, the final
value of `hangCount`, and how many times the warning that it is quitting was logged. -/
structure WaitResult where
  rounds : Nat
  hangCount : Nat
  warnings : Nat
  deriving DecidableEq, Repr

/-- The loop `for _ = range t` of `WaitForEmptyQueues`.  The workers run concurrently, so the
aggregator the loop reads at round `k` is `obs k`; the reads of one round are taken as one
observation.  `fuel` is the number of ticks still delivered, `round` the number of the tick
being served. -/
def waitLoop (obs : Nat → Aggregator Report) :
    Nat → Nat → Nat → Nat → Option WaitResult
  | 0, _, _, _ => none
  | fuel + 1, round, hangCount, warnings =>
    if (obs round).drained then
      some { rounds := round, hangCount := hangCount, warnings := warnings }
    else
      let hangCount := hangCount + 1
      let warnings := if hangCount ≥ HANG_THRESHOLD then warnings + 1 else warnings
      waitLoop obs fuel (round + 1) hangCount warnings

/-- The method `Aggregator.WaitForEmptyQueues`: `obs 0` is the aggregator as read at the call,
`obs k` as read at the polling round `k`.  The result is `none` when the call has not returned
after `fuel` ticks. -/
def WaitForEmptyQueues (obs : Nat → Aggregator Report) (fuel : Nat) : Option WaitResult :=
  if (obs 0).drained then some { rounds := 0, hangCount := 0, warnings := 0 }
  else waitLoop obs fuel 1 0 0

/-! ### Start and shutdown -/

/-- The method `Aggregator.buildAnalysisBinaries`, as the error it returns: that of the first
of its ten calls that fails. -/
def World.buildAnalysisBinaries (w : World Report) : Option String :=
  (List.range 10).findSome? w.buildStepErr

/-- A buffered channel of shutdown signals (`chan bool`): `len` signals are waiting in it, and
it holds at most `cap`. -/
structure SignalChan where
  len : Nat
  cap : Nat
  deriving DecidableEq, Repr

/-- The statement `ch <- true`: `none` when the channel is full, so that the send blocks. -/
def SignalChan.send (ch : SignalChan) : Option SignalChan :=
  if ch.len < ch.cap then some { ch with len := ch.len + 1 } else none

/-- What a call of `start` that got past the build has set going: the scanning routine, the
workers of the three stages (the analysis and upload workers with the identifier they were
given), the monitoring routine, the counters of the two fresh wait groups, and the shutdown
channel of the aggregation workers. -/
structure Pipeline where
  scanners : Nat
  analysisWorkers : List Nat
  uploadWorkers : List Nat
  bugReportWorkers : Nat
  monitors : Nat
  monitoringWaitGroup : Nat
  aggregationWaitGroup : Nat
  aggregationShutdown : SignalChan
  deriving DecidableEq, Repr

/-- The loop `for i := 0; i < n; i++ { agg.aggregationWaitGroup.Add(1); go worker(i) }`, from
the value `i`: the identifiers of the workers it adds to those already spawned. -/
def spawnLoop (n : Int) : Nat → Nat → List Nat → List Nat
  | 0, _, spawned => spawned
  | fuel + 1, i, spawned =>
    if (i : Int) < n then spawnLoop n fuel (i + 1) (spawned ++ [i]) else spawned

/-- The method `Aggregator.start`: the aggregator with its counters reset, what was set going
(`none` when the build failed, which is before anything is spawned), and the error. -/
def Aggregator.start (w : World Report) (agg : Aggregator Report) :
    Aggregator Report × Option Pipeline × Option String :=
  let agg := { agg with analysisCount := 0, uploadCount := 0, bugReportCount := 0 }
  match w.buildAnalysisBinaries with
  | some err => (agg, none, some err)
  | none =>
    let numAnalysisProcesses :=
      if w.NumAnalysisProcesses ≤ 0 then 20 else w.NumAnalysisProcesses
    let analysisWorkers := spawnLoop numAnalysisProcesses numAnalysisProcesses.toNat 0 []
    let numUploadProcesses :=
      if w.NumUploadProcesses ≤ 0 then 5 else w.NumUploadProcesses
    let uploadWorkers := spawnLoop numUploadProcesses numUploadProcesses.toNat 0 []
    (agg,
      some
        { scanners := 1
          analysisWorkers := analysisWorkers
          uploadWorkers := uploadWorkers
          bugReportWorkers := 1
          monitors := 1
          monitoringWaitGroup := 1 + 1
          aggregationWaitGroup := analysisWorkers.length + uploadWorkers.length + 1
          aggregationShutdown :=
            { len := 0, cap := (numAnalysisProcesses + numUploadProcesses + 1).toNat } },
      none)

/-- The number of aggregation workers of a pipeline. -/
def Pipeline.aggregationWorkers (p : Pipeline) : Nat :=
  p.analysisWorkers.length + p.uploadWorkers.length + p.bugReportWorkers

/-- The loop `for i := len(agg.aggregationShutdown); i < cap(agg.aggregationShutdown); i++ {
agg.aggregationShutdown <- true }` of `ShutDown`, from the value `i`, with the number of signals
sent so far: the channel and the number of signals sent when the loop ends, `none` when a send
blocks on a full channel (or the fuel runs out). -/
def shutDownLoop : Nat → Nat → SignalChan → Nat → Option (SignalChan × Nat)
  | 0, i, ch, sent => if i < ch.cap then none else some (ch, sent)
  | fuel + 1, i, ch, sent =>
    if i < ch.cap then
      match ch.send with
      | none => none
      | some ch => shutDownLoop fuel (i + 1) ch (sent + 1)
    else some (ch, sent)

/-- The signalling part of the method `Aggregator.ShutDown`, on the shutdown channel as it is
when the loop starts. -/
def ShutDown (ch : SignalChan) : Option (SignalChan × Nat) :=
  shutDownLoop ch.cap ch.len ch 0

/-- The method `Aggregator.RestartAnalysis`. -/
def Aggregator.RestartAnalysis (w : World Report) (agg : Aggregator Report) :
    Aggregator Report × Option Pipeline × Option String :=
  Aggregator.start w { agg with deduplicator := agg.deduplicator.Clear }

/-! ## The statements about the scan tree -/

/-- The entries of the directory at `path`; none when it cannot be listed. -/
def World.ls (w : World Report) (path : String) : List FileInfo :=
  match w.listDir path with
  | .ok entries => entries
  | .error _ => []

/-- No filesystem operation of a scan of `scanPath` fails: the root can be listed, every entry of
the root can be listed, and so can every directory in them whose name starts with `crashes`. -/
def scanSucceeds (w : World Report) (scanPath : String) : Prop :=
  (w.Open scanPath = .ok ∧ ∃ entries, w.Readdir scanPath = .ok entries) ∧
  ∀ f ∈ w.ls scanPath,
    (∃ entries, w.listDir (pathJoin scanPath f.Name) = .ok entries) ∧
    ∀ c ∈ w.ls (pathJoin scanPath f.Name), c.IsDir = true → HasPrefix c.Name "crashes" = true →
      ∃ entries, w.listDir (pathJoin (pathJoin scanPath f.Name) c.Name) = .ok entries

/-- The path `p` is `scanPath/<worker>/<crashdir>/<name>` for an entry `<worker>` of the root, a
subdirectory `<crashdir>` of it whose name has the prefix `pre`, and an entry `<name>` of that
subdirectory other than `README.txt`. -/
def isCandidate (w : World Report) (scanPath pre p : String) : Prop :=
  ∃ f ∈ w.ls scanPath, ∃ c ∈ w.ls (pathJoin scanPath f.Name),
    c.IsDir = true ∧ HasPrefix c.Name pre = true ∧
    ∃ n ∈ w.ls (pathJoin (pathJoin scanPath f.Name) c.Name),
      n.Name ≠ "README.txt" ∧ p = pathJoin (pathJoin (pathJoin scanPath f.Name) c.Name) n.Name

/-- The names in a listing are those of a directory: no two entries have the same name and no
name contains the path separator. -/
def properListing (entries : List FileInfo) : Prop :=
  (entries.map (fun e => e.Name)).Nodup ∧ ∀ e ∈ entries, '/' ∉ e.Name.data

/-- Every listing a scan of `scanPath` reads is that of a directory. -/
def properTree (w : World Report) (scanPath : String) : Prop :=
  properListing (w.ls scanPath) ∧
  ∀ f ∈ w.ls scanPath, properListing (w.ls (pathJoin scanPath f.Name)) ∧
    ∀ c ∈ w.ls (pathJoin scanPath f.Name),
      properListing (w.ls (pathJoin (pathJoin scanPath f.Name) c.Name))

/-- The paths a scan collects from the crash folder at `crashPath`: its entries other than
`README.txt`, joined to `crashPath`, the ones in the already-found slice left out. -/
def crashFolderPaths (w : World Report) (alreadyFoundFuzzes : SortedStringSlice)
    (crashPath : String) : List String :=
  (((w.ls crashPath).filter fun n => decide (n.Name ≠ "README.txt")).map
      fun n => pathJoin crashPath n.Name).filter
    fun p => !alreadyFoundFuzzes.Contains p

/-- The paths a scan collects from the fuzzer folder at `path`: those of its subdirectories whose
name starts with `crashes`. -/
def fuzzerFolderPaths (w : World Report) (alreadyFoundFuzzes : SortedStringSlice)
    (path : String) : List String :=
  ((w.ls path).filter fun c => c.IsDir && HasPrefix c.Name "crashes").flatMap
    fun c => crashFolderPaths w alreadyFoundFuzzes (pathJoin path c.Name)

/-- The candidate paths of the tree in the order of the scan, the ones in the already-found
slice left out: what a scan without a failure is to return. -/
def candidatePaths (w : World Report) (alreadyFoundFuzzes : SortedStringSlice)
    (scanPath : String) : List String :=
  (w.ls scanPath).flatMap
    fun f => fuzzerFolderPaths w alreadyFoundFuzzes (pathJoin scanPath f.Name)

/-- The command `performAnalysis` builds for the executable `executableName` and the file
`pathToFile`. -/
def Aggregator.analysisCommand (w : World Report) (agg : Aggregator Report)
    (workingDirPath executableName pathToFile : String) : Command :=
  { Name := "timeout"
    Args := w.AnalysisArgsFor agg.Category ("./" ++ executableName) pathToFile
    Dir := workingDirPath
    InheritPath := true
    Env := [w.ASAN_OPTIONS] }

/-- The slice after a sequence of `Append` calls on the empty slice. -/
def appendAll (lists : List (List String)) : SortedStringSlice :=
  lists.foldl (fun s strs => s.Append strs) { strings := [] }

/-- The already-found slices a scanner can hold: the empty one it starts with, and the one each
`scanHelper` call that returns no error leaves, on whatever tree (with the listings of
directories) and aggregator it is made. -/
inductive ScanReach : SortedStringSlice → Prop where
  | empty : ScanReach { strings := [] }
  | scan {Report : Type} (w : World Report) (agg next : Aggregator Report)
      (found after : SortedStringSlice) (h : ScanReach found)
      (hp : properTree w (agg.scanPath w))
      (hs : agg.scanHelper w found = (next, after, none)) : ScanReach after

/-- A filesystem operation of a scan of `scanPath` fails, other than by the root not
existing: the root cannot be opened, or cannot be listed, or an entry of the root cannot be
opened or listed, or a directory in one of them whose name starts with `crashes` cannot be
opened or listed. -/
def scanFails (w : World Report) (scanPath : String) : Prop :=
  (∃ err, w.Open scanPath = .failed err) ∨
  (w.Open scanPath = .ok ∧ ∃ err, w.Readdir scanPath = .error err) ∨
  (∃ f ∈ w.ls scanPath, ∃ err, w.listDir (pathJoin scanPath f.Name) = .error err) ∨
  (∃ f ∈ w.ls scanPath, ∃ c ∈ w.ls (pathJoin scanPath f.Name),
    c.IsDir = true ∧ HasPrefix c.Name "crashes" = true ∧
    ∃ err, w.listDir (pathJoin (pathJoin scanPath f.Name) c.Name) = .error err)

/-! ### SHA-1 as RFC 3174 states it

The specification side of the fingerprint: the message digest of RFC 3174 (FIPS 180), written
from the standard and not from the implementation.  Words are natural numbers below `2 ^ 32`. -/

/-- RFC 3174, section 3: the circular left shift `S^n(X)` of a 32-bit word. -/
def rfcS (n X : Nat) : Nat := ((X <<< n) ||| (X >>> (32 - n))) % 2 ^ 32

/-- RFC 3174, section 4: the number of zero bytes of the padding, the least `k` for which the
message, the byte `0x80` and `k` zero bytes end 8 bytes before a multiple of 64 bytes. -/
def rfcZeros (len : Nat) : Nat :=
  ((List.range 64).filter fun k => (len + 1 + k) % 64 = 56).headD 0

/-- RFC 3174, section 4: the padded message. -/
def rfcPad (msg : List Nat) : List Nat :=
  msg ++ [0x80] ++ List.replicate (rfcZeros msg.length) 0
    ++ (List.range 8).map fun i => 8 * msg.length / 256 ^ (7 - i) % 256

/-- The block `M(i+1)` of the padded message: its bytes `64 i` to `64 i + 63`. -/
def rfcBlock (padded : List Nat) (i : Nat) : List Nat := (padded.drop (64 * i)).take 64

/-- The word `j` of a block, most significant byte first. -/
def rfcWord (block : List Nat) (j : Nat) : Nat :=
  block.getD (4 * j) 0 * 2 ^ 24 + block.getD (4 * j + 1) 0 * 2 ^ 16
    + block.getD (4 * j + 2) 0 * 2 ^ 8 + block.getD (4 * j + 3) 0

/-- RFC 3174, section 6.1 (a) and (b): the words `W(0)`, ..., `W(15 + n)` of a block. -/
def rfcW (block : List Nat) : Nat → List Nat
  | 0 => (List.range 16).map (rfcWord block)
  | n + 1 =>
    let W := rfcW block n
    let t := W.length
    W ++ [rfcS 1 (W.getD (t - 3) 0 ^^^ W.getD (t - 8) 0 ^^^ W.getD (t - 14) 0
      ^^^ W.getD (t - 16) 0)]

/-- RFC 3174, section 5: the function `f(t;B,C,D)`. -/
def rfcF (t B C D : Nat) : Nat :=
  if t ≤ 19 then (B &&& C) ||| ((B ^^^ 0xFFFFFFFF) &&& D)
  else if t ≤ 39 then B ^^^ C ^^^ D
  else if t ≤ 59 then (B &&& C) ||| (B &&& D) ||| (C &&& D)
  else B ^^^ C ^^^ D

/-- RFC 3174, section 5: the constant `K(t)`. -/
def rfcK (t : Nat) : Nat :=
  if t ≤ 19 then 0x5A827999
  else if t ≤ 39 then 0x6ED9EBA1
  else if t ≤ 59 then 0x8F1BBCDC
  else 0xCA62C1D6

/-- RFC 3174, section 6.1 (c) and (d): the words `A`, `B`, `C`, `D`, `E` after `t` steps on
the schedule `W`, from the chaining value `H`. -/
def rfcVars (W : List Nat) (H : Sha1State) : Nat → Sha1State
  | 0 => H
  | t + 1 =>
    let s := rfcVars W H t
    { a := (rfcS 5 s.a + rfcF t s.b s.c s.d + s.e + W.getD t 0 + rfcK t) % 2 ^ 32
      b := s.a
      c := rfcS 30 s.b
      d := s.c
      e := s.d }

/-- RFC 3174, section 6.1: the chaining value `H0`, ..., `H4` after the first `i` blocks. -/
def rfcH (padded : List Nat) : Nat → Sha1State
  | 0 => { a := 0x67452301, b := 0xEFCDAB89, c := 0x98BADCFE, d := 0x10325476, e := 0xC3D2E1F0 }
  | i + 1 =>
    let H := rfcH padded i
    let s := rfcVars (rfcW (rfcBlock padded i) 64) H 80
    { a := (H.a + s.a) % 2 ^ 32, b := (H.b + s.b) % 2 ^ 32, c := (H.c + s.c) % 2 ^ 32,
      d := (H.d + s.d) % 2 ^ 32, e := (H.e + s.e) % 2 ^ 32 }

/-- The SHA-1 message digest of a byte string: the 20 bytes of `H0 H1 H2 H3 H4` after the last
block, each word most significant byte first. -/
def rfcSHA1 (data : Bytes) : List Nat :=
  let padded := rfcPad (data.map UInt8.toNat)
  let H := rfcH padded (padded.length / 64)
  [H.a, H.b, H.c, H.d, H.e].flatMap fun x =>
    [x / 2 ^ 24 % 256, x / 2 ^ 16 % 256, x / 2 ^ 8 % 256, x % 256]

/-- The lowercase hexadecimal writing of a list of bytes, two digits per byte. -/
def rfcHex (bytes : List Nat) : String :=
  String.mk (bytes.flatMap fun b =>
    ["0123456789abcdef".data.getD (b / 16) '0', "0123456789abcdef".data.getD (b % 16) '0'])

/-- The two equations between the stage counters and the queue lengths:
`analysisCount = uploadCount + len(forUpload)` and
`uploadCount = bugReportCount + len(forBugReporting)`. -/
def Aggregator.balanced (agg : Aggregator Report) : Prop :=
  agg.analysisCount = agg.uploadCount + agg.forUpload.length ∧
  agg.uploadCount = agg.bugReportCount + agg.forBugReporting.length

/-- A package is persisted by the upload worker when it passes both filters (it is not a grey
package met while grey uploads are off; it is not a package other than grey whose report the
deduplicator has seen), the retained file opens and each of the seven writes succeeds. -/
def Aggregator.persists (w : World Report) (agg : Aggregator Report) (p : uploadPackage) : Prop :=
  ¬ (agg.UploadGreyFuzzes = false ∧ p.FuzzType = GREY_FUZZ) ∧
  ¬ (p.FuzzType ≠ GREY_FUZZ ∧ w.ParseReport p.Data ∈ agg.deduplicator.seen) ∧
  w.Open p.FilePath = .ok ∧
  ∀ i, i < 7 → w.writeErr (agg.storageClient.writes + i) = none

end

section
variable {Report : Type}

/-! ## Concrete instances

A small environment, aggregator and packages on which the statements below are instantiated. -/

/-- An environment in which the report of a package is its debug dump, a build terminated
gracefully when it left no dump, every file opens and holds the bytes `AAAA`, and every write
succeeds. -/
def exWorld : World String :=
  { ParseGCSPackage := fun d =>
      { DebugFlags := if d.Debug.Dump = "" then 1 else 2,
        ReleaseFlags := if d.Release.Dump = "" then 1 else 2 }
    TerminatedGracefully := 1
    ParseReport := fun d => d.Debug.Dump
    SkiaVersionHash := "deadbeef"
    AflOutputPath := "/afl"
    NumAnalysisProcesses := 0
    NumUploadProcesses := 0
    TEST_HARNESS_NAME := "fuzz"
    ASAN_OPTIONS := "ASAN_OPTIONS=detect_leaks=0"
    AnalysisArgsFor := fun _ exe file => ["10s", exe, file]
    Run := fun _ => { Stdout := "", Stderr := "", err := none }
    Open := fun _ => .ok
    Readdir := fun _ => .ok []
    writeErr := fun _ => none
    ReadFile := fun _ => .ok [65, 65, 65, 65]
    WriteFile := fun _ => none
    buildStepErr := fun _ => none }

/-- An aggregator right after `start`, with grey uploads off. -/
def exAgg : Aggregator String :=
  { MakeBugOnBadFuzz := false
    UploadGreyFuzzes := false
    Category := "skpicture"
    storageClient := { objects := [], writes := 0 }
    fuzzPath := "/fuzzes/skpicture"
    executablePath := "/exe/skpicture"
    forAnalysis := []
    forUpload := []
    forBugReporting := []
    deduplicator := { seen := [], calls := 0 }
    analysisCount := 0
    uploadCount := 0
    bugReportCount := 0
    greyNames := []
    badNames := [] }

/-- A confirmed-failure package. -/
def exBad : uploadPackage :=
  { Data :=
      { Name := "aaaa", FuzzCategory := "skpicture",
        Debug := { Asan := "", Dump := "SkReader32::readInt", StdErr := "" },
        Release := { Asan := "", Dump := "SkReader32::readInt", StdErr := "" } }
    FilePath := "/fuzzes/skpicture/aaaa"
    FuzzType := BAD_FUZZ }

/-- A second confirmed-failure package, from another file, with the same report as `exBad`. -/
def exBadTwin : uploadPackage :=
  { Data :=
      { Name := "bbbb", FuzzCategory := "skpicture",
        Debug := { Asan := "", Dump := "SkReader32::readInt", StdErr := "" },
        Release := { Asan := "", Dump := "SkReader32::readInt", StdErr := "" } }
    FilePath := "/fuzzes/skpicture/bbbb"
    FuzzType := BAD_FUZZ }

/-- A grey package. -/
def exGrey : uploadPackage :=
  { Data :=
      { Name := "cccc", FuzzCategory := "skpicture",
        Debug := { Asan := "heap-use-after-free", Dump := "", StdErr := "" },
        Release := { Asan := "", Dump := "", StdErr := "" } }
    FilePath := "/fuzzes/skpicture/cccc"
    FuzzType := GREY_FUZZ }

/-- The aggregator `exAgg` with grey uploads on and a deduplicator that has already seen the
report of `exGrey`. -/
def exAggGreyOn : Aggregator String :=
  { exAgg with UploadGreyFuzzes := true, deduplicator := { seen := [""], calls := 1 } }

/-- A pipeline that is wedged: at every round one path is still waiting in the analysis queue
(its analysis workers have all terminated). -/
def exStuckObs : Nat → Aggregator String :=
  fun _ => { exAgg with forAnalysis := ["/afl/skpicture/fuzzer0/crashes/id:000000"] }

/-- A pipeline that drains late: a path waits in the analysis queue during the first 149
polling rounds and everything is retired from round 150 on. -/
def exLateObs : Nat → Aggregator String :=
  fun k => if k < 150 then { exAgg with forAnalysis := ["/afl/skpicture/fuzzer0/crashes/id:000000"] }
    else exAgg

/-- An environment with the output tree of one fuzzer: `/afl/skpicture/fuzzer0` holds the
folders `crash`, `crashes` and `queue` and the file `fuzzer_stats`; `crash` holds one file,
`crashes` holds `README.txt` and one file, `queue` holds one file. -/
def exTree : World String :=
  { exWorld with
    Open := fun _ => .ok
    Readdir := fun path =>
      if path = "/afl/skpicture" then .ok [{ Name := "fuzzer0", IsDir := true }]
      else if path = "/afl/skpicture/fuzzer0" then
        .ok [{ Name := "crash", IsDir := true }, { Name := "crashes", IsDir := true },
             { Name := "queue", IsDir := true }, { Name := "fuzzer_stats", IsDir := false }]
      else if path = "/afl/skpicture/fuzzer0/crash" then
        .ok [{ Name := "id:000001", IsDir := false }]
      else if path = "/afl/skpicture/fuzzer0/crashes" then
        .ok [{ Name := "README.txt", IsDir := false }, { Name := "id:000000", IsDir := false }]
      else if path = "/afl/skpicture/fuzzer0/queue" then
        .ok [{ Name := "id:000002", IsDir := false }]
      else .error "not a directory" }

/-- The environment `exWorld` with candidate files that cannot be read. -/
def exUnreadable : World String :=
  { exWorld with ReadFile := fun _ => .error "permission denied" }

/-- The environment `exWorld` with a storage sink that refuses every write. -/
def exWriteFails : World String :=
  { exWorld with writeErr := fun _ => some "googleapi: Error 503: Service Unavailable" }

/-- The environment `exWorld` with a storage sink whose third write fails and whose other
writes succeed. -/
def exThirdWriteFails : World String :=
  { exWorld with
    writeErr := fun n => if n = 2 then some "googleapi: Error 503: Service Unavailable" else none }

/-- The environment `exWorld` on a machine on which `timeout` cannot be invoked: no process is
started, nothing is captured and `exec.Run` returns the error of the start. -/
def exNoTimeout : World String :=
  { exWorld with
    Run := fun _ =>
      { Stdout := "", Stderr := "",
        err := some "fork/exec /usr/bin/timeout: no such file or directory",
        started := false } }

/-- The aggregator `exAgg` right after `start`, with one path in the analysis queue. -/
def exOnePath : Aggregator String :=
  { exAgg with forAnalysis := ["/afl/skpicture/fuzzer0/crashes/id:000000"] }

/-- The aggregator `exOnePath` after an analysis worker has made its iteration on the path. -/
def exOnePathAnalysed : Aggregator String :=
  (Aggregator.waitForAnalysisBody exWorld { exOnePath with forAnalysis := [] } (Disk.mk [])
    "/exe/skpicture/analyzer0" "/afl/skpicture/fuzzer0/crashes/id:000000").1

/-- The aggregator `exOnePathAnalysed` after an upload worker has made its iteration on the
package. -/
def exOnePathUploaded : Aggregator String :=
  (Aggregator.waitForUploadsStep exWorld exOnePathAnalysed).1

/-- The tree `exTree` with a `crashes` folder that cannot be listed. -/
def exBrokenTree : World String :=
  { exTree with
    Readdir := fun path =>
      if path = "/afl/skpicture/fuzzer0/crashes" then .error "input/output error"
      else exTree.Readdir path }

/-! ## The mock of the swarming client (`go/swarming/testutils.go`) -/

namespace Swarming

/-- The struct `swarming.SwarmingRpcsStringListPair` of the swarming API. -/
structure SwarmingRpcsStringListPair where
  Key : String
  Value : List String
  deriving DecidableEq, Repr

/-- The struct `swarming.SwarmingRpcsBotInfo` of the swarming API, with the fields the mock
reads and the identifier of the bot. -/
structure SwarmingRpcsBotInfo where
  BotId : String
  Dimensions : List SwarmingRpcsStringListPair
  IsDead : Bool
  Quarantined : Bool
  TaskId : String
  deriving DecidableEq, Repr

/-- The struct `swarming.SwarmingRpcsNewTaskRequest`, with the fields the mock reads and the
user; the task properties, which the mock only passes on, are a string. -/
structure SwarmingRpcsNewTaskRequest where
  ExpirationSecs : Int
  Name : String
  Priority : Int
  Properties : String
  Tags : List String
  User : String
  deriving DecidableEq, Repr

/-- The struct `swarming.SwarmingRpcsTaskRequest`, with the fields the mock sets. -/
structure SwarmingRpcsTaskRequest where
  CreatedTs : String
  ExpirationSecs : Int
  Name : String
  Priority : Int
  Properties : String
  Tags : List String
  deriving DecidableEq, Repr

/-- The struct `swarming.SwarmingRpcsTaskResult`, with the fields the mock sets. -/
structure SwarmingRpcsTaskResult where
  CreatedTs : String
  Name : String
  State : String
  TaskId : String
  Tags : List String
  deriving DecidableEq, Repr

/-- The struct `swarming.SwarmingRpcsTaskRequestMetadata`. -/
structure SwarmingRpcsTaskRequestMetadata where
  Request : SwarmingRpcsTaskRequest
  TaskId : String
  TaskResult : SwarmingRpcsTaskResult
  deriving DecidableEq, Repr

/-- What the mock takes from the rest of the repository. -/
structure Env where
  /-- The function `util.In`. -/
  In : String → List String → Bool
  /-- The function `util.MD5SSlice`, with the error it may return. -/
  MD5SSlice : List String → Except String String
  /-- The constant `DIMENSION_POOL_KEY`. -/
  DIMENSION_POOL_KEY : String

/-- A Go `map[string]bool`, as the list of its entries. -/
abbrev BoolMap := List (String × Bool)

/-- The expression `m[k]`: the value of the entry, `false` when there is none. -/
def BoolMap.get : BoolMap → String → Bool
  | [], _ => false
  | (k0, v) :: m, k => if k0 = k then v else BoolMap.get m k

/-- The statement `delete(m, k)`. -/
def BoolMap.delete (m : BoolMap) (k : String) : BoolMap :=
  m.filter (fun e => decide (e.1 ≠ k))

/-- The statement `m[k] = v`. -/
def BoolMap.set (m : BoolMap) (k : String) (v : Bool) : BoolMap :=
  (k, v) :: BoolMap.delete m k

/-- The struct `TestClient`, without its locks. -/
structure TestClient where
  botList : List SwarmingRpcsBotInfo
  taskList : List SwarmingRpcsTaskRequestMetadata
  triggerFailure : BoolMap
  deriving DecidableEq, Repr

/-- The function `NewTestClient`. -/
def NewTestClient : TestClient :=
  { botList := [], taskList := [], triggerFailure := [] }

/-- The loop `for _, dim := range b.Dimensions` of `ListBots`, for the requested key `k` and
value `v`: the value of `dMatch` after it. -/
def dimensionLoop (env : Env) (k v : String) : List SwarmingRpcsStringListPair → Bool
  | [] => false
  | dim :: rest =>
    if dim.Key = k && env.In v dim.Value then true else dimensionLoop env k v rest

/-- The loop `for k, v := range dimensions` of `ListBots`, over the entries of the map in the
order the iteration takes them: the value of `match` after it. -/
def matchLoop (env : Env) (b : SwarmingRpcsBotInfo) : List (String × String) → Bool
  | [] => true
  | (k, v) :: rest =>
    if !dimensionLoop env k v b.Dimensions then false else matchLoop env b rest

/-- The loop `for _, b := range c.botList` of `ListBots`, with the slice `rv` built so far. -/
def listBotsLoop (env : Env) (dimensions : List (String × String)) :
    List SwarmingRpcsBotInfo → List SwarmingRpcsBotInfo → List SwarmingRpcsBotInfo
  | [], rv => rv
  | b :: rest, rv =>
    listBotsLoop env dimensions rest (if matchLoop env b dimensions then rv ++ [b] else rv)

/-- The method `TestClient.ListBots`. -/
def TestClient.ListBots (env : Env) (c : TestClient) (dimensions : List (String × String)) :
    List SwarmingRpcsBotInfo × Option String :=
  (listBotsLoop env dimensions c.botList [], none)

/-- The loop `for _, b := range bots` of `ListFreeBots`, with the slice `rv` built so far. -/
def freeBotsLoop :
    List SwarmingRpcsBotInfo → List SwarmingRpcsBotInfo → List SwarmingRpcsBotInfo
  | [], rv => rv
  | b :: rest, rv =>
    freeBotsLoop rest (if !b.Quarantined && !b.IsDead && b.TaskId = "" then rv ++ [b] else rv)

/-- The method `TestClient.ListFreeBots`. -/
def TestClient.ListFreeBots (env : Env) (c : TestClient) (pool : String) :
    List SwarmingRpcsBotInfo × Option String :=
  match c.ListBots env [(env.DIMENSION_POOL_KEY, pool)] with
  | (_, some err) => ([], some err)
  | (bots, none) => (freeBotsLoop bots [], none)

/-- The first loop of `md5Tags`: the tags that do not start with `sk_id`, in order. -/
def filterTags : List String → List String → List String
  | [], filtered => filtered
  | t :: rest, filtered =>
    filterTags rest (if !HasPrefix t "sk_id" then filtered ++ [t] else filtered)

/-- The function `md5Tags`: `none` when `util.MD5SSlice` returns an error, on which the function
ends the process with `glog.Fatal`. -/
def md5Tags (env : Env) (tags : List String) : Option String :=
  let filtered := filterTags tags []
  let filtered := StringSliceSort filtered
  match env.MD5SSlice filtered with
  | .error _ => none
  | .ok rv => some rv

/-- The method `TestClient.TriggerTask`; `createdTs` is the formatted reading of the clock and
`id` the identifier that the call draws.  The result is `none` when `md5Tags` ends the
process. -/
def TestClient.TriggerTask (env : Env) (c : TestClient) (t : SwarmingRpcsNewTaskRequest)
    (createdTs id : String) :
    Option (TestClient × Option SwarmingRpcsTaskRequestMetadata × Option String) :=
  match md5Tags env t.Tags with
  | none => none
  | some md5 =>
    if c.triggerFailure.get md5 then
      some ({ c with triggerFailure := c.triggerFailure.delete md5 }, none,
        some "Mocked trigger failure!")
    else
      let rv : SwarmingRpcsTaskRequestMetadata :=
        { Request :=
            { CreatedTs := createdTs
              ExpirationSecs := t.ExpirationSecs
              Name := t.Name
              Priority := t.Priority
              Properties := t.Properties
              Tags := t.Tags }
          TaskId := id
          TaskResult :=
            { CreatedTs := createdTs
              Name := t.Name
              State := "PENDING"
              TaskId := id
              Tags := t.Tags } }
      some ({ c with taskList := c.taskList ++ [rv] }, some rv, none)

/-- The method `TestClient.MockTriggerTaskFailure`; `none` when `md5Tags` ends the process. -/
def TestClient.MockTriggerTaskFailure (env : Env) (c : TestClient) (tags : List String) :
    Option TestClient :=
  match md5Tags env tags with
  | none => none
  | some md5 => some { c with triggerFailure := c.triggerFailure.set md5 true }

/-- The method `TestClient.MockBots`. -/
def TestClient.MockBots (c : TestClient) (bots : List SwarmingRpcsBotInfo) : TestClient :=
  { c with botList := bots }

/-- A sequence of calls of `TriggerTask`, each with its request, clock reading and identifier:
the client after the last one, `none` when one of them ends the process. -/
def TestClient.triggerAll (env : Env) :
    TestClient → List (SwarmingRpcsNewTaskRequest × String × String) → Option TestClient
  | c, [] => some c
  | c, (t, createdTs, id) :: rest =>
    match c.TriggerTask env t createdTs id with
    | none => none
    | some (c, _, _) => TestClient.triggerAll env c rest

/-- An environment: `util.In` is membership, the digest of a slice is taken to be its
elements, each followed by a comma, the pool key is `pool`. -/
def exEnv : Env :=
  { In := fun s a => a.contains s
    MD5SSlice := fun a => .ok (String.mk (a.flatMap fun s => s.data ++ [',']))
    DIMENSION_POOL_KEY := "pool" }

/-- Three bots: a free one in the pool `Skia`, a busy one in the pool `Skia`, and a free one in
the pool `CT`. -/
def exBots : List SwarmingRpcsBotInfo :=
  [ { BotId := "bot-1", Dimensions := [{ Key := "pool", Value := ["Skia"] },
        { Key := "os", Value := ["Linux", "Ubuntu"] }],
      IsDead := false, Quarantined := false, TaskId := "" },
    { BotId := "bot-2", Dimensions := [{ Key := "pool", Value := ["Skia"] }],
      IsDead := false, Quarantined := false, TaskId := "task-7" },
    { BotId := "bot-3", Dimensions := [{ Key := "pool", Value := ["CT"] }],
      IsDead := false, Quarantined := false, TaskId := "" } ]

/-- A request whose tags are a pool tag and a task id tag. -/
def exRequest (taskIdTag : String) : SwarmingRpcsNewTaskRequest :=
  { ExpirationSecs := 3600, Name := "Test-Ubuntu", Priority := 90, Properties := "",
    Tags := [taskIdTag, "pool:Skia"], User := "skia" }

/-- A request for another pool. -/
def exOther : SwarmingRpcsNewTaskRequest :=
  { ExpirationSecs := 3600, Name := "Test-CT", Priority := 90, Properties := "",
    Tags := ["sk_id:9", "pool:CT"], User := "skia" }

/-- The new client after `MockTriggerTaskFailure` for the tags `sk_id:1`, `pool:Skia`. -/
def exMocked : TestClient :=
  { NewTestClient with triggerFailure := NewTestClient.triggerFailure.set "pool:Skia," true }

/-- The client `exMocked` after a call of `TriggerTask` with the request `exOther`. -/
def exClient1 : TestClient :=
  (TestClient.triggerAll exEnv exMocked [(exOther, "2016-03-01T12:00:00", "id-0")]).getD
    NewTestClient

/-- The client `exClient1` after the mocked failure has been taken and `TriggerTask` has been
called with the request `exOther` once more. -/
def exClient2 : TestClient :=
  (TestClient.triggerAll exEnv
    { exClient1 with triggerFailure := exClient1.triggerFailure.delete "pool:Skia," }
    [(exOther, "2016-03-01T12:00:02", "id-2")]).getD NewTestClient

end Swarming

/-! ## Classification (`analyze`) -/

/-- The command `performAnalysis` runs. -/
theorem performAnalysis_eq (w : World Report) (agg : Aggregator Report)
    (dir exe file : String) :
    agg.performAnalysis w dir exe file =
      ((w.Run { Name := "timeout", Args := w.AnalysisArgsFor agg.Category ("./" ++ exe) file,
                Dir := dir, InheritPath := true, Env := [w.ASAN_OPTIONS] }).Stdout,
       (w.Run { Name := "timeout", Args := w.AnalysisArgsFor agg.Category ("./" ++ exe) file,
                Dir := dir, InheritPath := true, Env := [w.ASAN_OPTIONS] }).Stderr,
       none) := by
  unfold Aggregator.performAnalysis
  dsimp only
  split <;> rfl

theorem BAD_FUZZ_ne_GREY_FUZZ : BAD_FUZZ ≠ GREY_FUZZ := by decide

theorem write_ok (w : World Report) (c : StorageClient) (o : StorageObject)
    (h : w.writeErr c.writes = none) :
    c.write w o = ({ objects := c.objects ++ [o], writes := c.writes + 1 }, none) := by
  unfold StorageClient.write
  rw [h]

theorem write_fail (w : World Report) (c : StorageClient) (o : StorageObject) (e : String)
    (h : w.writeErr c.writes = some e) :
    c.write w o = ({ objects := c.objects, writes := c.writes + 1 }, some e) := by
  unfold StorageClient.write
  rw [h]

theorem uploadString_ok (w : World Report) (agg : Aggregator Report) (p : uploadPackage)
    (fileName contents : String) (h : w.writeErr agg.storageClient.writes = none) :
    agg.uploadString w p fileName contents =
      ({ agg with storageClient :=
          { objects := agg.storageClient.objects ++
              [{ name := objectName w p fileName, ContentEncoding := "text/plain",
                 body := .fromString contents }],
            writes := agg.storageClient.writes + 1 } }, none) := by
  unfold Aggregator.uploadString
  simp only [write_ok w _ _ h]

theorem uploadString_fail (w : World Report) (agg : Aggregator Report) (p : uploadPackage)
    (fileName contents e : String) (h : w.writeErr agg.storageClient.writes = some e) :
    agg.uploadString w p fileName contents =
      ({ agg with storageClient :=
          { objects := agg.storageClient.objects, writes := agg.storageClient.writes + 1 } },
        some e) := by
  unfold Aggregator.uploadString
  simp only [write_fail w _ _ e h]

theorem uploadBinaryFromDisk_ok (w : World Report) (agg : Aggregator Report) (p : uploadPackage)
    (fileName filePath : String) (ho : w.Open filePath = .ok)
    (h : w.writeErr agg.storageClient.writes = none) :
    agg.uploadBinaryFromDisk w p fileName filePath =
      ({ agg with storageClient :=
          { objects := agg.storageClient.objects ++
              [{ name := objectName w p fileName, ContentEncoding := "application/octet-stream",
                 body := .fromDisk filePath }],
            writes := agg.storageClient.writes + 1 } }, none) := by
  unfold Aggregator.uploadBinaryFromDisk
  simp only [ho, write_ok w _ _ h]

theorem uploadBinaryFromDisk_fail (w : World Report) (agg : Aggregator Report)
    (p : uploadPackage) (fileName filePath e : String) (ho : w.Open filePath = .ok)
    (h : w.writeErr agg.storageClient.writes = some e) :
    agg.uploadBinaryFromDisk w p fileName filePath =
      ({ agg with storageClient :=
          { objects := agg.storageClient.objects, writes := agg.storageClient.writes + 1 } },
        some e) := by
  unfold Aggregator.uploadBinaryFromDisk
  simp only [ho, write_fail w _ _ e h]

theorem uploadBinaryFromDisk_noOpen (w : World Report) (agg : Aggregator Report)
    (p : uploadPackage) (fileName filePath : String) (ho : w.Open filePath ≠ .ok) :
    (agg.uploadBinaryFromDisk w p fileName filePath).1 = agg ∧
    (agg.uploadBinaryFromDisk w p fileName filePath).2 ≠ none := by
  unfold Aggregator.uploadBinaryFromDisk
  cases hw : w.Open filePath with
  | ok => exact absurd hw ho
  | notExist => simp
  | failed msg => simp

/-- The seven writes of `upload`, from any aggregator: they are made in order until one fails,
and touch only the storage sink. -/
theorem upload_writes (w : World Report) (agg0 : Aggregator Report) (p : uploadPackage)
    (ho : w.Open p.FilePath = .ok) :
    (match agg0.uploadBinaryFromDisk w p p.Data.Name p.FilePath with
      | (agg, some err) => (agg, some err)
      | (agg, none) =>
      match agg.uploadString w p (p.Data.Name ++ "_debug.asan") p.Data.Debug.Asan with
      | (agg, some err) => (agg, some err)
      | (agg, none) =>
      match agg.uploadString w p (p.Data.Name ++ "_debug.dump") p.Data.Debug.Dump with
      | (agg, some err) => (agg, some err)
      | (agg, none) =>
      match agg.uploadString w p (p.Data.Name ++ "_debug.err") p.Data.Debug.StdErr with
      | (agg, some err) => (agg, some err)
      | (agg, none) =>
      match agg.uploadString w p (p.Data.Name ++ "_release.asan") p.Data.Release.Asan with
      | (agg, some err) => (agg, some err)
      | (agg, none) =>
      match agg.uploadString w p (p.Data.Name ++ "_release.dump") p.Data.Release.Dump with
      | (agg, some err) => (agg, some err)
      | (agg, none) =>
      agg.uploadString w p (p.Data.Name ++ "_release.err") p.Data.Release.StdErr) =
      ({ agg0 with storageClient :=
          (writeSeq w agg0.storageClient (expectedObjects w.SkiaVersionHash p)).1 },
       (writeSeq w agg0.storageClient (expectedObjects w.SkiaVersionHash p)).2) := by
  cases h0 : w.writeErr (agg0.storageClient.writes) with
  | some e0 => simp [Aggregator.uploadBinaryFromDisk, Aggregator.uploadString, StorageClient.write, writeSeq,
      expectedObjects, objectName, ho, h0]
  | none =>
    cases h1 : w.writeErr (agg0.storageClient.writes + 1) with
    | some e1 => simp [Aggregator.uploadBinaryFromDisk, Aggregator.uploadString, StorageClient.write, writeSeq,
      expectedObjects, objectName, ho, h0, h1]
    | none =>
      cases h2 : w.writeErr (agg0.storageClient.writes + 2) with
      | some e2 => simp [Aggregator.uploadBinaryFromDisk, Aggregator.uploadString, StorageClient.write, writeSeq,
      expectedObjects, objectName, ho, h0, h1, h2]
      | none =>
        cases h3 : w.writeErr (agg0.storageClient.writes + 3) with
        | some e3 => simp [Aggregator.uploadBinaryFromDisk, Aggregator.uploadString, StorageClient.write, writeSeq,
      expectedObjects, objectName, ho, h0, h1, h2, h3]
        | none =>
          cases h4 : w.writeErr (agg0.storageClient.writes + 4) with
          | some e4 => simp [Aggregator.uploadBinaryFromDisk, Aggregator.uploadString, StorageClient.write, writeSeq,
      expectedObjects, objectName, ho, h0, h1, h2, h3, h4]
          | none =>
            cases h5 : w.writeErr (agg0.storageClient.writes + 5) with
            | some e5 => simp [Aggregator.uploadBinaryFromDisk, Aggregator.uploadString, StorageClient.write, writeSeq,
      expectedObjects, objectName, ho, h0, h1, h2, h3, h4, h5]
            | none =>
              cases h6 : w.writeErr (agg0.storageClient.writes + 6) with
              | some e6 => simp [Aggregator.uploadBinaryFromDisk, Aggregator.uploadString, StorageClient.write, writeSeq,
      expectedObjects, objectName, ho, h0, h1, h2, h3, h4, h5, h6]
              | none =>
                simp [Aggregator.uploadBinaryFromDisk, Aggregator.uploadString, StorageClient.write, writeSeq,
      expectedObjects, objectName, ho, h0, h1, h2, h3, h4, h5, h6]

theorem withName_storageClient (agg : Aggregator Report) (p : uploadPackage) :
    (agg.withName p).storageClient = agg.storageClient := by
  unfold Aggregator.withName
  split <;> rfl

/-- The method `upload` when the retained file opens: the name of the package is appended to its
list, then the seven artifacts are written in order until a write fails. -/
theorem upload_eq (w : World Report) (agg : Aggregator Report) (p : uploadPackage)
    (ho : w.Open p.FilePath = .ok) :
    agg.upload w p =
      ({ agg.withName p with storageClient :=
          (writeSeq w agg.storageClient (expectedObjects w.SkiaVersionHash p)).1 },
       (writeSeq w agg.storageClient (expectedObjects w.SkiaVersionHash p)).2) := by
  have h := upload_writes w (agg.withName p) p ho
  rw [withName_storageClient] at h
  exact h

/-- The method `upload` when the retained file does not open: the name has been appended,
nothing is written and an error is returned. -/
theorem upload_noOpen (w : World Report) (agg : Aggregator Report) (p : uploadPackage)
    (ho : w.Open p.FilePath ≠ .ok) :
    (agg.upload w p).1 = agg.withName p ∧ (agg.upload w p).2 ≠ none := by
  have h := uploadBinaryFromDisk_noOpen w (agg.withName p) p p.Data.Name p.FilePath ho
  have hu : agg.upload w p =
      (match (agg.withName p).uploadBinaryFromDisk w p p.Data.Name p.FilePath with
        | (agg, some err) => (agg, some err)
        | (agg, none) =>
        match agg.uploadString w p (p.Data.Name ++ "_debug.asan") p.Data.Debug.Asan with
        | (agg, some err) => (agg, some err)
        | (agg, none) =>
        match agg.uploadString w p (p.Data.Name ++ "_debug.dump") p.Data.Debug.Dump with
        | (agg, some err) => (agg, some err)
        | (agg, none) =>
        match agg.uploadString w p (p.Data.Name ++ "_debug.err") p.Data.Debug.StdErr with
        | (agg, some err) => (agg, some err)
        | (agg, none) =>
        match agg.uploadString w p (p.Data.Name ++ "_release.asan") p.Data.Release.Asan with
        | (agg, some err) => (agg, some err)
        | (agg, none) =>
        match agg.uploadString w p (p.Data.Name ++ "_release.dump") p.Data.Release.Dump with
        | (agg, some err) => (agg, some err)
        | (agg, none) =>
        agg.uploadString w p (p.Data.Name ++ "_release.err") p.Data.Release.StdErr) := rfl
  rw [hu]
  rcases hr : (agg.withName p).uploadBinaryFromDisk w p p.Data.Name p.FilePath with ⟨a, e⟩
  rw [hr] at h
  cases e with
  | none => exact absurd rfl h.2
  | some e => exact ⟨h.1, by simp⟩

theorem writeSeq_ok (w : World Report) (os : List StorageObject) :
    ∀ c : StorageClient, (∀ i, i < os.length → w.writeErr (c.writes + i) = none) →
      writeSeq w c os = ({ objects := c.objects ++ os, writes := c.writes + os.length }, none) := by
  induction os with
  | nil => intro c _; simp [writeSeq]
  | cons o os ih =>
    intro c h
    have h0 : w.writeErr c.writes = none := by simpa using h 0 (by simp)
    have hw := write_ok w c o h0
    have hrest : ∀ i, i < os.length →
        w.writeErr (({ objects := c.objects ++ [o], writes := c.writes + 1 } : StorageClient).writes
          + i) = none := by
      intro i hi
      have := h (i + 1) (by simpa using hi)
      simpa [Nat.add_assoc, Nat.add_comm 1 i] using this
    have := ih { objects := c.objects ++ [o], writes := c.writes + 1 } hrest
    simp only [writeSeq, hw, this]
    simp [Nat.add_assoc, Nat.add_comm 1 os.length]

theorem writeSeq_err (w : World Report) (os : List StorageObject) :
    ∀ c : StorageClient, (writeSeq w c os).2 = none →
      ∀ i, i < os.length → w.writeErr (c.writes + i) = none := by
  induction os with
  | nil => intro c _ i hi; simp at hi
  | cons o os ih =>
    intro c h i hi
    cases h0 : w.writeErr c.writes with
    | some e =>
      have hw := write_fail w c o e h0
      simp [writeSeq, hw] at h
    | none =>
      have hw := write_ok w c o h0
      simp only [writeSeq, hw] at h
      cases i with
      | zero => simpa using h0
      | succ j =>
        have := ih _ h j (by simpa using hi)
        simpa [Nat.add_assoc, Nat.add_comm 1 j] using this

/-- The method `upload` when the retained file opens and the next seven writes succeed. -/
theorem upload_ok (w : World Report) (agg : Aggregator Report) (p : uploadPackage)
    (ho : w.Open p.FilePath = .ok)
    (hw : ∀ i, i < 7 → w.writeErr (agg.storageClient.writes + i) = none) :
    agg.upload w p =
      ({ agg.withName p with storageClient :=
          { objects := agg.storageClient.objects ++ expectedObjects w.SkiaVersionHash p,
            writes := agg.storageClient.writes + 7 } }, none) := by
  rw [upload_eq w agg p ho]
  have hlen : (expectedObjects w.SkiaVersionHash p).length = 7 := rfl
  have := writeSeq_ok w (expectedObjects w.SkiaVersionHash p) agg.storageClient
    (by rw [hlen]; exact hw)
  rw [this, hlen]

/-- The method `upload` returns no error exactly when the retained file opens and the next
seven writes succeed. -/
theorem upload_err_iff (w : World Report) (agg : Aggregator Report) (p : uploadPackage) :
    (agg.upload w p).2 = none ↔
      (w.Open p.FilePath = .ok ∧
        ∀ i, i < 7 → w.writeErr (agg.storageClient.writes + i) = none) := by
  constructor
  · intro h
    by_cases ho : w.Open p.FilePath = .ok
    · refine ⟨ho, ?_⟩
      rw [upload_eq w agg p ho] at h
      exact writeSeq_err w _ agg.storageClient h
    · exact absurd h (upload_noOpen w agg p ho).2
  · rintro ⟨ho, hw⟩
    rw [upload_ok w agg p ho hw]

/-- The method `upload` touches only the storage sink and the name lists, and the name of the
package is appended whatever the writes do. -/
theorem upload_frame (w : World Report) (agg : Aggregator Report) (p : uploadPackage) :
    (agg.upload w p).1 =
      { agg.withName p with storageClient := (agg.upload w p).1.storageClient } := by
  by_cases ho : w.Open p.FilePath = .ok
  · rw [upload_eq w agg p ho]
  · rw [(upload_noOpen w agg p ho).1]

/-! ### The body of the upload worker loop -/

/-- The first filter: a grey package while grey uploads are off. -/
theorem waitForUploadsBody_greySkip [DecidableEq Report] (w : World Report)
    (agg : Aggregator Report) (p : uploadPackage)
    (hu : agg.UploadGreyFuzzes = false) (hg : p.FuzzType = GREY_FUZZ) :
    agg.waitForUploadsBody w p =
      ({ agg with uploadCount := agg.uploadCount + 1,
                  bugReportCount := agg.bugReportCount + 1 }, true) := by
  unfold Aggregator.waitForUploadsBody
  simp [hu, hg]

/-- The second filter: a package that is not grey and whose report was seen before. -/
theorem waitForUploadsBody_duplicate [DecidableEq Report] (w : World Report)
    (agg : Aggregator Report) (p : uploadPackage)
    (hg : p.FuzzType ≠ GREY_FUZZ) (hs : w.ParseReport p.Data ∈ agg.deduplicator.seen) :
    agg.waitForUploadsBody w p =
      ({ agg with uploadCount := agg.uploadCount + 1,
                  deduplicator := { agg.deduplicator with calls := agg.deduplicator.calls + 1 },
                  bugReportCount := agg.bugReportCount + 1 }, true) := by
  unfold Aggregator.waitForUploadsBody
  simp [hg, hs, Deduplicator.IsUnique]

/-- A package that is not grey and whose report is new reaches `upload`, the report recorded. -/
theorem waitForUploadsBody_unique [DecidableEq Report] (w : World Report)
    (agg : Aggregator Report) (p : uploadPackage)
    (hg : p.FuzzType ≠ GREY_FUZZ) (hs : w.ParseReport p.Data ∉ agg.deduplicator.seen) :
    agg.waitForUploadsBody w p =
      (match Aggregator.upload w
          { agg with uploadCount := agg.uploadCount + 1,
                     deduplicator :=
                       { seen := agg.deduplicator.seen ++ [w.ParseReport p.Data],
                         calls := agg.deduplicator.calls + 1 } } p with
        | (agg, some _) => ({ agg with bugReportCount := agg.bugReportCount + 1 }, false)
        | (agg, none) =>
          ({ agg with forBugReporting := agg.forBugReporting ++
              [{ FuzzName := p.Data.Name, CommitHash := w.SkiaVersionHash,
                 IsBadFuzz := p.FuzzType = BAD_FUZZ }] }, true)) := by
  unfold Aggregator.waitForUploadsBody
  simp [hg, hs, Deduplicator.IsUnique]

/-- A grey package while grey uploads are on reaches `upload`, the deduplicator not asked. -/
theorem waitForUploadsBody_grey [DecidableEq Report] (w : World Report)
    (agg : Aggregator Report) (p : uploadPackage)
    (hu : agg.UploadGreyFuzzes = true) (hg : p.FuzzType = GREY_FUZZ) :
    agg.waitForUploadsBody w p =
      (match Aggregator.upload w { agg with uploadCount := agg.uploadCount + 1 } p with
        | (agg, some _) => ({ agg with bugReportCount := agg.bugReportCount + 1 }, false)
        | (agg, none) =>
          ({ agg with forBugReporting := agg.forBugReporting ++
              [{ FuzzName := p.Data.Name, CommitHash := w.SkiaVersionHash,
                 IsBadFuzz := p.FuzzType = BAD_FUZZ }] }, true)) := by
  unfold Aggregator.waitForUploadsBody
  simp [hu, hg]

/-- What the worker body does with a package that reaches `upload` when the retained file opens
and the seven writes succeed, from the aggregator `agg1` the filters leave. -/
theorem uploadTail_ok (w : World Report) (agg1 : Aggregator Report) (p : uploadPackage)
    (ho : w.Open p.FilePath = .ok)
    (hw : ∀ i, i < 7 → w.writeErr (agg1.storageClient.writes + i) = none) :
    (match Aggregator.upload w agg1 p with
      | (agg, some _) => ({ agg with bugReportCount := agg.bugReportCount + 1 }, false)
      | (agg, none) =>
        ({ agg with forBugReporting := agg.forBugReporting ++
            [{ FuzzName := p.Data.Name, CommitHash := w.SkiaVersionHash,
               IsBadFuzz := p.FuzzType = BAD_FUZZ }] }, true)) =
      ({ agg1.withName p with
          storageClient :=
            { objects := agg1.storageClient.objects ++ expectedObjects w.SkiaVersionHash p,
              writes := agg1.storageClient.writes + 7 },
          forBugReporting := (agg1.withName p).forBugReporting ++
            [{ FuzzName := p.Data.Name, CommitHash := w.SkiaVersionHash,
               IsBadFuzz := p.FuzzType = BAD_FUZZ }] }, true) := by
  rw [upload_ok w agg1 p ho hw]

/-- What the worker body does with a package that reaches `upload` when the retained file does
not open or one of the seven writes fails: nothing is forwarded, the worker returns. -/
theorem uploadTail_fail (w : World Report) (agg1 : Aggregator Report) (p : uploadPackage)
    (h : ¬ (w.Open p.FilePath = .ok ∧
        ∀ i, i < 7 → w.writeErr (agg1.storageClient.writes + i) = none)) :
    (match Aggregator.upload w agg1 p with
      | (agg, some _) => ({ agg with bugReportCount := agg.bugReportCount + 1 }, false)
      | (agg, none) =>
        ({ agg with forBugReporting := agg.forBugReporting ++
            [{ FuzzName := p.Data.Name, CommitHash := w.SkiaVersionHash,
               IsBadFuzz := p.FuzzType = BAD_FUZZ }] }, true)) =
      ({ agg1.withName p with
          storageClient := (Aggregator.upload w agg1 p).1.storageClient,
          bugReportCount := agg1.bugReportCount + 1 }, false) := by
  have he : (Aggregator.upload w agg1 p).2 ≠ none := fun hc => h ((upload_err_iff w agg1 p).1 hc)
  have hf := upload_frame w agg1 p
  rcases hr : Aggregator.upload w agg1 p with ⟨a, e⟩
  rw [hr] at he hf
  cases e with
  | none => exact absurd rfl he
  | some e =>
    dsimp only at hf ⊢
    rw [hf]
    have hb : (agg1.withName p).bugReportCount = agg1.bugReportCount := by
      unfold Aggregator.withName
      split <;> rfl
    simp [hb]

theorem withName_forBugReporting (agg : Aggregator Report) (p : uploadPackage) :
    (agg.withName p).forBugReporting = agg.forBugReporting := by
  unfold Aggregator.withName
  split <;> rfl

theorem withName_deduplicator (agg : Aggregator Report) (p : uploadPackage) :
    (agg.withName p).deduplicator = agg.deduplicator := by
  unfold Aggregator.withName
  split <;> rfl

theorem withName_uploadCount (agg : Aggregator Report) (p : uploadPackage) :
    (agg.withName p).uploadCount = agg.uploadCount := by
  unfold Aggregator.withName
  split <;> rfl

theorem withName_bugReportCount (agg : Aggregator Report) (p : uploadPackage) :
    (agg.withName p).bugReportCount = agg.bugReportCount := by
  unfold Aggregator.withName
  split <;> rfl

theorem withName_bad (agg : Aggregator Report) (p : uploadPackage) (h : p.FuzzType ≠ GREY_FUZZ) :
    agg.withName p = { agg with badNames := agg.badNames ++ [p.Data.Name] } := by
  unfold Aggregator.withName
  rw [if_neg h]

theorem withName_grey (agg : Aggregator Report) (p : uploadPackage) (h : p.FuzzType = GREY_FUZZ) :
    agg.withName p = { agg with greyNames := agg.greyNames ++ [p.Data.Name] } := by
  unfold Aggregator.withName
  rw [if_pos h]

/-! ### The storage scheme -/

/-- C7: an `upload` of `p` whose retained file opens and whose seven writes succeed returns no
error and adds exactly seven objects to the bucket, in this order: the retained file under the
artifact name `name`, then the fields `Debug.Asan`, `Debug.Dump`, `Debug.StdErr`, `Release.Asan`,
`Release.Dump`, `Release.StdErr` under `name_debug.asan`, `name_debug.dump`, `name_debug.err`,
`name_release.asan`, `name_release.dump`, `name_release.err`; every key is
`category/revision/classification/fingerprint/artifact-name`; and `uploadBinaryFromDisk` and
`uploadString` compose the same key from the same arguments. -/
theorem upload_seven_objects (w : World Report) (agg : Aggregator Report) (p : uploadPackage)
    (ho : w.Open p.FilePath = .ok)
    (hw : ∀ i, i < 7 → w.writeErr (agg.storageClient.writes + i) = none) :
    (agg.upload w p).2 = none ∧
    (agg.upload w p).1.storageClient.objects = agg.storageClient.objects ++
      [
        { name := p.Data.FuzzCategory ++ "/" ++ w.SkiaVersionHash ++ "/" ++ p.FuzzType ++ "/"
            ++ p.Data.Name ++ "/" ++ p.Data.Name,
          ContentEncoding := "application/octet-stream", body := .fromDisk p.FilePath },
        { name := p.Data.FuzzCategory ++ "/" ++ w.SkiaVersionHash ++ "/" ++ p.FuzzType ++ "/"
            ++ p.Data.Name ++ "/" ++ (p.Data.Name ++ "_debug.asan"),
          ContentEncoding := "text/plain", body := .fromString p.Data.Debug.Asan },
        { name := p.Data.FuzzCategory ++ "/" ++ w.SkiaVersionHash ++ "/" ++ p.FuzzType ++ "/"
            ++ p.Data.Name ++ "/" ++ (p.Data.Name ++ "_debug.dump"),
          ContentEncoding := "text/plain", body := .fromString p.Data.Debug.Dump },
        { name := p.Data.FuzzCategory ++ "/" ++ w.SkiaVersionHash ++ "/" ++ p.FuzzType ++ "/"
            ++ p.Data.Name ++ "/" ++ (p.Data.Name ++ "_debug.err"),
          ContentEncoding := "text/plain", body := .fromString p.Data.Debug.StdErr },
        { name := p.Data.FuzzCategory ++ "/" ++ w.SkiaVersionHash ++ "/" ++ p.FuzzType ++ "/"
            ++ p.Data.Name ++ "/" ++ (p.Data.Name ++ "_release.asan"),
          ContentEncoding := "text/plain", body := .fromString p.Data.Release.Asan },
        { name := p.Data.FuzzCategory ++ "/" ++ w.SkiaVersionHash ++ "/" ++ p.FuzzType ++ "/"
            ++ p.Data.Name ++ "/" ++ (p.Data.Name ++ "_release.dump"),
          ContentEncoding := "text/plain", body := .fromString p.Data.Release.Dump },
        { name := p.Data.FuzzCategory ++ "/" ++ w.SkiaVersionHash ++ "/" ++ p.FuzzType ++ "/"
            ++ p.Data.Name ++ "/" ++ (p.Data.Name ++ "_release.err"),
          ContentEncoding := "text/plain", body := .fromString p.Data.Release.StdErr } ] ∧
    (agg.upload w p).1.storageClient.writes = agg.storageClient.writes + 7 ∧
    (∀ fileName filePath contents : String, w.Open filePath = .ok →
      (agg.uploadBinaryFromDisk w p fileName filePath).1.storageClient.objects =
        agg.storageClient.objects ++
          [{ name := p.Data.FuzzCategory ++ "/" ++ w.SkiaVersionHash ++ "/" ++ p.FuzzType ++ "/"
            ++ p.Data.Name ++ "/" ++ fileName,
             ContentEncoding := "application/octet-stream", body := .fromDisk filePath }] ∧
      (agg.uploadString w p fileName contents).1.storageClient.objects =
        agg.storageClient.objects ++
          [{ name := p.Data.FuzzCategory ++ "/" ++ w.SkiaVersionHash ++ "/" ++ p.FuzzType ++ "/"
            ++ p.Data.Name ++ "/" ++ fileName,
             ContentEncoding := "text/plain", body := .fromString contents }]) := by
  refine ⟨?_, ?_, ?_, ?_⟩
  · rw [upload_ok w agg p ho hw]
  · rw [upload_ok w agg p ho hw]
    rfl
  · rw [upload_ok w agg p ho hw]
  · intro fileName filePath contents hopen
    have h0 : w.writeErr agg.storageClient.writes = none := by simpa using hw 0 (by decide)
    rw [uploadBinaryFromDisk_ok w agg p fileName filePath hopen h0,
      uploadString_ok w agg p fileName contents h0]
    exact ⟨rfl, rfl⟩

/-- C7, instantiated: the upload of the package `exBad`. -/
theorem upload_seven_objects_witness :
    exWorld.Open exBad.FilePath = .ok ∧
    (∀ i, i < 7 → exWorld.writeErr (exAgg.storageClient.writes + i) = none) ∧
    (exAgg.upload exWorld exBad).2 = none ∧
    (exAgg.upload exWorld exBad).1.storageClient.objects = exAgg.storageClient.objects ++
      [
        { name := exBad.Data.FuzzCategory ++ "/" ++ exWorld.SkiaVersionHash ++ "/" ++ exBad.FuzzType ++ "/"
            ++ exBad.Data.Name ++ "/" ++ exBad.Data.Name,
          ContentEncoding := "application/octet-stream", body := .fromDisk exBad.FilePath },
        { name := exBad.Data.FuzzCategory ++ "/" ++ exWorld.SkiaVersionHash ++ "/" ++ exBad.FuzzType ++ "/"
            ++ exBad.Data.Name ++ "/" ++ (exBad.Data.Name ++ "_debug.asan"),
          ContentEncoding := "text/plain", body := .fromString exBad.Data.Debug.Asan },
        { name := exBad.Data.FuzzCategory ++ "/" ++ exWorld.SkiaVersionHash ++ "/" ++ exBad.FuzzType ++ "/"
            ++ exBad.Data.Name ++ "/" ++ (exBad.Data.Name ++ "_debug.dump"),
          ContentEncoding := "text/plain", body := .fromString exBad.Data.Debug.Dump },
        { name := exBad.Data.FuzzCategory ++ "/" ++ exWorld.SkiaVersionHash ++ "/" ++ exBad.FuzzType ++ "/"
            ++ exBad.Data.Name ++ "/" ++ (exBad.Data.Name ++ "_debug.err"),
          ContentEncoding := "text/plain", body := .fromString exBad.Data.Debug.StdErr },
        { name := exBad.Data.FuzzCategory ++ "/" ++ exWorld.SkiaVersionHash ++ "/" ++ exBad.FuzzType ++ "/"
            ++ exBad.Data.Name ++ "/" ++ (exBad.Data.Name ++ "_release.asan"),
          ContentEncoding := "text/plain", body := .fromString exBad.Data.Release.Asan },
        { name := exBad.Data.FuzzCategory ++ "/" ++ exWorld.SkiaVersionHash ++ "/" ++ exBad.FuzzType ++ "/"
            ++ exBad.Data.Name ++ "/" ++ (exBad.Data.Name ++ "_release.dump"),
          ContentEncoding := "text/plain", body := .fromString exBad.Data.Release.Dump },
        { name := exBad.Data.FuzzCategory ++ "/" ++ exWorld.SkiaVersionHash ++ "/" ++ exBad.FuzzType ++ "/"
            ++ exBad.Data.Name ++ "/" ++ (exBad.Data.Name ++ "_release.err"),
          ContentEncoding := "text/plain", body := .fromString exBad.Data.Release.StdErr } ] ∧
    (exAgg.upload exWorld exBad).1.storageClient.writes = exAgg.storageClient.writes + 7 ∧
    (∀ fileName filePath contents : String, exWorld.Open filePath = .ok →
      (exAgg.uploadBinaryFromDisk exWorld exBad fileName filePath).1.storageClient.objects =
        exAgg.storageClient.objects ++
          [{ name := exBad.Data.FuzzCategory ++ "/" ++ exWorld.SkiaVersionHash ++ "/" ++ exBad.FuzzType ++ "/"
            ++ exBad.Data.Name ++ "/" ++ fileName,
             ContentEncoding := "application/octet-stream", body := .fromDisk filePath }] ∧
      (exAgg.uploadString exWorld exBad fileName contents).1.storageClient.objects =
        exAgg.storageClient.objects ++
          [{ name := exBad.Data.FuzzCategory ++ "/" ++ exWorld.SkiaVersionHash ++ "/" ++ exBad.FuzzType ++ "/"
            ++ exBad.Data.Name ++ "/" ++ fileName,
             ContentEncoding := "text/plain", body := .fromString contents }]) :=
  ⟨rfl, fun _ _ => rfl, upload_seven_objects exWorld exAgg exBad rfl (fun _ _ => rfl)⟩

/-! ### The filters of the upload worker -/

/-- A persisted package: the seven artifacts are in the bucket, the bug-report package is at the
back of the queue and the worker goes on. -/
theorem waitForUploadsBody_persists [DecidableEq Report] (w : World Report)
    (agg : Aggregator Report) (p : uploadPackage) (h : agg.persists w p) :
    (agg.waitForUploadsBody w p).1.storageClient.objects =
      agg.storageClient.objects ++ expectedObjects w.SkiaVersionHash p ∧
    (agg.waitForUploadsBody w p).1.forBugReporting = agg.forBugReporting ++
      [{ FuzzName := p.Data.Name, CommitHash := w.SkiaVersionHash,
         IsBadFuzz := p.FuzzType = BAD_FUZZ }] ∧
    (agg.waitForUploadsBody w p).2 = true := by
  obtain ⟨h1, h2, ho, hw⟩ := h
  by_cases hg : p.FuzzType = GREY_FUZZ
  · have hu : agg.UploadGreyFuzzes = true := by
      cases hb : agg.UploadGreyFuzzes with
      | true => rfl
      | false => exact absurd ⟨hb, hg⟩ h1
    rw [waitForUploadsBody_grey w agg p hu hg,
      uploadTail_ok w { agg with uploadCount := agg.uploadCount + 1 } p ho hw]
    simp [withName_forBugReporting]
  · have hs : w.ParseReport p.Data ∉ agg.deduplicator.seen := fun hc => h2 ⟨hg, hc⟩
    rw [waitForUploadsBody_unique w agg p hg hs,
      uploadTail_ok w
        { agg with
          uploadCount := agg.uploadCount + 1
          deduplicator :=
            { seen := agg.deduplicator.seen ++ [w.ParseReport p.Data]
              calls := agg.deduplicator.calls + 1 } } p ho hw]
    simp [withName_forBugReporting]

/-- A package that is not persisted: nothing is forwarded. -/
theorem waitForUploadsBody_not_persists [DecidableEq Report] (w : World Report)
    (agg : Aggregator Report) (p : uploadPackage) (h : ¬ agg.persists w p) :
    (agg.waitForUploadsBody w p).1.forBugReporting = agg.forBugReporting := by
  by_cases hg : p.FuzzType = GREY_FUZZ
  · cases hu : agg.UploadGreyFuzzes with
    | false => rw [waitForUploadsBody_greySkip w agg p hu hg]
    | true =>
      have hf : ¬ (w.Open p.FilePath = .ok ∧
          ∀ i, i < 7 → w.writeErr (agg.storageClient.writes + i) = none) := by
        intro hc
        exact h ⟨by simp [hu], by simp [hg], hc.1, hc.2⟩
      rw [waitForUploadsBody_grey w agg p hu hg,
        uploadTail_fail w { agg with uploadCount := agg.uploadCount + 1 } p hf]
      simp [withName_forBugReporting]
  · by_cases hs : w.ParseReport p.Data ∈ agg.deduplicator.seen
    · rw [waitForUploadsBody_duplicate w agg p hg hs]
    · have hf : ¬ (w.Open p.FilePath = .ok ∧
          ∀ i, i < 7 → w.writeErr (agg.storageClient.writes + i) = none) := by
        intro hc
        exact h ⟨by simp [hg], by simp [hs], hc.1, hc.2⟩
      rw [waitForUploadsBody_unique w agg p hg hs,
        uploadTail_fail w
          { agg with
            uploadCount := agg.uploadCount + 1
            deduplicator :=
              { seen := agg.deduplicator.seen ++ [w.ParseReport p.Data]
                calls := agg.deduplicator.calls + 1 } } p hf]
      simp [withName_forBugReporting]

/-- C8: the upload worker forwards a bug-report package exactly when the package was persisted
(it passed both filters, the retained file opened and every write succeeded, so that its seven
artifacts are in the bucket); otherwise the bug-report queue is left as it was.  The forwarded
package carries the fingerprint as `FuzzName`, the current revision as `CommitHash`, and
`IsBadFuzz` is true exactly when the `FuzzType` is `BAD_FUZZ`. -/
theorem forwarded_iff_persisted [DecidableEq Report] (w : World Report)
    (agg : Aggregator Report) (p : uploadPackage) :
    ((agg.waitForUploadsBody w p).1.forBugReporting = agg.forBugReporting ++
        [{ FuzzName := p.Data.Name, CommitHash := w.SkiaVersionHash,
           IsBadFuzz := decide (p.FuzzType = BAD_FUZZ) }] ↔ agg.persists w p) ∧
    ((agg.waitForUploadsBody w p).1.forBugReporting = agg.forBugReporting ↔
        ¬ agg.persists w p) ∧
    (agg.persists w p → (agg.waitForUploadsBody w p).1.storageClient.objects =
        agg.storageClient.objects ++ expectedObjects w.SkiaVersionHash p) := by
  refine ⟨⟨?_, ?_⟩, ⟨?_, ?_⟩, ?_⟩
  · intro hf
    by_contra hn
    rw [waitForUploadsBody_not_persists w agg p hn] at hf
    simpa using congrArg List.length hf
  · intro hp
    exact (waitForUploadsBody_persists w agg p hp).2.1
  · intro hf hp
    rw [(waitForUploadsBody_persists w agg p hp).2.1] at hf
    simpa using congrArg List.length hf
  · intro hn
    exact waitForUploadsBody_not_persists w agg p hn
  · intro hp
    exact (waitForUploadsBody_persists w agg p hp).1

/-- C5: a grey package met while `UploadGreyFuzzes` is false leaves the storage sink untouched
(no object written, no write attempted), forwards nothing, leaves the name lists and the
deduplicator as they were, and advances `uploadCount` and `bugReportCount` by exactly one; the
worker goes on. -/
theorem grey_suppressed [DecidableEq Report] (w : World Report) (agg : Aggregator Report)
    (p : uploadPackage) (hu : agg.UploadGreyFuzzes = false) (hg : p.FuzzType = GREY_FUZZ) :
    (agg.waitForUploadsBody w p).1.storageClient = agg.storageClient ∧
    (agg.waitForUploadsBody w p).1.forBugReporting = agg.forBugReporting ∧
    (agg.waitForUploadsBody w p).1.greyNames = agg.greyNames ∧
    (agg.waitForUploadsBody w p).1.badNames = agg.badNames ∧
    (agg.waitForUploadsBody w p).1.deduplicator = agg.deduplicator ∧
    (agg.waitForUploadsBody w p).1.uploadCount = agg.uploadCount + 1 ∧
    (agg.waitForUploadsBody w p).1.bugReportCount = agg.bugReportCount + 1 ∧
    (agg.waitForUploadsBody w p).1.analysisCount = agg.analysisCount ∧
    (agg.waitForUploadsBody w p).2 = true := by
  rw [waitForUploadsBody_greySkip w agg p hu hg]
  exact ⟨rfl, rfl, rfl, rfl, rfl, rfl, rfl, rfl, rfl⟩

/-- C5, instantiated: the grey package `exGrey` at the aggregator `exAgg`. -/
theorem grey_suppressed_witness :
    exAgg.UploadGreyFuzzes = false ∧ exGrey.FuzzType = GREY_FUZZ ∧
    (exAgg.waitForUploadsBody exWorld exGrey).1.storageClient = exAgg.storageClient ∧
    (exAgg.waitForUploadsBody exWorld exGrey).1.forBugReporting = exAgg.forBugReporting ∧
    (exAgg.waitForUploadsBody exWorld exGrey).1.greyNames = exAgg.greyNames ∧
    (exAgg.waitForUploadsBody exWorld exGrey).1.badNames = exAgg.badNames ∧
    (exAgg.waitForUploadsBody exWorld exGrey).1.deduplicator = exAgg.deduplicator ∧
    (exAgg.waitForUploadsBody exWorld exGrey).1.uploadCount = exAgg.uploadCount + 1 ∧
    (exAgg.waitForUploadsBody exWorld exGrey).1.bugReportCount = exAgg.bugReportCount + 1 ∧
    (exAgg.waitForUploadsBody exWorld exGrey).1.analysisCount = exAgg.analysisCount ∧
    (exAgg.waitForUploadsBody exWorld exGrey).2 = true :=
  ⟨rfl, rfl, grey_suppressed exWorld exAgg exGrey rfl rfl⟩

theorem GREY_FUZZ_ne_BAD_FUZZ : GREY_FUZZ ≠ BAD_FUZZ := by decide

/-- C6: for a grey package the upload worker leaves the deduplicator exactly as it was, the
count of `IsUnique` calls included, whatever the deduplicator holds; and when `UploadGreyFuzzes`
is true (the retained file opening and the seven writes succeeding) the package is persisted and
forwarded, also when its report is one the deduplicator has seen. -/
theorem grey_bypasses_dedup [DecidableEq Report] (w : World Report) (agg : Aggregator Report)
    (p : uploadPackage) (hg : p.FuzzType = GREY_FUZZ) :
    (agg.waitForUploadsBody w p).1.deduplicator = agg.deduplicator ∧
    (agg.UploadGreyFuzzes = true → w.Open p.FilePath = .ok →
      (∀ i, i < 7 → w.writeErr (agg.storageClient.writes + i) = none) →
      ((agg.waitForUploadsBody w p).1.storageClient.objects =
        agg.storageClient.objects ++ expectedObjects w.SkiaVersionHash p ∧
       (agg.waitForUploadsBody w p).1.forBugReporting = agg.forBugReporting ++
        [{ FuzzName := p.Data.Name, CommitHash := w.SkiaVersionHash, IsBadFuzz := false }] ∧
       (agg.waitForUploadsBody w p).1.greyNames = agg.greyNames ++ [p.Data.Name])) := by
  constructor
  · cases hu : agg.UploadGreyFuzzes with
    | false => rw [waitForUploadsBody_greySkip w agg p hu hg]
    | true =>
      rw [waitForUploadsBody_grey w agg p hu hg]
      by_cases hf : w.Open p.FilePath = .ok ∧
          ∀ i, i < 7 → w.writeErr (agg.storageClient.writes + i) = none
      · rw [uploadTail_ok w { agg with uploadCount := agg.uploadCount + 1 } p hf.1 hf.2]
        simp [withName_deduplicator]
      · rw [uploadTail_fail w { agg with uploadCount := agg.uploadCount + 1 } p hf]
        simp [withName_deduplicator]
  · intro hu ho hw
    rw [waitForUploadsBody_grey w agg p hu hg,
      uploadTail_ok w { agg with uploadCount := agg.uploadCount + 1 } p ho hw,
      withName_grey _ p hg]
    simp [hg, GREY_FUZZ_ne_BAD_FUZZ]

/-- C6, instantiated: the grey package `exGrey`, whose report the deduplicator of `exAggGreyOn`
has seen, is persisted and forwarded all the same. -/
theorem grey_bypasses_dedup_witness :
    exGrey.FuzzType = GREY_FUZZ ∧
    exWorld.ParseReport exGrey.Data ∈ exAggGreyOn.deduplicator.seen ∧
    (exAggGreyOn.waitForUploadsBody exWorld exGrey).1.deduplicator = exAggGreyOn.deduplicator ∧
    ((exAggGreyOn.waitForUploadsBody exWorld exGrey).1.storageClient.objects =
        exAggGreyOn.storageClient.objects ++ expectedObjects exWorld.SkiaVersionHash exGrey ∧
       (exAggGreyOn.waitForUploadsBody exWorld exGrey).1.forBugReporting = exAggGreyOn.forBugReporting ++
        [{ FuzzName := exGrey.Data.Name, CommitHash := exWorld.SkiaVersionHash, IsBadFuzz := false }] ∧
       (exAggGreyOn.waitForUploadsBody exWorld exGrey).1.greyNames = exAggGreyOn.greyNames ++ [exGrey.Data.Name]) :=
  ⟨rfl, by decide, (grey_bypasses_dedup exWorld exAggGreyOn exGrey rfl).1,
    (grey_bypasses_dedup exWorld exAggGreyOn exGrey rfl).2 rfl rfl (fun _ _ => rfl)⟩

/-- The upload worker on a package that is not grey, whose report is new, whose retained file
opens and whose seven writes succeed. -/
theorem waitForUploadsBody_fresh [DecidableEq Report] (w : World Report)
    (agg : Aggregator Report) (p : uploadPackage)
    (hg : p.FuzzType ≠ GREY_FUZZ) (hs : w.ParseReport p.Data ∉ agg.deduplicator.seen)
    (ho : w.Open p.FilePath = .ok)
    (hw : ∀ i, i < 7 → w.writeErr (agg.storageClient.writes + i) = none) :
    agg.waitForUploadsBody w p =
      ({ agg with
          uploadCount := agg.uploadCount + 1
          deduplicator :=
            { seen := agg.deduplicator.seen ++ [w.ParseReport p.Data]
              calls := agg.deduplicator.calls + 1 }
          badNames := agg.badNames ++ [p.Data.Name]
          storageClient :=
            { objects := agg.storageClient.objects ++ expectedObjects w.SkiaVersionHash p
              writes := agg.storageClient.writes + 7 }
          forBugReporting := agg.forBugReporting ++
            [{ FuzzName := p.Data.Name, CommitHash := w.SkiaVersionHash,
               IsBadFuzz := p.FuzzType = BAD_FUZZ }] }, true) := by
  rw [waitForUploadsBody_unique w agg p hg hs,
    uploadTail_ok w
      { agg with
        uploadCount := agg.uploadCount + 1
        deduplicator :=
          { seen := agg.deduplicator.seen ++ [w.ParseReport p.Data]
            calls := agg.deduplicator.calls + 1 } } p ho hw,
    withName_bad _ p hg]

/-- C2: with a deduplicator that records each report on `IsUnique` and answers false on a
repeat, two confirmed-failure packages with the same parsed report, not seen before, go through
the upload worker like this when the storage does not fail: the first is persisted (its seven
artifacts are added to the bucket, its name to `badNames`) and one bug-report package is
forwarded for it; the second is skipped as a duplicate: the storage sink, the bug-report queue
and the name lists stay as the first left them.  Both times the worker goes on. -/
theorem dedup_two_identical [DecidableEq Report] (w : World Report) (agg : Aggregator Report)
    (p1 p2 : uploadPackage) (h1 : p1.FuzzType = BAD_FUZZ) (h2 : p2.FuzzType = BAD_FUZZ)
    (hsig : w.ParseReport p1.Data = w.ParseReport p2.Data)
    (hnew : w.ParseReport p1.Data ∉ agg.deduplicator.seen)
    (ho : w.Open p1.FilePath = .ok)
    (hw : ∀ i, i < 7 → w.writeErr (agg.storageClient.writes + i) = none) :
    (agg.waitForUploadsBody w p1).2 = true ∧
    (agg.waitForUploadsBody w p1).1.storageClient.objects =
      agg.storageClient.objects ++ expectedObjects w.SkiaVersionHash p1 ∧
    (agg.waitForUploadsBody w p1).1.forBugReporting = agg.forBugReporting ++
      [{ FuzzName := p1.Data.Name, CommitHash := w.SkiaVersionHash, IsBadFuzz := true }] ∧
    (agg.waitForUploadsBody w p1).1.badNames = agg.badNames ++ [p1.Data.Name] ∧
    ((agg.waitForUploadsBody w p1).1.waitForUploadsBody w p2).2 = true ∧
    ((agg.waitForUploadsBody w p1).1.waitForUploadsBody w p2).1.storageClient =
      (agg.waitForUploadsBody w p1).1.storageClient ∧
    ((agg.waitForUploadsBody w p1).1.waitForUploadsBody w p2).1.forBugReporting =
      (agg.waitForUploadsBody w p1).1.forBugReporting ∧
    ((agg.waitForUploadsBody w p1).1.waitForUploadsBody w p2).1.badNames =
      (agg.waitForUploadsBody w p1).1.badNames ∧
    ((agg.waitForUploadsBody w p1).1.waitForUploadsBody w p2).1.greyNames = agg.greyNames := by
  have hg1 : p1.FuzzType ≠ GREY_FUZZ := by rw [h1]; exact BAD_FUZZ_ne_GREY_FUZZ
  have hg2 : p2.FuzzType ≠ GREY_FUZZ := by rw [h2]; exact BAD_FUZZ_ne_GREY_FUZZ
  rw [waitForUploadsBody_fresh w agg p1 hg1 hnew ho hw]
  rw [waitForUploadsBody_duplicate w _ p2 hg2 (by simp [hsig])]
  simp [h1]

/-- C2, instantiated: the packages `exBad` and `exBadTwin`, from two files with the same report. -/
theorem dedup_two_identical_witness :
    exBad.FuzzType = BAD_FUZZ ∧ exBadTwin.FuzzType = BAD_FUZZ ∧
    exWorld.ParseReport exBad.Data = exWorld.ParseReport exBadTwin.Data ∧
    exWorld.ParseReport exBad.Data ∉ exAgg.deduplicator.seen ∧
    exWorld.Open exBad.FilePath = .ok ∧
    (∀ i, i < 7 → exWorld.writeErr (exAgg.storageClient.writes + i) = none) ∧
    (exAgg.waitForUploadsBody exWorld exBad).2 = true ∧
    (exAgg.waitForUploadsBody exWorld exBad).1.storageClient.objects =
      exAgg.storageClient.objects ++ expectedObjects exWorld.SkiaVersionHash exBad ∧
    (exAgg.waitForUploadsBody exWorld exBad).1.forBugReporting = exAgg.forBugReporting ++
      [{ FuzzName := exBad.Data.Name, CommitHash := exWorld.SkiaVersionHash, IsBadFuzz := true }] ∧
    (exAgg.waitForUploadsBody exWorld exBad).1.badNames = exAgg.badNames ++ [exBad.Data.Name] ∧
    ((exAgg.waitForUploadsBody exWorld exBad).1.waitForUploadsBody exWorld exBadTwin).2 = true ∧
    ((exAgg.waitForUploadsBody exWorld exBad).1.waitForUploadsBody exWorld exBadTwin).1.storageClient =
      (exAgg.waitForUploadsBody exWorld exBad).1.storageClient ∧
    ((exAgg.waitForUploadsBody exWorld exBad).1.waitForUploadsBody exWorld exBadTwin).1.forBugReporting =
      (exAgg.waitForUploadsBody exWorld exBad).1.forBugReporting ∧
    ((exAgg.waitForUploadsBody exWorld exBad).1.waitForUploadsBody exWorld exBadTwin).1.badNames =
      (exAgg.waitForUploadsBody exWorld exBad).1.badNames ∧
    ((exAgg.waitForUploadsBody exWorld exBad).1.waitForUploadsBody exWorld exBadTwin).1.greyNames = exAgg.greyNames :=
  ⟨rfl, rfl, rfl, by decide, rfl, fun _ _ => rfl,
    dedup_two_identical exWorld exAgg exBad exBadTwin rfl rfl rfl (by decide) rfl
      (fun _ _ => rfl)⟩

/-! ## Drain detection (`WaitForEmptyQueues`) -/

/-- The loop returns at the first drained round at or after `round`, given the ticks to get
there. -/
theorem waitLoop_complete (obs : Nat → Aggregator Report) (k : Nat) (hk : (obs k).drained = true) :
    ∀ fuel round hangCount warnings, round ≤ k → k - round < fuel →
      (∀ j, round ≤ j → j < k → (obs j).drained = false) →
      ∃ r, waitLoop obs fuel round hangCount warnings = some r ∧ r.rounds = k ∧
        r.hangCount = hangCount + (k - round) := by
  intro fuel
  induction fuel with
  | zero => intro round hangCount warnings _ hf; omega
  | succ fuel ih =>
    intro round hangCount warnings hle hf hnot
    by_cases hd : (obs round).drained = true
    · have hrk : round = k := by
        by_contra hne
        have := hnot round (le_refl _) (by omega)
        rw [hd] at this
        exact Bool.noConfusion this
      subst hrk
      exact ⟨{ rounds := round, hangCount := hangCount, warnings := warnings },
        by simp [waitLoop, hd], rfl, by simp⟩
    · have hrk : round < k := by
        rcases Nat.lt_or_ge round k with h | h
        · exact h
        · have : round = k := by omega
          subst this
          exact absurd hk hd
      obtain ⟨r, hr, hr1, hr2⟩ := ih (round + 1) (hangCount + 1)
        (if hangCount + 1 ≥ HANG_THRESHOLD then warnings + 1 else warnings) (by omega) (by omega)
        (fun j hj1 hj2 => hnot j (by omega) hj2)
      refine ⟨r, ?_, hr1, by omega⟩
      simp only [waitLoop, hd]
      exact hr

/-- The loop returns only at a drained round, and no round it passed was drained. -/
theorem waitLoop_sound (obs : Nat → Aggregator Report) :
    ∀ fuel round hangCount warnings r, waitLoop obs fuel round hangCount warnings = some r →
      round ≤ r.rounds ∧ (obs r.rounds).drained = true ∧
      ∀ j, round ≤ j → j < r.rounds → (obs j).drained = false := by
  intro fuel
  induction fuel with
  | zero => intro round hangCount warnings r h; simp [waitLoop] at h
  | succ fuel ih =>
    intro round hangCount warnings r h
    by_cases hd : (obs round).drained = true
    · simp only [waitLoop, hd, if_true, Option.some.injEq] at h
      subst h
      exact ⟨le_refl _, hd, fun j h1 h2 => by dsimp only at h2; omega⟩
    · simp only [waitLoop, hd] at h
      obtain ⟨h1, h2, h3⟩ := ih _ _ _ r h
      refine ⟨by omega, h2, ?_⟩
      intro j hj1 hj2
      rcases Nat.eq_or_lt_of_le hj1 with heq | hlt
      · subst heq
        simpa using hd
      · exact h3 j (by omega) hj2

/-- The loop never returns while no round is drained. -/
theorem waitLoop_never (obs : Nat → Aggregator Report) (h : ∀ k, (obs k).drained = false) :
    ∀ fuel round hangCount warnings, waitLoop obs fuel round hangCount warnings = none := by
  intro fuel
  induction fuel with
  | zero => intro _ _ _; rfl
  | succ fuel ih =>
    intro round hangCount warnings
    simp only [waitLoop, h round]
    exact ih _ _ _

/-- The test of `WaitForEmptyQueues` holds exactly when the three queues are empty and the
three counters are equal. -/
theorem drained_iff (agg : Aggregator Report) :
    agg.drained = true ↔
      (agg.forAnalysis = [] ∧ agg.forUpload = [] ∧ agg.forBugReporting = [] ∧
        agg.analysisCount = agg.uploadCount ∧ agg.uploadCount = agg.bugReportCount) := by
  simp [Aggregator.drained, and_assoc]

theorem drained_false_iff (agg : Aggregator Report) :
    agg.drained = false ↔
      ¬ (agg.forAnalysis = [] ∧ agg.forUpload = [] ∧ agg.forBugReporting = [] ∧
        agg.analysisCount = agg.uploadCount ∧ agg.uploadCount = agg.bugReportCount) := by
  rw [← drained_iff]
  cases agg.drained <;> simp

/-- The call `WaitForEmptyQueues` in terms of its test: it returns at once when the test holds
at the call, at the first polling round at which the test holds otherwise, and never at a round
at which the test fails. -/
theorem WaitForEmptyQueues_test (obs : Nat → Aggregator Report) :
    ((obs 0).drained = true →
      ∀ fuel, WaitForEmptyQueues obs fuel = some { rounds := 0, hangCount := 0, warnings := 0 }) ∧
    (∀ k, (obs 0).drained = false → 1 ≤ k → (obs k).drained = true →
      (∀ j, 1 ≤ j → j < k → (obs j).drained = false) →
      ∀ fuel, k ≤ fuel →
        ∃ r, WaitForEmptyQueues obs fuel = some r ∧ r.rounds = k ∧ r.hangCount = k - 1) ∧
    (∀ fuel r, WaitForEmptyQueues obs fuel = some r →
      (obs r.rounds).drained = true ∧ ∀ j, j < r.rounds → (obs j).drained = false) := by
  refine ⟨?_, ?_, ?_⟩
  · intro h0 fuel
    simp [WaitForEmptyQueues, h0]
  · intro k h0 hk1 hk hnot fuel hfuel
    obtain ⟨r, hr, hr1, hr2⟩ := waitLoop_complete obs k hk fuel 1 0 0 hk1 (by omega) hnot
    refine ⟨r, ?_, hr1, by omega⟩
    simp only [WaitForEmptyQueues, h0]
    exact hr
  · intro fuel r h
    by_cases h0 : (obs 0).drained = true
    · simp only [WaitForEmptyQueues, h0, if_true, Option.some.injEq] at h
      subst h
      exact ⟨h0, fun j hj => by dsimp only at hj; omega⟩
    · simp only [WaitForEmptyQueues, h0] at h
      obtain ⟨h1, h2, h3⟩ := waitLoop_sound obs fuel 1 0 0 r h
      refine ⟨h2, ?_⟩
      intro j hj
      rcases Nat.eq_zero_or_pos j with hz | hp
      · subst hz
        simpa using h0
      · exact h3 j hp hj

/-- C9: `WaitForEmptyQueues` uses exactly the drain condition, which is that the three queues
are empty and the three stage counters are equal.  When the condition holds at the call it
returns without a polling round.  Otherwise, when round `k` is the first polling round at which
the condition holds, it returns at round `k` (given the `k` ticks), having counted `k - 1`
hanging rounds, whether or not `k` is below the hang threshold.  And whenever it returns, the
condition holds at the round of the return and at no round before it. -/
theorem waitForEmptyQueues_drain (obs : Nat → Aggregator Report) :
    (((obs 0).forAnalysis = [] ∧ (obs 0).forUpload = [] ∧ (obs 0).forBugReporting = [] ∧
        (obs 0).analysisCount = (obs 0).uploadCount ∧ (obs 0).uploadCount = (obs 0).bugReportCount) →
      ∀ fuel, WaitForEmptyQueues obs fuel = some { rounds := 0, hangCount := 0, warnings := 0 }) ∧
    (∀ k,
      ¬ ((obs 0).forAnalysis = [] ∧ (obs 0).forUpload = [] ∧ (obs 0).forBugReporting = [] ∧
        (obs 0).analysisCount = (obs 0).uploadCount ∧ (obs 0).uploadCount = (obs 0).bugReportCount) →
      1 ≤ k →
      ((obs k).forAnalysis = [] ∧ (obs k).forUpload = [] ∧ (obs k).forBugReporting = [] ∧
        (obs k).analysisCount = (obs k).uploadCount ∧ (obs k).uploadCount = (obs k).bugReportCount) →
      (∀ j, 1 ≤ j → j < k →
        ¬ ((obs j).forAnalysis = [] ∧ (obs j).forUpload = [] ∧ (obs j).forBugReporting = [] ∧
        (obs j).analysisCount = (obs j).uploadCount ∧ (obs j).uploadCount = (obs j).bugReportCount)) →
      ∀ fuel, k ≤ fuel →
        ∃ r, WaitForEmptyQueues obs fuel = some r ∧ r.rounds = k ∧ r.hangCount = k - 1) ∧
    (∀ fuel r, WaitForEmptyQueues obs fuel = some r →
      ((obs r.rounds).forAnalysis = [] ∧ (obs r.rounds).forUpload = [] ∧ (obs r.rounds).forBugReporting = [] ∧
        (obs r.rounds).analysisCount = (obs r.rounds).uploadCount ∧ (obs r.rounds).uploadCount = (obs r.rounds).bugReportCount) ∧
      ∀ j, j < r.rounds →
        ¬ ((obs j).forAnalysis = [] ∧ (obs j).forUpload = [] ∧ (obs j).forBugReporting = [] ∧
        (obs j).analysisCount = (obs j).uploadCount ∧ (obs j).uploadCount = (obs j).bugReportCount)) := by
  obtain ⟨h1, h2, h3⟩ := WaitForEmptyQueues_test obs
  refine ⟨fun h0 => h1 ((drained_iff _).2 h0), ?_, ?_⟩
  · intro k h0 hk1 hk hnot
    exact h2 k ((drained_false_iff _).2 h0) hk1 ((drained_iff _).2 hk)
      (fun j hj1 hjk => (drained_false_iff _).2 (hnot j hj1 hjk))
  · intro fuel r hr
    obtain ⟨ha, hb⟩ := h3 fuel r hr
    exact ⟨(drained_iff _).1 ha, fun j hj => (drained_false_iff _).1 (hb j hj)⟩

set_option maxRecDepth 100000 in
/-- C10, on the code: the hang threshold does not make `WaitForEmptyQueues` return.  On the
wedged pipeline `exStuckObs`, in which a path stays in the analysis queue, it has not returned
after any number of polling rounds.  On `exLateObs`, which drains at round 150, it has not
returned after 100 rounds and returns at round 150, with `hangCount` 149 and the warning that it
is quitting logged 50 times. -/
theorem waitForEmptyQueues_no_give_up :
    (∀ fuel, WaitForEmptyQueues exStuckObs fuel = none) ∧
    WaitForEmptyQueues exLateObs 100 = none ∧
    WaitForEmptyQueues exLateObs 150 =
      some { rounds := 150, hangCount := 149, warnings := 50 } := by
  refine ⟨?_, by rfl, by decide⟩
  intro fuel
  have h : ∀ k, (exStuckObs k).drained = false := fun _ => rfl
  have h0 : ¬ ((exStuckObs 0).drained = true) := by rw [h 0]; exact Bool.noConfusion
  simp only [WaitForEmptyQueues, h0]
  exact waitLoop_never exStuckObs h fuel 1 0 0

/-! ## The sorted slice (`SortedStringSlice`) -/

/-- The binary search loop on a monotone test: it returns the least index at which the test
holds (`j` when there is none below `j`). -/
theorem searchLoop_spec (f : Nat → Bool) (n : Nat)
    (hmono : ∀ a b, a ≤ b → b < n → f a = true → f b = true) :
    ∀ fuel i j, i ≤ j → j ≤ n → j - i ≤ fuel →
      (∀ k, k < i → f k = false) → (∀ k, j ≤ k → k < n → f k = true) →
      i ≤ searchLoop f fuel i j ∧ searchLoop f fuel i j ≤ j ∧
      (∀ k, k < searchLoop f fuel i j → f k = false) ∧
      (∀ k, searchLoop f fuel i j ≤ k → k < n → f k = true) := by
  intro fuel
  induction fuel with
  | zero =>
    intro i j hij _ hfuel hlo hhi
    have : i = j := by omega
    subst this
    exact ⟨le_refl _, le_refl _, hlo, hhi⟩
  | succ fuel ih =>
    intro i j hij hjn hfuel hlo hhi
    by_cases hlt : i < j
    · have hh1 : i ≤ (i + j) / 2 := by omega
      have hh2 : (i + j) / 2 < j := by omega
      cases hf : f ((i + j) / 2) with
      | false =>
        have hlo2 : ∀ k, k < (i + j) / 2 + 1 → f k = false := by
          intro k hk
          cases hk2 : f k with
          | false => rfl
          | true =>
            have := hmono k ((i + j) / 2) (by omega) (by omega) hk2
            rw [hf] at this
            exact Bool.noConfusion this
        obtain ⟨h1, h2, h3, h4⟩ := ih ((i + j) / 2 + 1) j (by omega) hjn (by omega) hlo2 hhi
        have hstep : searchLoop f (fuel + 1) i j = searchLoop f fuel ((i + j) / 2 + 1) j := by
          simp [searchLoop, hlt, hf]
        rw [hstep]
        exact ⟨by omega, h2, h3, h4⟩
      | true =>
        have hhi2 : ∀ k, (i + j) / 2 ≤ k → k < n → f k = true := by
          intro k hk hkn
          exact hmono ((i + j) / 2) k hk hkn hf
        obtain ⟨h1, h2, h3, h4⟩ := ih i ((i + j) / 2) hh1 (by omega) (by omega) hlo hhi2
        have hstep : searchLoop f (fuel + 1) i j = searchLoop f fuel i ((i + j) / 2) := by
          simp [searchLoop, hlt, hf]
        rw [hstep]
        exact ⟨h1, by omega, h3, h4⟩
    · have : i = j := by omega
      subst this
      have hstep : searchLoop f (fuel + 1) i i = i := by
        simp [searchLoop]
      rw [hstep]
      exact ⟨le_refl _, le_refl _, hlo, hhi⟩

/-- The function `sort.Search` on a monotone test. -/
theorem Search_spec (f : Nat → Bool) (n : Nat)
    (hmono : ∀ a b, a ≤ b → b < n → f a = true → f b = true) :
    Search n f ≤ n ∧ (∀ k, k < Search n f → f k = false) ∧
      (∀ k, Search n f ≤ k → k < n → f k = true) := by
  obtain ⟨_, h2, h3, h4⟩ := searchLoop_spec f n hmono n 0 n (Nat.zero_le _) (le_refl _)
    (by omega) (fun k hk => absurd hk (Nat.not_lt_zero k)) (fun k h1 h2 => by omega)
  exact ⟨h2, h3, h4⟩

/-- On a sorted slice `Contains` is membership. -/
theorem Contains_iff_mem (s : SortedStringSlice) (hs : s.strings.Sorted (fun x y => x ≤ y))
    (str : String) : s.Contains str = true ↔ str ∈ s.strings := by
  have hmono : ∀ a b, a ≤ b → b < s.strings.length →
      decide (str ≤ s.strings.getD a "") = true → decide (str ≤ s.strings.getD b "") = true := by
    intro a b hab hb ha
    have hale : a < s.strings.length := by omega
    rw [decide_eq_true_eq] at ha ⊢
    rw [List.getD_eq_getElem _ _ hale] at ha
    rw [List.getD_eq_getElem _ _ hb]
    have hrel : s.strings.get ⟨a, hale⟩ ≤ s.strings.get ⟨b, hb⟩ :=
      hs.rel_get_of_le (by simpa using hab)
    exact le_trans ha (by simpa using hrel)
  obtain ⟨h1, h2, h3⟩ := Search_spec (fun i => decide (str ≤ s.strings.getD i ""))
    s.strings.length hmono
  unfold SortedStringSlice.Contains StringSliceSearch
  constructor
  · intro h
    simp only [ite_eq_left_iff, not_and, Bool.false_eq_true, imp_false, not_forall,
      not_not] at h
    obtain ⟨hlt, heq⟩ := h
    rw [List.getD_eq_getElem _ _ hlt] at heq
    rw [← heq]
    exact List.getElem_mem _
  · intro hmem
    obtain ⟨m, hm, hmx⟩ := List.getElem_of_mem hmem
    have hfm : decide (str ≤ s.strings.getD m "") = true := by
      rw [List.getD_eq_getElem _ _ hm, hmx]
      simp
    have hrm : Search s.strings.length (fun i => decide (str ≤ s.strings.getD i "")) ≤ m := by
      by_contra hc
      have := h2 m (by omega)
      rw [hfm] at this
      exact Bool.noConfusion this
    have hrn : Search s.strings.length (fun i => decide (str ≤ s.strings.getD i ""))
        < s.strings.length := by omega
    have hfr := h3 _ (le_refl _) hrn
    rw [decide_eq_true_eq, List.getD_eq_getElem _ _ hrn] at hfr
    have hrel : s.strings.get ⟨_, hrn⟩ ≤ s.strings.get ⟨m, hm⟩ :=
      hs.rel_get_of_le (by simpa using hrm)
    have heq : s.strings[Search s.strings.length
        (fun i => decide (str ≤ s.strings.getD i ""))] = str := by
      apply le_antisymm
      · have := hrel
        simp only [List.get_eq_getElem] at this
        rw [hmx] at this
        exact this
      · exact hfr
    simp only [ite_eq_left_iff, not_and, Bool.false_eq_true, imp_false, not_forall, not_not]
    exact ⟨hrn, by rw [List.getD_eq_getElem _ _ hrn]; exact heq⟩

/-- The method `Append` keeps the slice sorted. -/
theorem Append_sorted (s : SortedStringSlice) (strs : List String) :
    (s.Append strs).strings.Sorted (fun x y => x ≤ y) := by
  unfold SortedStringSlice.Append StringSliceSort
  exact List.sorted_insertionSort _ _

/-- The method `Append` rearranges the old elements and the new ones. -/
theorem Append_perm (s : SortedStringSlice) (strs : List String) :
    (s.Append strs).strings.Perm (s.strings ++ strs) := by
  unfold SortedStringSlice.Append StringSliceSort
  exact List.perm_insertionSort _ _

theorem mem_Append (s : SortedStringSlice) (strs : List String) (x : String) :
    x ∈ (s.Append strs).strings ↔ x ∈ s.strings ∨ x ∈ strs := by
  rw [(Append_perm s strs).mem_iff, List.mem_append]

/-! ## The scan (`findBadFuzzPaths`, `scanHelper`) -/

theorem ls_of_listDir (w : World Report) (path : String) (entries : List FileInfo)
    (h : w.listDir path = .ok entries) : w.ls path = entries := by
  unfold World.ls
  rw [h]

/-- The innermost loop appends the paths of the crash folder to what was collected. -/
theorem scanCrashContents_eq (alreadyFoundFuzzes : SortedStringSlice) (crashPath : String) :
    ∀ (entries : List FileInfo) (badFuzzPaths : List String),
      scanCrashContents alreadyFoundFuzzes crashPath entries badFuzzPaths =
        badFuzzPaths ++
          (((entries.filter fun n => decide (n.Name ≠ "README.txt")).map
              fun n => pathJoin crashPath n.Name).filter
            fun p => !alreadyFoundFuzzes.Contains p) := by
  intro entries
  induction entries with
  | nil => intro acc; simp [scanCrashContents]
  | cons crash rest ih =>
    intro acc
    by_cases hn : crash.Name = "README.txt"
    · simp [scanCrashContents, hn, ih]
    · cases hc : alreadyFoundFuzzes.Contains (pathJoin crashPath crash.Name) with
      | true => simp [scanCrashContents, hn, hc, ih]
      | false => simp [scanCrashContents, hn, hc, ih]

/-- The middle loop, when every crash folder can be listed. -/
theorem scanFuzzerContents_eq (w : World Report) (alreadyFoundFuzzes : SortedStringSlice)
    (path : String) :
    ∀ (entries : List FileInfo) (badFuzzPaths : List String),
      (∀ c ∈ entries, c.IsDir = true → HasPrefix c.Name "crashes" = true →
        ∃ l, w.listDir (pathJoin path c.Name) = .ok l) →
      scanFuzzerContents w alreadyFoundFuzzes path entries badFuzzPaths =
        .ok (badFuzzPaths ++
          (entries.filter fun c => c.IsDir && HasPrefix c.Name "crashes").flatMap
            fun c => crashFolderPaths w alreadyFoundFuzzes (pathJoin path c.Name)) := by
  intro entries
  induction entries with
  | nil => intro acc _; simp [scanFuzzerContents]
  | cons info rest ih =>
    intro acc h
    have hrest : ∀ c ∈ rest, c.IsDir = true → HasPrefix c.Name "crashes" = true →
        ∃ l, w.listDir (pathJoin path c.Name) = .ok l :=
      fun c hc => h c (List.mem_cons_of_mem _ hc)
    by_cases hd : (info.IsDir && HasPrefix info.Name "crashes") = true
    · have hd2 := hd
      rw [Bool.and_eq_true] at hd2
      obtain ⟨l, hl⟩ := h info (List.mem_cons_self _ _) hd2.1 hd2.2
      simp only [scanFuzzerContents, hd, if_true, hl]
      rw [ih _ hrest, scanCrashContents_eq]
      simp [List.filter_cons, hd, crashFolderPaths, ls_of_listDir w _ _ hl]
    · simp only [scanFuzzerContents, hd, if_false]
      rw [ih _ hrest]
      simp [List.filter_cons, hd]

/-- The outer loop, when every fuzzer folder and every crash folder can be listed. -/
theorem scanFuzzerFolders_eq (w : World Report) (alreadyFoundFuzzes : SortedStringSlice)
    (scanPath : String) :
    ∀ (entries : List FileInfo) (badFuzzPaths : List String),
      (∀ f ∈ entries, (∃ l, w.listDir (pathJoin scanPath f.Name) = .ok l) ∧
        ∀ c ∈ w.ls (pathJoin scanPath f.Name), c.IsDir = true →
          HasPrefix c.Name "crashes" = true →
          ∃ l, w.listDir (pathJoin (pathJoin scanPath f.Name) c.Name) = .ok l) →
      scanFuzzerFolders w alreadyFoundFuzzes scanPath entries badFuzzPaths =
        .ok (badFuzzPaths ++ entries.flatMap
          fun f => fuzzerFolderPaths w alreadyFoundFuzzes (pathJoin scanPath f.Name)) := by
  intro entries
  induction entries with
  | nil => intro acc _; simp [scanFuzzerFolders]
  | cons info rest ih =>
    intro acc h
    obtain ⟨⟨l, hl⟩, hc⟩ := h info (List.mem_cons_self _ _)
    rw [ls_of_listDir w _ _ hl] at hc
    simp only [scanFuzzerFolders, hl]
    rw [scanFuzzerContents_eq w alreadyFoundFuzzes _ l acc hc]
    dsimp only
    rw [ih _ (fun f hf => h f (List.mem_cons_of_mem _ hf))]
    simp [fuzzerFolderPaths, ls_of_listDir w _ _ hl]

/-- A scan in which no filesystem operation fails returns the candidate paths. -/
theorem findBadFuzzPaths_eq (w : World Report) (agg : Aggregator Report)
    (alreadyFoundFuzzes : SortedStringSlice) (h : scanSucceeds w (agg.scanPath w)) :
    agg.findBadFuzzPaths w alreadyFoundFuzzes =
      .ok (candidatePaths w alreadyFoundFuzzes (agg.scanPath w)) := by
  obtain ⟨⟨ho, l, hl⟩, hf⟩ := h
  have hld : w.listDir (agg.scanPath w) = .ok l := by
    simp [World.listDir, ho, hl]
  rw [ls_of_listDir w _ _ hld] at hf
  simp only [Aggregator.findBadFuzzPaths, ho, hl]
  rw [scanFuzzerFolders_eq w alreadyFoundFuzzes _ l [] hf]
  simp [candidatePaths, ls_of_listDir w _ _ hld]

/-- The candidate paths are the paths `scanPath/<worker>/<crashdir>/<name>` of the tree that
`Contains` does not find in the already-found slice. -/
theorem mem_candidatePaths (w : World Report) (alreadyFoundFuzzes : SortedStringSlice)
    (scanPath p : String) :
    p ∈ candidatePaths w alreadyFoundFuzzes scanPath ↔
      isCandidate w scanPath "crashes" p ∧ alreadyFoundFuzzes.Contains p = false := by
  simp only [candidatePaths, fuzzerFolderPaths, crashFolderPaths, isCandidate, List.mem_flatMap,
    List.mem_filter, List.mem_map, Bool.and_eq_true, decide_eq_true_eq, Bool.not_eq_true']
  constructor
  · rintro ⟨f, hf, c, ⟨hc, hd, hp⟩, ⟨n, ⟨hn, hne⟩, rfl⟩, hnot⟩
    exact ⟨⟨f, hf, c, hc, hd, hp, n, hn, hne, rfl⟩, hnot⟩
  · rintro ⟨⟨f, hf, c, hc, hd, hp, n, hn, hne, rfl⟩, hnot⟩
    exact ⟨f, hf, c, ⟨hc, hd, hp⟩, ⟨n, ⟨hn, hne⟩, rfl⟩, hnot⟩

/-! ### Each candidate is collected once -/

theorem append_cons_cancel {α : Type} (x : α) :
    ∀ (l l' m m' : List α), x ∉ m → x ∉ m' → l ++ x :: m = l' ++ x :: m' → l = l' ∧ m = m' := by
  intro l
  induction l with
  | nil =>
    intro l' m m' hm _ h
    cases l' with
    | nil =>
      simp only [List.nil_append, List.cons.injEq, true_and] at h
      exact ⟨rfl, h⟩
    | cons y t =>
      simp only [List.nil_append, List.cons_append, List.cons.injEq] at h
      exact absurd (by rw [h.2]; simp) hm
  | cons y t ih =>
    intro l' m m' hm hm' h
    cases l' with
    | nil =>
      simp only [List.nil_append, List.cons_append, List.cons.injEq] at h
      exact absurd (by rw [← h.2]; simp) hm'
    | cons y' t' =>
      simp only [List.cons_append, List.cons.injEq] at h
      obtain ⟨h1, h2⟩ := ih t' m m' hm hm' h.2
      exact ⟨by rw [h.1, h1], h2⟩

/-- A joined path determines the directory and the name, for names without a separator. -/
theorem pathJoin_inj (a a' b b' : String) (hb : '/' ∉ b.data) (hb' : '/' ∉ b'.data)
    (h : pathJoin a b = pathJoin a' b') : a = a' ∧ b = b' := by
  have hd := congrArg String.data h
  simp only [pathJoin, String.data_append] at hd
  rw [List.append_assoc, List.append_assoc] at hd
  obtain ⟨h1, h2⟩ := append_cons_cancel '/' a.data a'.data b.data b'.data hb hb' hd
  exact ⟨String.ext h1, String.ext h2⟩

theorem pathJoin_right_inj (a b b' : String) (h : pathJoin a b = pathJoin a b') : b = b' := by
  have hd := congrArg String.data h
  simp only [pathJoin, String.data_append, List.append_assoc] at hd
  exact String.ext (List.append_cancel_left (List.append_cancel_left hd))

theorem mem_crashFolderPaths (w : World Report) (alreadyFoundFuzzes : SortedStringSlice)
    (crashPath p : String) (h : p ∈ crashFolderPaths w alreadyFoundFuzzes crashPath) :
    ∃ n ∈ w.ls crashPath, p = pathJoin crashPath n.Name := by
  simp only [crashFolderPaths, List.mem_filter, List.mem_map] at h
  obtain ⟨⟨n, ⟨hn, _⟩, rfl⟩, _⟩ := h
  exact ⟨n, hn, rfl⟩

theorem mem_fuzzerFolderPaths (w : World Report) (alreadyFoundFuzzes : SortedStringSlice)
    (path p : String) (h : p ∈ fuzzerFolderPaths w alreadyFoundFuzzes path) :
    ∃ c ∈ w.ls path, ∃ n ∈ w.ls (pathJoin path c.Name),
      p = pathJoin (pathJoin path c.Name) n.Name := by
  simp only [fuzzerFolderPaths, List.mem_flatMap, List.mem_filter] at h
  obtain ⟨c, ⟨hc, _⟩, hp⟩ := h
  obtain ⟨n, hn, rfl⟩ := mem_crashFolderPaths w alreadyFoundFuzzes _ p hp
  exact ⟨c, hc, n, hn, rfl⟩

theorem crashFolderPaths_nodup (w : World Report) (alreadyFoundFuzzes : SortedStringSlice)
    (crashPath : String) (h : properListing (w.ls crashPath)) :
    (crashFolderPaths w alreadyFoundFuzzes crashPath).Nodup := by
  unfold crashFolderPaths
  apply List.Nodup.filter
  have hsub : (((w.ls crashPath).filter fun n => decide (n.Name ≠ "README.txt")).map
      fun e => e.Name).Nodup :=
    h.1.sublist ((List.filter_sublist _).map _)
  have hmap := hsub.map (f := pathJoin crashPath)
    (fun b b' hbb => pathJoin_right_inj crashPath b b' hbb)
  rw [List.map_map] at hmap
  exact hmap

theorem names_pairwise (entries : List FileInfo) (h : properListing entries) :
    entries.Pairwise (fun a b => a.Name ≠ b.Name) :=
  List.pairwise_map.1 h.1

theorem fuzzerFolderPaths_nodup (w : World Report) (alreadyFoundFuzzes : SortedStringSlice)
    (path : String) (h : properListing (w.ls path))
    (hc : ∀ c ∈ w.ls path, properListing (w.ls (pathJoin path c.Name))) :
    (fuzzerFolderPaths w alreadyFoundFuzzes path).Nodup := by
  unfold fuzzerFolderPaths
  rw [List.nodup_flatMap]
  constructor
  · intro c hcm
    exact crashFolderPaths_nodup w alreadyFoundFuzzes _ (hc c (List.mem_of_mem_filter hcm))
  · have hp : (w.ls path).Pairwise (fun a b : FileInfo =>
        List.Disjoint (crashFolderPaths w alreadyFoundFuzzes (pathJoin path a.Name))
          (crashFolderPaths w alreadyFoundFuzzes (pathJoin path b.Name))) := by
      refine (names_pairwise _ h).imp_of_mem ?_
      intro a b ha hb hne p hpa hpb
      obtain ⟨n, hn, rfl⟩ := mem_crashFolderPaths w alreadyFoundFuzzes _ p hpa
      obtain ⟨n', hn', heq⟩ := mem_crashFolderPaths w alreadyFoundFuzzes _ _ hpb
      have h1 := (pathJoin_inj _ _ _ _ ((hc a ha).2 n hn) ((hc b hb).2 n' hn') heq).1
      exact hne (pathJoin_right_inj path _ _ h1)
    exact hp.sublist (List.filter_sublist _)

theorem candidatePaths_nodup (w : World Report) (alreadyFoundFuzzes : SortedStringSlice)
    (scanPath : String) (h : properTree w scanPath) :
    (candidatePaths w alreadyFoundFuzzes scanPath).Nodup := by
  unfold candidatePaths
  rw [List.nodup_flatMap]
  constructor
  · intro f hf
    exact fuzzerFolderPaths_nodup w alreadyFoundFuzzes _ (h.2 f hf).1 (h.2 f hf).2
  · refine (names_pairwise _ h.1).imp_of_mem ?_
    intro a b ha hb hne p hpa hpb
    obtain ⟨c, hc, n, hn, rfl⟩ := mem_fuzzerFolderPaths w alreadyFoundFuzzes _ p hpa
    obtain ⟨c', hc', n', hn', heq⟩ := mem_fuzzerFolderPaths w alreadyFoundFuzzes _ _ hpb
    have h1 := (pathJoin_inj _ _ _ _ (((h.2 a ha).2 c hc).2 n hn)
      (((h.2 b hb).2 c' hc').2 n' hn') heq).1
    have h2 := (pathJoin_inj _ _ _ _ ((h.2 a ha).1.2 c hc) ((h.2 b hb).1.2 c' hc') h1).1
    exact hne (pathJoin_right_inj scanPath _ _ h2)

/-! ### The claims about the scan -/

theorem exTree_scanSucceeds : scanSucceeds exTree (exAgg.scanPath exTree) := by
  refine ⟨⟨rfl, _, rfl⟩, ?_⟩
  intro f hf
  have hroot : exTree.ls (exAgg.scanPath exTree) = [{ Name := "fuzzer0", IsDir := true }] := rfl
  rw [hroot, List.mem_singleton] at hf
  subst hf
  refine ⟨⟨_, rfl⟩, ?_⟩
  intro c hc hd hp
  have hw : exTree.ls (pathJoin (exAgg.scanPath exTree) "fuzzer0") =
      [{ Name := "crash", IsDir := true }, { Name := "crashes", IsDir := true },
       { Name := "queue", IsDir := true }, { Name := "fuzzer_stats", IsDir := false }] := rfl
  dsimp only at hc
  rw [hw] at hc
  simp only [List.mem_cons, List.mem_singleton, List.not_mem_nil, or_false] at hc
  rcases hc with rfl | rfl | rfl | rfl
  · exact absurd hp (by decide)
  · exact ⟨_, rfl⟩
  · exact absurd hp (by decide)
  · exact absurd hd (by decide)

theorem exTree_properTree : properTree exTree (exAgg.scanPath exTree) := by
  have hroot : exTree.ls (exAgg.scanPath exTree) = [{ Name := "fuzzer0", IsDir := true }] := rfl
  have hw : exTree.ls (pathJoin (exAgg.scanPath exTree) "fuzzer0") =
      [{ Name := "crash", IsDir := true }, { Name := "crashes", IsDir := true },
       { Name := "queue", IsDir := true }, { Name := "fuzzer_stats", IsDir := false }] := rfl
  have h1 : exTree.ls (pathJoin (pathJoin (exAgg.scanPath exTree) "fuzzer0") "crash") =
      [{ Name := "id:000001", IsDir := false }] := rfl
  have h2 : exTree.ls (pathJoin (pathJoin (exAgg.scanPath exTree) "fuzzer0") "crashes") =
      [{ Name := "README.txt", IsDir := false }, { Name := "id:000000", IsDir := false }] := rfl
  have h3 : exTree.ls (pathJoin (pathJoin (exAgg.scanPath exTree) "fuzzer0") "queue") =
      [{ Name := "id:000002", IsDir := false }] := rfl
  have h4 : exTree.ls (pathJoin (pathJoin (exAgg.scanPath exTree) "fuzzer0") "fuzzer_stats") =
      [] := rfl
  rw [properTree, hroot]
  refine ⟨⟨by decide, by decide⟩, ?_⟩
  intro f hf
  rw [List.mem_singleton] at hf
  subst hf
  dsimp only
  rw [hw]
  refine ⟨⟨by decide, by decide⟩, ?_⟩
  intro c hc
  simp only [List.mem_cons, List.mem_singleton, List.not_mem_nil, or_false] at hc
  rcases hc with rfl | rfl | rfl | rfl
  · dsimp only
    rw [h1]
    exact ⟨by decide, by decide⟩
  · dsimp only
    rw [h2]
    exact ⟨by decide, by decide⟩
  · dsimp only
    rw [h3]
    exact ⟨by decide, by decide⟩
  · dsimp only
    rw [h4]
    exact ⟨by decide, by decide⟩

/-- C3, as the code has it: when no filesystem operation of the scan fails, `findBadFuzzPaths`
returns exactly the paths `root/<worker>/<crashdir>/<name>` where `<crashdir>` is a subdirectory
of a worker directory whose name has the prefix `crashes`, `<name>` is an entry of it other than
`README.txt`, and `Contains` does not find the joined path in the already-found slice, which for
a sorted slice (as `Append` leaves it) means that the path is not in it; in a tree whose
listings are those of directories no path is returned twice. -/
theorem findBadFuzzPaths_exact (w : World Report) (agg : Aggregator Report)
    (alreadyFoundFuzzes : SortedStringSlice) (h : scanSucceeds w (agg.scanPath w)) :
    ∃ paths, agg.findBadFuzzPaths w alreadyFoundFuzzes = .ok paths ∧
      (∀ p, p ∈ paths ↔
        isCandidate w (agg.scanPath w) "crashes" p ∧ alreadyFoundFuzzes.Contains p = false) ∧
      (alreadyFoundFuzzes.strings.Sorted (fun x y => x ≤ y) → ∀ p, p ∈ paths ↔
        isCandidate w (agg.scanPath w) "crashes" p ∧ p ∉ alreadyFoundFuzzes.strings) ∧
      (properTree w (agg.scanPath w) → paths.Nodup) := by
  refine ⟨_, findBadFuzzPaths_eq w agg alreadyFoundFuzzes h, ?_, ?_, ?_⟩
  · intro p
    exact mem_candidatePaths w alreadyFoundFuzzes _ p
  · intro hs p
    rw [mem_candidatePaths, ← Contains_iff_mem alreadyFoundFuzzes hs p]
    simp
  · intro hp
    exact candidatePaths_nodup w alreadyFoundFuzzes _ hp

/-- C3, instantiated: the scan of the tree `exTree` with nothing found before. -/
theorem findBadFuzzPaths_exact_witness :
    scanSucceeds exTree (exAgg.scanPath exTree) ∧
    ∃ paths, exAgg.findBadFuzzPaths exTree (SortedStringSlice.mk []) = .ok paths ∧
      (∀ p, p ∈ paths ↔
        isCandidate exTree (exAgg.scanPath exTree) "crashes" p ∧ (SortedStringSlice.mk []).Contains p = false) ∧
      ((SortedStringSlice.mk []).strings.Sorted (fun x y => x ≤ y) → ∀ p, p ∈ paths ↔
        isCandidate exTree (exAgg.scanPath exTree) "crashes" p ∧ p ∉ (SortedStringSlice.mk []).strings) ∧
      (properTree exTree (exAgg.scanPath exTree) → paths.Nodup) :=
  ⟨exTree_scanSucceeds,
    findBadFuzzPaths_exact exTree exAgg (SortedStringSlice.mk []) exTree_scanSucceeds⟩

/-- C3, as stated, fails on the tree `exTree`: no filesystem operation fails, the listings are
those of directories, the file
`id:000001` lies in the subdirectory `crash` of the worker directory `fuzzer0`, whose name has
the prefix `crash`, it is not `README.txt` and nothing was found before; yet the scan returns
only the file in `crashes`. -/
theorem findBadFuzzPaths_crash_prefix_counterexample :
    scanSucceeds exTree (exAgg.scanPath exTree) ∧
    properTree exTree (exAgg.scanPath exTree) ∧
    exAgg.findBadFuzzPaths exTree { strings := [] } =
      .ok ["/afl/skpicture/fuzzer0/crashes/id:000000"] ∧
    isCandidate exTree (exAgg.scanPath exTree) "crash" "/afl/skpicture/fuzzer0/crash/id:000001" ∧
    ¬ (∀ paths, exAgg.findBadFuzzPaths exTree { strings := [] } = .ok paths →
        ∀ p, p ∈ paths ↔
          isCandidate exTree (exAgg.scanPath exTree) "crash" p ∧
            p ∉ (SortedStringSlice.mk []).strings) := by
  have heval : exAgg.findBadFuzzPaths exTree { strings := [] } =
      .ok ["/afl/skpicture/fuzzer0/crashes/id:000000"] := by rfl
  have hcand : isCandidate exTree (exAgg.scanPath exTree) "crash"
      "/afl/skpicture/fuzzer0/crash/id:000001" :=
    ⟨{ Name := "fuzzer0", IsDir := true }, by decide, { Name := "crash", IsDir := true },
      by decide, rfl, by decide, { Name := "id:000001", IsDir := false }, by decide,
      by decide, by decide⟩
  refine ⟨exTree_scanSucceeds, exTree_properTree, heval, hcand, ?_⟩
  intro hall
  have hmem := (hall _ heval "/afl/skpicture/fuzzer0/crash/id:000001").2
    ⟨hcand, by simp⟩
  exact absurd hmem (by decide)

/-- A scan that starts from a sorted slice holding every candidate of the tree forwards nothing
and leaves the slice as it is. -/
theorem scanHelper_fixed (w : World Report) (agg : Aggregator Report)
    (alreadyFoundFuzzes : SortedStringSlice)
    (hs : alreadyFoundFuzzes.strings.Sorted (fun x y => x ≤ y))
    (h : scanSucceeds w (agg.scanPath w))
    (hall : ∀ p, isCandidate w (agg.scanPath w) "crashes" p → p ∈ alreadyFoundFuzzes.strings) :
    agg.scanHelper w alreadyFoundFuzzes = (agg, alreadyFoundFuzzes, none) := by
  have hnil : candidatePaths w alreadyFoundFuzzes (agg.scanPath w) = [] := by
    rw [List.eq_nil_iff_forall_not_mem]
    intro p hp
    rw [mem_candidatePaths] at hp
    have hc := (Contains_iff_mem alreadyFoundFuzzes hs p).2 (hall p hp.1)
    rw [hp.2] at hc
    exact Bool.noConfusion hc
  unfold Aggregator.scanHelper
  rw [findBadFuzzPaths_eq w agg alreadyFoundFuzzes h, hnil]
  simp only [List.append_nil, SortedStringSlice.Append, StringSliceSort]
  rw [hs.insertionSort_eq]

theorem scanTicks_fixed (w : World Report) (agg : Aggregator Report)
    (alreadyFoundFuzzes : SortedStringSlice)
    (hfix : agg.scanHelper w alreadyFoundFuzzes = (agg, alreadyFoundFuzzes, none)) :
    ∀ n, Aggregator.scanTicks w n agg alreadyFoundFuzzes = (agg, alreadyFoundFuzzes) := by
  intro n
  induction n with
  | zero => rfl
  | succ n ih => simp only [Aggregator.scanTicks, hfix, ih]

/-- C4: on a tree that does not change and scans without a filesystem error, starting from the
empty already-found slice, the first `scanHelper` call appends to the analysis queue exactly the
candidate files of the tree (the entries other than `README.txt` of the `crashes`-prefixed
subdirectories of the worker directories), each once when the listings are those of
directories; and every later `scanHelper` call, from whatever the workers have made of the
aggregator in the meantime, returns no error and changes neither the aggregator (nothing is
forwarded) nor the slice. -/
theorem scanHelper_idempotent (w : World Report) (agg : Aggregator Report)
    (h : scanSucceeds w (agg.scanPath w)) :
    ∃ found,
      agg.scanHelper w { strings := [] } =
        ({ agg with forAnalysis := agg.forAnalysis ++ found },
         SortedStringSlice.Append { strings := [] } found, none) ∧
      (∀ p, p ∈ found ↔ isCandidate w (agg.scanPath w) "crashes" p) ∧
      (properTree w (agg.scanPath w) → found.Nodup) ∧
      ∀ (n : Nat) (later : Aggregator Report), later.Category = agg.Category →
        Aggregator.scanTicks w n later (SortedStringSlice.Append { strings := [] } found) =
          (later, SortedStringSlice.Append { strings := [] } found) ∧
        later.scanHelper w (SortedStringSlice.Append { strings := [] } found) =
          (later, SortedStringSlice.Append { strings := [] } found, none) := by
  have hs0 : (SortedStringSlice.mk []).strings.Sorted (fun x y => x ≤ y) := List.sorted_nil
  have hmem : ∀ p, p ∈ candidatePaths w { strings := [] } (agg.scanPath w) ↔
      isCandidate w (agg.scanPath w) "crashes" p := by
    intro p
    rw [mem_candidatePaths]
    have : SortedStringSlice.Contains { strings := [] } p = false := by
      cases hc : SortedStringSlice.Contains { strings := [] } p with
      | false => rfl
      | true => exact absurd ((Contains_iff_mem _ hs0 p).1 hc) (List.not_mem_nil p)
    simp [this]
  refine ⟨candidatePaths w { strings := [] } (agg.scanPath w), ?_, hmem, ?_, ?_⟩
  · unfold Aggregator.scanHelper
    rw [findBadFuzzPaths_eq w agg _ h]
  · intro hp
    exact candidatePaths_nodup w _ _ hp
  · intro n later hcat
    have hpath : later.scanPath w = agg.scanPath w := by
      unfold Aggregator.scanPath
      rw [hcat]
    have hfix := scanHelper_fixed w later
      (SortedStringSlice.Append { strings := [] }
        (candidatePaths w { strings := [] } (agg.scanPath w)))
      (Append_sorted _ _) (by rw [hpath]; exact h)
      (by
        intro p hp
        rw [hpath] at hp
        rw [mem_Append]
        exact Or.inr ((hmem p).2 hp))
    exact ⟨scanTicks_fixed w later _ hfix n, hfix⟩

/-- C4, instantiated: the scans of the tree `exTree`. -/
theorem scanHelper_idempotent_witness :
    scanSucceeds exTree (exAgg.scanPath exTree) ∧
    ∃ found,
      exAgg.scanHelper exTree { strings := [] } =
        ({ exAgg with forAnalysis := exAgg.forAnalysis ++ found },
         SortedStringSlice.Append { strings := [] } found, none) ∧
      (∀ p, p ∈ found ↔ isCandidate exTree (exAgg.scanPath exTree) "crashes" p) ∧
      (properTree exTree (exAgg.scanPath exTree) → found.Nodup) ∧
      ∀ (n : Nat) (later : Aggregator String), later.Category = exAgg.Category →
        Aggregator.scanTicks exTree n later (SortedStringSlice.Append { strings := [] } found) =
          (later, SortedStringSlice.Append { strings := [] } found) ∧
        later.scanHelper exTree (SortedStringSlice.Append { strings := [] } found) =
          (later, SortedStringSlice.Append { strings := [] } found, none) :=
  ⟨exTree_scanSucceeds, scanHelper_idempotent exTree exAgg exTree_scanSucceeds⟩

/-! ## Bug reporting (`bugReportingHelper`) -/

/-- C20: for every bug-report package and both settings of `MakeBugOnBadFuzz`,
`bugReportingHelper` returns no error, adds exactly one to `bugReportCount` and changes nothing
else in the aggregator (so no other counter), and takes the bug-action branch exactly when
`MakeBugOnBadFuzz` is true and the package has `IsBadFuzz` true. -/
theorem bugReportingHelper_counts (agg : Aggregator Report) (p : bugReportingPackage) :
    (agg.bugReportingHelper p).1 = { agg with bugReportCount := agg.bugReportCount + 1 } ∧
    (agg.bugReportingHelper p).1.bugReportCount = agg.bugReportCount + 1 ∧
    (agg.bugReportingHelper p).1.analysisCount = agg.analysisCount ∧
    (agg.bugReportingHelper p).1.uploadCount = agg.uploadCount ∧
    ((agg.bugReportingHelper p).2.1 = true ↔
      (agg.MakeBugOnBadFuzz = true ∧ p.IsBadFuzz = true)) ∧
    (agg.bugReportingHelper p).2.2 = none := by
  refine ⟨rfl, rfl, rfl, rfl, ?_, rfl⟩
  unfold Aggregator.bugReportingHelper
  cases agg.MakeBugOnBadFuzz <;> cases p.IsBadFuzz <;> simp

/-! ## The sorted slice under repeated `Append` -/

theorem foldl_Append_sorted (lists : List (List String)) :
    ∀ s : SortedStringSlice, s.strings.Sorted (fun x y => x ≤ y) →
      (lists.foldl (fun s strs => s.Append strs) s).strings.Sorted (fun x y => x ≤ y) := by
  induction lists with
  | nil => intro s hs; exact hs
  | cons l ls ih => intro s _; exact ih _ (Append_sorted s l)

theorem foldl_Append_perm (lists : List (List String)) :
    ∀ s : SortedStringSlice,
      (lists.foldl (fun s strs => s.Append strs) s).strings.Perm (s.strings ++ lists.flatten) := by
  induction lists with
  | nil => intro s; simp
  | cons l ls ih =>
    intro s
    refine (ih (s.Append l)).trans ?_
    rw [List.flatten_cons, ← List.append_assoc]
    exact (Append_perm s l).append_right _

/-- C19: after every sequence of `Append` calls on the empty slice, with arbitrary arguments,
the underlying slice is sorted and is a permutation of the concatenation of the appended lists,
and `Contains` is true of a string exactly when the string is an element of one of the appended
lists. -/
theorem appendAll_sorted_perm_contains (lists : List (List String)) :
    (appendAll lists).strings.Sorted (fun x y => x ≤ y) ∧
    (appendAll lists).strings.Perm lists.flatten ∧
    ∀ x, (appendAll lists).Contains x = true ↔ ∃ l ∈ lists, x ∈ l := by
  have hs : (appendAll lists).strings.Sorted (fun x y => x ≤ y) :=
    foldl_Append_sorted lists _ List.sorted_nil
  have hp : (appendAll lists).strings.Perm lists.flatten := by
    have := foldl_Append_perm lists { strings := [] }
    simpa [appendAll] using this
  refine ⟨hs, hp, ?_⟩
  intro x
  rw [Contains_iff_mem _ hs, hp.mem_iff, List.mem_flatten]

/-! ## The four runs (`performAnalysis`, `analyze`) -/

theorem performAnalysis_eq_command (w : World Report) (agg : Aggregator Report)
    (dir exe file : String) :
    agg.performAnalysis w dir exe file =
      ((w.Run (agg.analysisCommand w dir exe file)).Stdout,
       (w.Run (agg.analysisCommand w dir exe file)).Stderr, none) :=
  performAnalysis_eq w agg dir exe file

theorem performAnalysisLogged_eq (w : World Report) (agg : Aggregator Report)
    (log : List Command) (dir exe file : String) :
    agg.performAnalysisLogged w log dir exe file =
      (((w.Run (agg.analysisCommand w dir exe file)).Stdout,
        (w.Run (agg.analysisCommand w dir exe file)).Stderr, none),
       log ++ [agg.analysisCommand w dir exe file]) := by
  unfold Aggregator.performAnalysisLogged Aggregator.analysisCommand
  dsimp only
  split <;> rfl

theorem analyze_err (w : World Report) (agg : Aggregator Report) (dir fileName : String) :
    (agg.analyze w dir fileName).2 = none := by
  simp only [Aggregator.analyze, performAnalysis_eq]
  split_ifs <;> rfl

/-- C16: for every outcome of the four runs, `analyze` hands to `exec.Run`, in this order, the
commands of the variants clang-debug, clang-release, asan-debug and asan-release on the file
`fuzzPath/<fingerprint>`, returns no error, and builds a package whose data are: `Name` the
fingerprint, `FuzzCategory` the category of the aggregator, `Debug.Dump` and `Debug.StdErr` the
standard output and standard error of the clang-debug run, `Release.Dump` and `Release.StdErr`
those of the clang-release run, `Debug.Asan` the standard error of the asan-debug run and
`Release.Asan` the standard error of the asan-release run; the standard output of the two
sanitizer runs appears nowhere in the package. -/
theorem analyze_package (w : World Report) (agg : Aggregator Report) (log : List Command)
    (workingDirPath fileName : String) :
    (agg.analyzeLogged w log workingDirPath fileName).1 = agg.analyze w workingDirPath fileName ∧
    (agg.analyzeLogged w log workingDirPath fileName).2 = log ++
      [agg.analysisCommand w workingDirPath (CLANG_DEBUG w) (pathJoin agg.fuzzPath fileName),
       agg.analysisCommand w workingDirPath (CLANG_RELEASE w) (pathJoin agg.fuzzPath fileName),
       agg.analysisCommand w workingDirPath (ASAN_DEBUG w) (pathJoin agg.fuzzPath fileName),
       agg.analysisCommand w workingDirPath (ASAN_RELEASE w) (pathJoin agg.fuzzPath fileName)] ∧
    (agg.analyze w workingDirPath fileName).2 = none ∧
    (agg.analyze w workingDirPath fileName).1.FilePath = pathJoin agg.fuzzPath fileName ∧
    (agg.analyze w workingDirPath fileName).1.Data =
      { Name := fileName
        FuzzCategory := agg.Category
        Debug :=
          { Asan := (w.Run (agg.analysisCommand w workingDirPath (ASAN_DEBUG w) (pathJoin agg.fuzzPath fileName))).Stderr
            Dump := (w.Run (agg.analysisCommand w workingDirPath (CLANG_DEBUG w) (pathJoin agg.fuzzPath fileName))).Stdout
            StdErr := (w.Run (agg.analysisCommand w workingDirPath (CLANG_DEBUG w) (pathJoin agg.fuzzPath fileName))).Stderr }
        Release :=
          { Asan := (w.Run (agg.analysisCommand w workingDirPath (ASAN_RELEASE w) (pathJoin agg.fuzzPath fileName))).Stderr
            Dump := (w.Run (agg.analysisCommand w workingDirPath (CLANG_RELEASE w) (pathJoin agg.fuzzPath fileName))).Stdout
            StdErr := (w.Run (agg.analysisCommand w workingDirPath (CLANG_RELEASE w) (pathJoin agg.fuzzPath fileName))).Stderr } } := by
  refine ⟨?_, ?_, analyze_err w agg workingDirPath fileName, ?_, ?_⟩
  · simp only [Aggregator.analyzeLogged, Aggregator.analyze, performAnalysisLogged_eq,
      performAnalysis_eq_command]
    split_ifs <;> rfl
  · simp only [Aggregator.analyzeLogged, performAnalysisLogged_eq]
    split_ifs <;> simp
  · simp only [Aggregator.analyze, performAnalysis_eq_command]
    split_ifs <;> rfl
  · simp only [Aggregator.analyze, performAnalysis_eq_command]
    split_ifs <;> rfl

/-- C15, as the code has it: `performAnalysis` never returns an error.  Whatever `exec.Run`
does, the process exiting with status zero, exiting non-zero or not being invoked at all, it
returns the two captured buffers and a nil error; hence `analyze` returns no error either. -/
theorem performAnalysis_no_error (w : World Report) (agg : Aggregator Report)
    (workingDirPath executableName pathToFile fileName : String) :
    agg.performAnalysis w workingDirPath executableName pathToFile =
      ((w.Run (agg.analysisCommand w workingDirPath executableName pathToFile)).Stdout,
       (w.Run (agg.analysisCommand w workingDirPath executableName pathToFile)).Stderr,
       none) ∧
    (agg.analyze w workingDirPath fileName).2 = none :=
  ⟨performAnalysis_eq w agg workingDirPath executableName pathToFile,
    analyze_err w agg workingDirPath fileName⟩

/-- C15, as stated, fails in the environment `exNoTimeout`: the process could not be invoked
(`exec.Run` returns the error of the start), and `performAnalysis` returns two empty buffers and
no error; `analyze` returns no error and `analysisHelper` queues the package for upload. -/
theorem performAnalysis_swallows_start_failure :
    (exNoTimeout.Run (exAgg.analysisCommand exNoTimeout "/exe/skpicture/analyzer0"
      (CLANG_DEBUG exNoTimeout) "/fuzzes/skpicture/aaaa")).started = false ∧
    (exNoTimeout.Run (exAgg.analysisCommand exNoTimeout "/exe/skpicture/analyzer0"
      (CLANG_DEBUG exNoTimeout) "/fuzzes/skpicture/aaaa")).err ≠ none ∧
    exAgg.performAnalysis exNoTimeout "/exe/skpicture/analyzer0" (CLANG_DEBUG exNoTimeout)
      "/fuzzes/skpicture/aaaa" = ("", "", none) ∧
    (exAgg.analyze exNoTimeout "/exe/skpicture/analyzer0" "aaaa").2 = none := by
  refine ⟨rfl, by decide, rfl, rfl⟩

/-! ## The name lists (`upload`) -/

/-- C14, as the code has it: `upload` appends the fingerprint to its name list on entry, before
the first write.  For every package and every outcome of the writes, the name is appended to
`greyNames` when the package is grey and to `badNames` otherwise, the other list being
unchanged; this holds in particular when the seven writes succeed, and then no error is
returned. -/
theorem upload_names (w : World Report) (agg : Aggregator Report) (p : uploadPackage) :
    (p.FuzzType = GREY_FUZZ →
      (agg.upload w p).1.greyNames = agg.greyNames ++ [p.Data.Name] ∧
      (agg.upload w p).1.badNames = agg.badNames) ∧
    (p.FuzzType ≠ GREY_FUZZ →
      (agg.upload w p).1.badNames = agg.badNames ++ [p.Data.Name] ∧
      (agg.upload w p).1.greyNames = agg.greyNames) ∧
    (w.Open p.FilePath = .ok →
      (∀ i, i < 7 → w.writeErr (agg.storageClient.writes + i) = none) →
      (agg.upload w p).2 = none) := by
  refine ⟨?_, ?_, ?_⟩
  · intro hg
    rw [upload_frame w agg p, withName_grey agg p hg]
    exact ⟨rfl, rfl⟩
  · intro hg
    rw [upload_frame w agg p, withName_bad agg p hg]
    exact ⟨rfl, rfl⟩
  · intro ho hw
    rw [upload_ok w agg p ho hw]

/-- C14, as stated, fails in the environment `exWriteFails`: the first write of the upload of
`exBad` fails, `upload` returns the error, nothing is in the bucket, and the name of the
package is in `badNames` all the same. -/
theorem upload_names_failed_write :
    (exAgg.upload exWriteFails exBad).2 = some "googleapi: Error 503: Service Unavailable" ∧
    (exAgg.upload exWriteFails exBad).1.storageClient.objects = [] ∧
    exAgg.badNames = [] ∧
    (exAgg.upload exWriteFails exBad).1.badNames = ["aaaa"] ∧
    (exAgg.upload exWriteFails exBad).1.badNames ≠ exAgg.badNames := by
  refine ⟨rfl, rfl, rfl, rfl, by decide⟩

/-! ## The fingerprint (`calculateHash`, `analysisHelper`) -/

theorem sha1Sum_length (data : Bytes) : (sha1Sum data).length = 20 := by
  simp [sha1Sum, beBytes]

theorem hexString_length (bs : Bytes) : (hexString bs).length = 2 * bs.length := by
  show (bs.flatMap fun b => [hexDigit (b.toNat / 16), hexDigit (b.toNat % 16)]).length = _
  induction bs with
  | nil => rfl
  | cons b bs ih =>
    rw [List.flatMap_cons, List.length_append, ih]
    simp only [List.length_cons, List.length_nil]
    omega

theorem hexDigit_mem : ∀ n, n < 16 → hexDigit n ∈ "0123456789abcdef".data := by
  unfold hexDigit
  decide

theorem hexString_chars (bs : Bytes) :
    ∀ c ∈ (hexString bs).data, c ∈ "0123456789abcdef".data := by
  intro c hc
  simp only [hexString, List.mem_flatMap, List.mem_cons, List.mem_singleton,
    List.not_mem_nil, or_false] at hc
  obtain ⟨b, _, rfl | rfl⟩ := hc
  · exact hexDigit_mem _ (by have := UInt8.toNat_lt_size b; simp only [UInt8.size] at this; omega)
  · exact hexDigit_mem _ (by omega)

theorem calculateHash_ok (w : World Report) (path : String) (data : Bytes)
    (h : w.ReadFile path = .ok data) :
    calculateHash w path = (hexString (sha1Sum data), data, none) := by
  unfold calculateHash
  rw [h]

/-- The method `analysisHelper` when the candidate can be read and the copy can be written. -/
theorem analysisHelper_ok (w : World Report) (agg : Aggregator Report) (disk : Disk)
    (executableDir badFuzzPath : String) (data : Bytes)
    (h : w.ReadFile badFuzzPath = .ok data)
    (hw : w.WriteFile (pathJoin agg.fuzzPath (hexString (sha1Sum data))) = none) :
    agg.analysisHelper w disk executableDir badFuzzPath =
      ({ agg with forUpload := agg.forUpload ++
            [(agg.analyze w executableDir (hexString (sha1Sum data))).1] },
       disk.write (pathJoin agg.fuzzPath (hexString (sha1Sum data))) data, none) := by
  have he := analyze_err w agg executableDir (hexString (sha1Sum data))
  unfold Aggregator.analysisHelper
  rw [calculateHash_ok w badFuzzPath data h]
  dsimp only
  rw [hw]
  dsimp only
  rcases hr : agg.analyze w executableDir (hexString (sha1Sum data)) with ⟨u, e⟩
  rw [hr] at he
  dsimp only at he
  subst he
  rfl

theorem Disk.write_write (disk : Disk) (path : String) (data : Bytes) :
    (disk.write path data).write path data = disk.write path data := by
  simp [Disk.write, List.filter_filter]

theorem Disk.write_single (disk : Disk) (path : String) (data : Bytes) :
    (disk.write path data).files.filter (fun f => f.1 = path) = [(path, data)] := by
  simp only [Disk.write, List.filter_cons, decide_True, if_true, List.filter_filter]
  simp

theorem rfcZeros_eq (n : Nat) : rfcZeros n = (119 - n % 64) % 64 := by
  have h : rfcZeros n = rfcZeros (n % 64) := by
    unfold rfcZeros
    congr 2
    funext k
    have e : (n + 1 + k) % 64 = (n % 64 + 1 + k) % 64 := by omega
    rw [e]
  have key : ∀ r, r < 64 → rfcZeros r = (119 - r) % 64 := by decide
  rw [h, key _ (Nat.mod_lt _ (by decide))]

theorem beBytes_eight (x : Nat) :
    beBytes 8 x = (List.range 8).map fun i => x / 256 ^ (7 - i) % 256 := by
  simp [beBytes, List.range, List.range.loop, Nat.shiftRight_eq_div_pow]

theorem sha1Pad_eq (msg : List Nat) : sha1Pad msg = rfcPad msg := by
  rw [sha1Pad, rfcPad, rfcZeros_eq, beBytes_eight]

theorem beWord_eq (l : List Nat) (h : 4 ≤ l.length) :
    beWord l = l.getD 0 0 * 2 ^ 24 + l.getD 1 0 * 2 ^ 16 + l.getD 2 0 * 2 ^ 8 + l.getD 3 0 := by
  match l, h with
  | a :: b :: c :: d :: _, _ =>
    simp only [beWord, List.getD_cons_zero, List.getD_cons_succ]
    ring

theorem blockWords_eq (n : Nat) :
    ∀ bs : List Nat, blockWords n bs = (List.range n).map fun j => beWord (bs.drop (4 * j)) := by
  induction n with
  | zero => intro bs; rfl
  | succ n ih =>
    intro bs
    rw [blockWords, ih, List.range_succ_eq_map]
    simp only [List.map_cons, List.map_map, Nat.mul_zero, List.drop_zero, List.drop_drop]
    congr 1
    apply List.map_congr_left
    intro j _
    simp only [Function.comp]
    congr 2
    omega

theorem blockWords_block (block : List Nat) (h : block.length = 64) :
    blockWords 16 block = (List.range 16).map (rfcWord block) := by
  rw [blockWords_eq]
  apply List.map_congr_left
  intro j hj
  have hj16 : j < 16 := List.mem_range.1 hj
  rw [beWord_eq _ (by rw [List.length_drop]; omega), rfcWord]
  simp only [List.getD_eq_getElem?_getD, List.getElem?_drop, Nat.add_zero]

theorem getD_reverse (l : List Nat) (i : Nat) (h : i < l.length) :
    l.reverse.getD i 0 = l.getD (l.length - 1 - i) 0 := by
  simp only [List.getD_eq_getElem?_getD]
  rw [List.getElem?_reverse h]

theorem rfcW_length (block : List Nat) (n : Nat) : (rfcW block n).length = 16 + n := by
  induction n with
  | zero => simp [rfcW]
  | succ n ih => simp [rfcW, ih]; omega

theorem sha1Schedule_eq (block : List Nat) (n : Nat) :
    ∀ m, (sha1Schedule n (rfcW block m).reverse).reverse = rfcW block (m + n) := by
  induction n with
  | zero => intro m; simp [sha1Schedule]
  | succ n ih =>
    intro m
    have hl := rfcW_length block m
    have hstep : rotl32 ((rfcW block m).reverse.getD 2 0 ^^^ (rfcW block m).reverse.getD 7 0
          ^^^ (rfcW block m).reverse.getD 13 0 ^^^ (rfcW block m).reverse.getD 15 0) 1
          :: (rfcW block m).reverse = (rfcW block (m + 1)).reverse := by
      rw [getD_reverse _ 2 (by omega), getD_reverse _ 7 (by omega),
        getD_reverse _ 13 (by omega), getD_reverse _ 15 (by omega)]
      simp only [rfcW, List.reverse_append, List.reverse_cons, List.reverse_nil,
        List.nil_append, List.singleton_append, hl]
      rfl
    rw [sha1Schedule, hstep, ih (m + 1)]
    congr 1
    omega

theorem sha1Round_eq (W : List Nat) (H : Sha1State) (t : Nat) :
    sha1Round t (rfcVars W H t) (W.getD t 0) = rfcVars W H (t + 1) := by
  have hf : (if t < 20 then
        (((rfcVars W H t).b &&& (rfcVars W H t).c) |||
          (((rfcVars W H t).b ^^^ 0xFFFFFFFF) &&& (rfcVars W H t).d), 0x5A827999)
      else if t < 40 then
        ((rfcVars W H t).b ^^^ (rfcVars W H t).c ^^^ (rfcVars W H t).d, 0x6ED9EBA1)
      else if t < 60 then
        (((rfcVars W H t).b &&& (rfcVars W H t).c) |||
          ((rfcVars W H t).b &&& (rfcVars W H t).d) |||
          ((rfcVars W H t).c &&& (rfcVars W H t).d), 0x8F1BBCDC)
      else ((rfcVars W H t).b ^^^ (rfcVars W H t).c ^^^ (rfcVars W H t).d, 0xCA62C1D6)) =
      (rfcF t (rfcVars W H t).b (rfcVars W H t).c (rfcVars W H t).d, rfcK t) := by
    unfold rfcF rfcK
    by_cases h1 : t ≤ 19
    · rw [if_pos h1, if_pos h1, if_pos (by omega)]
    · by_cases h2 : t ≤ 39
      · rw [if_neg h1, if_neg h1, if_pos h2, if_pos h2, if_neg (by omega), if_pos (by omega)]
      · by_cases h3 : t ≤ 59
        · rw [if_neg h1, if_neg h1, if_neg h2, if_neg h2, if_pos h3, if_pos h3,
            if_neg (by omega), if_neg (by omega), if_pos (by omega)]
        · rw [if_neg h1, if_neg h1, if_neg h2, if_neg h2, if_neg h3, if_neg h3,
            if_neg (by omega), if_neg (by omega), if_neg (by omega)]
  simp only [sha1Round, rfcVars, hf]
  have hsum : rotl32 (rfcVars W H t).a 5 + rfcF t (rfcVars W H t).b (rfcVars W H t).c
        (rfcVars W H t).d + (rfcVars W H t).e + rfcK t + W.getD t 0
      = rfcS 5 (rfcVars W H t).a + rfcF t (rfcVars W H t).b (rfcVars W H t).c
        (rfcVars W H t).d + (rfcVars W H t).e + W.getD t 0 + rfcK t := by
    have : rotl32 (rfcVars W H t).a 5 = rfcS 5 (rfcVars W H t).a := rfl
    omega
  rw [hsum]
  rfl

theorem sha1Rounds_eq (W : List Nat) (H : Sha1State) :
    ∀ (L : List Nat) (t : Nat), (∀ j, j < L.length → L.getD j 0 = W.getD (t + j) 0) →
      sha1Rounds t L (rfcVars W H t) = rfcVars W H (t + L.length) := by
  intro L
  induction L with
  | nil => intro t _; rfl
  | cons w rest ih =>
    intro t h
    have h0 : w = W.getD t 0 := by simpa using h 0 (by simp)
    rw [sha1Rounds, h0, sha1Round_eq, ih (t + 1)]
    · congr 1
      simp only [List.length_cons]
      omega
    · intro j hj
      have := h (j + 1) (by simpa using hj)
      simp only [List.getD_cons_succ] at this
      rw [this]
      congr 1
      omega

theorem sha1Block_eq (H : Sha1State) (block : List Nat) (h : block.length = 64) :
    sha1Block H block =
      { a := (H.a + (rfcVars (rfcW block 64) H 80).a) % 2 ^ 32
        b := (H.b + (rfcVars (rfcW block 64) H 80).b) % 2 ^ 32
        c := (H.c + (rfcVars (rfcW block 64) H 80).c) % 2 ^ 32
        d := (H.d + (rfcVars (rfcW block 64) H 80).d) % 2 ^ 32
        e := (H.e + (rfcVars (rfcW block 64) H 80).e) % 2 ^ 32 } := by
  have hs : (sha1Schedule 64 (blockWords 16 block).reverse).reverse = rfcW block 64 := by
    rw [blockWords_block block h]
    exact sha1Schedule_eq block 64 0
  have hr : sha1Rounds 0 (rfcW block 64) H = rfcVars (rfcW block 64) H 80 := by
    have := sha1Rounds_eq (rfcW block 64) H (rfcW block 64) 0 (fun j _ => by rw [Nat.zero_add])
    rw [rfcW_length] at this
    exact this
  simp only [sha1Block, hs, hr]

theorem sha1Blocks_eq (padded : List Nat) (n : Nat) :
    ∀ i, 64 * (i + n) ≤ padded.length →
      sha1Blocks n (padded.drop (64 * i)) (rfcH padded i) = rfcH padded (i + n) := by
  induction n with
  | zero => intro i _; rfl
  | succ n ih =>
    intro i h
    have hlen : ((padded.drop (64 * i)).take 64).length = 64 := by
      rw [List.length_take, List.length_drop]
      omega
    have hnext : sha1Block (rfcH padded i) ((padded.drop (64 * i)).take 64)
        = rfcH padded (i + 1) := by
      rw [sha1Block_eq _ _ hlen]
      rfl
    have hdrop : (padded.drop (64 * i)).drop 64 = padded.drop (64 * (i + 1)) := by
      rw [List.drop_drop]
      congr 1
    rw [sha1Blocks, hnext, hdrop, ih (i + 1) (by omega)]
    congr 1
    omega

theorem beBytes_four (x : Nat) :
    beBytes 4 x = [x / 2 ^ 24 % 256, x / 2 ^ 16 % 256, x / 2 ^ 8 % 256, x % 256] := by
  simp [beBytes, Nat.shiftRight_eq_div_pow]

theorem toNat_ofNat_byte (n : Nat) : (UInt8.ofNat (n % 256)).toNat = n % 256 := by
  simp [UInt8.ofNat, UInt8.toNat, Fin.ofNat]

theorem hexDigit_eq : ∀ n, n < 16 → hexDigit n = "0123456789abcdef".data.getD n '0' := by
  decide

theorem rfcPad_length (msg : List Nat) : 64 * ((rfcPad msg).length / 64) = (rfcPad msg).length := by
  have : (rfcPad msg).length = msg.length + 1 + (119 - msg.length % 64) % 64 + 8 := by
    rw [rfcPad, rfcZeros_eq]
    simp
    omega
  omega

/-- The function `sha1.Sum` computes the SHA-1 message digest, and `%x` writes it in lowercase
hexadecimal. -/
theorem sha1Sum_refines (data : Bytes) : hexString (sha1Sum data) = rfcHex (rfcSHA1 data) := by
  have hb := sha1Blocks_eq (rfcPad (data.map UInt8.toNat))
    ((rfcPad (data.map UInt8.toNat)).length / 64) 0
    (by rw [Nat.zero_add, rfcPad_length])
  rw [Nat.mul_zero, List.drop_zero, Nat.zero_add] at hb
  have hbytes : (sha1Sum data).map UInt8.toNat = rfcSHA1 data := by
    simp only [sha1Sum, rfcSHA1, sha1Pad_eq]
    rw [show rfcH (rfcPad (data.map UInt8.toNat)) 0 =
      ({ a := 0x67452301, b := 0xEFCDAB89, c := 0x98BADCFE, d := 0x10325476,
         e := 0xC3D2E1F0 } : Sha1State) from rfl] at hb
    rw [hb]
    simp only [beBytes_four, List.map_map, List.flatMap_cons, List.flatMap_nil,
      List.append_nil, List.map_append, List.map_cons, List.map_nil, Function.comp,
      toNat_ofNat_byte, List.append_assoc]
  unfold hexString rfcHex
  rw [← hbytes]
  congr 1
  rw [List.flatMap_map]
  apply List.flatMap_congr
  intro b _
  have hlt : b.toNat < 256 := b.toNat_lt
  rw [hexDigit_eq _ (by omega), hexDigit_eq _ (by omega)]

/-- C13: for every readable candidate file with bytes `d`, `calculateHash` returns the SHA-1
message digest of `d` as RFC 3174 defines it, in lowercase hexadecimal, 40 characters among
`0`-`9` and `a`-`f`, together with `d` and no error, and when the copy can be written
`analysisHelper` retains the content `d` in the file `fuzzPath/<digest>`.  Hence a second candidate path with the same bytes has the same
fingerprint, and after the analysis of both the retained files are those after the first, with
one file `fuzzPath/<digest>`, of content `d`. -/
theorem calculateHash_fingerprint (w : World Report) (agg : Aggregator Report) (disk : Disk)
    (dir1 path1 dir2 path2 : String) (d : Bytes)
    (h1 : w.ReadFile path1 = .ok d) (h2 : w.ReadFile path2 = .ok d)
    (hw : w.WriteFile (pathJoin agg.fuzzPath (rfcHex (rfcSHA1 d))) = none) :
    calculateHash w path1 = (rfcHex (rfcSHA1 d), d, none) ∧
    (rfcHex (rfcSHA1 d)).length = 40 ∧
    (∀ c ∈ (rfcHex (rfcSHA1 d)).data, c ∈ "0123456789abcdef".data) ∧
    (calculateHash w path2).1 = (calculateHash w path1).1 ∧
    (agg.analysisHelper w disk dir1 path1).2.2 = none ∧
    (agg.analysisHelper w disk dir1 path1).2.1 =
      disk.write (pathJoin agg.fuzzPath (rfcHex (rfcSHA1 d))) d ∧
    ((agg.analysisHelper w disk dir1 path1).1.analysisHelper w (agg.analysisHelper w disk dir1 path1).2.1 dir2 path2).2.2 = none ∧
    ((agg.analysisHelper w disk dir1 path1).1.analysisHelper w (agg.analysisHelper w disk dir1 path1).2.1 dir2 path2).2.1 =
      (agg.analysisHelper w disk dir1 path1).2.1 ∧
    ((agg.analysisHelper w disk dir1 path1).1.analysisHelper w (agg.analysisHelper w disk dir1 path1).2.1 dir2 path2).2.1.files.filter
        (fun f => f.1 = pathJoin agg.fuzzPath (rfcHex (rfcSHA1 d))) =
      [((pathJoin agg.fuzzPath (rfcHex (rfcSHA1 d))), d)] := by
  rw [← sha1Sum_refines d] at hw ⊢
  have e1 := analysisHelper_ok w agg disk dir1 path1 d h1 hw
  have e2 := analysisHelper_ok w
    { agg with forUpload := agg.forUpload ++ [(agg.analyze w dir1 (hexString (sha1Sum d))).1] }
    (disk.write (pathJoin agg.fuzzPath (hexString (sha1Sum d))) d) dir2 path2 d h2 hw
  refine ⟨calculateHash_ok w path1 d h1, ?_, hexString_chars _, ?_, ?_, ?_, ?_, ?_, ?_⟩
  · rw [hexString_length, sha1Sum_length]
  · rw [calculateHash_ok w path1 d h1, calculateHash_ok w path2 d h2]
  · rw [e1]
  · rw [e1]
  · rw [e1, e2]
  · rw [e1, e2]
    exact Disk.write_write _ _ _
  · rw [e1, e2]
    dsimp only
    rw [Disk.write_write]
    exact Disk.write_single _ _ _

set_option maxRecDepth 1000000 in
/-- C13, instantiated: two crash files that both hold the bytes `AAAA`; the fingerprint is the
SHA-1 digest `e2512172abf8cc9f67fdd49eb6cacf2df71bbad3`.  The digest of RFC 3174 is also shown on
the test messages of the standard, the empty message and `abc`. -/
theorem calculateHash_fingerprint_witness :
    rfcHex (rfcSHA1 []) = "da39a3ee5e6b4b0d3255bfef95601890afd80709" ∧
    rfcHex (rfcSHA1 [97, 98, 99]) = "a9993e364706816aba3e25717850c26c9cd0d89d" ∧
    (calculateHash exWorld "/afl/skpicture/fuzzer0/crashes/id:000000").1
      = "e2512172abf8cc9f67fdd49eb6cacf2df71bbad3" ∧
    rfcHex (rfcSHA1 [65, 65, 65, 65]) = "e2512172abf8cc9f67fdd49eb6cacf2df71bbad3" ∧
    exWorld.ReadFile "/afl/skpicture/fuzzer0/crashes/id:000000" = .ok [65, 65, 65, 65] ∧
    exWorld.ReadFile "/afl/skpicture/fuzzer1/crashes/id:000003" = .ok [65, 65, 65, 65] ∧
    exWorld.WriteFile (pathJoin exAgg.fuzzPath (rfcHex (rfcSHA1 [65, 65, 65, 65]))) = none ∧
    calculateHash exWorld "/afl/skpicture/fuzzer0/crashes/id:000000" = (rfcHex (rfcSHA1 [65, 65, 65, 65]), [65, 65, 65, 65], none) ∧
    (rfcHex (rfcSHA1 [65, 65, 65, 65])).length = 40 ∧
    (∀ c ∈ (rfcHex (rfcSHA1 [65, 65, 65, 65])).data, c ∈ "0123456789abcdef".data) ∧
    (calculateHash exWorld "/afl/skpicture/fuzzer1/crashes/id:000003").1 = (calculateHash exWorld "/afl/skpicture/fuzzer0/crashes/id:000000").1 ∧
    (exAgg.analysisHelper exWorld (Disk.mk []) "/exe/skpicture/analyzer0" "/afl/skpicture/fuzzer0/crashes/id:000000").2.2 = none ∧
    (exAgg.analysisHelper exWorld (Disk.mk []) "/exe/skpicture/analyzer0" "/afl/skpicture/fuzzer0/crashes/id:000000").2.1 =
      (Disk.mk []).write (pathJoin exAgg.fuzzPath (rfcHex (rfcSHA1 [65, 65, 65, 65]))) [65, 65, 65, 65] ∧
    ((exAgg.analysisHelper exWorld (Disk.mk []) "/exe/skpicture/analyzer0" "/afl/skpicture/fuzzer0/crashes/id:000000").1.analysisHelper exWorld (exAgg.analysisHelper exWorld (Disk.mk []) "/exe/skpicture/analyzer0" "/afl/skpicture/fuzzer0/crashes/id:000000").2.1 "/exe/skpicture/analyzer1" "/afl/skpicture/fuzzer1/crashes/id:000003").2.2 = none ∧
    ((exAgg.analysisHelper exWorld (Disk.mk []) "/exe/skpicture/analyzer0" "/afl/skpicture/fuzzer0/crashes/id:000000").1.analysisHelper exWorld (exAgg.analysisHelper exWorld (Disk.mk []) "/exe/skpicture/analyzer0" "/afl/skpicture/fuzzer0/crashes/id:000000").2.1 "/exe/skpicture/analyzer1" "/afl/skpicture/fuzzer1/crashes/id:000003").2.1 =
      (exAgg.analysisHelper exWorld (Disk.mk []) "/exe/skpicture/analyzer0" "/afl/skpicture/fuzzer0/crashes/id:000000").2.1 ∧
    ((exAgg.analysisHelper exWorld (Disk.mk []) "/exe/skpicture/analyzer0" "/afl/skpicture/fuzzer0/crashes/id:000000").1.analysisHelper exWorld (exAgg.analysisHelper exWorld (Disk.mk []) "/exe/skpicture/analyzer0" "/afl/skpicture/fuzzer0/crashes/id:000000").2.1 "/exe/skpicture/analyzer1" "/afl/skpicture/fuzzer1/crashes/id:000003").2.1.files.filter
        (fun f => f.1 = pathJoin exAgg.fuzzPath (rfcHex (rfcSHA1 [65, 65, 65, 65]))) =
      [((pathJoin exAgg.fuzzPath (rfcHex (rfcSHA1 [65, 65, 65, 65]))), [65, 65, 65, 65])] :=
  ⟨by decide, by decide, by decide, by decide, rfl, rfl, rfl,
    calculateHash_fingerprint exWorld exAgg (Disk.mk []) "/exe/skpicture/analyzer0"
      "/afl/skpicture/fuzzer0/crashes/id:000000" "/exe/skpicture/analyzer1"
      "/afl/skpicture/fuzzer1/crashes/id:000003" [65, 65, 65, 65] rfl rfl rfl⟩

/-! ## The stage counters -/

/-- The method `analysisHelper` either queues one package for upload and returns no error, or
returns an error and leaves the aggregator as it was. -/
theorem analysisHelper_cases (w : World Report) (agg : Aggregator Report) (disk : Disk)
    (executableDir badFuzzPath : String) :
    ((agg.analysisHelper w disk executableDir badFuzzPath).2.2 = none ∧
      ∃ u, (agg.analysisHelper w disk executableDir badFuzzPath).1 =
        { agg with forUpload := agg.forUpload ++ [u] }) ∨
    ((agg.analysisHelper w disk executableDir badFuzzPath).2.2 ≠ none ∧
      (agg.analysisHelper w disk executableDir badFuzzPath).1 = agg) := by
  cases hr : w.ReadFile badFuzzPath with
  | error e =>
    right
    simp [Aggregator.analysisHelper, calculateHash, hr]
  | ok data =>
    cases hw : w.WriteFile (pathJoin agg.fuzzPath (hexString (sha1Sum data))) with
    | some e =>
      right
      simp [Aggregator.analysisHelper, calculateHash, hr, hw]
    | none =>
      left
      rw [analysisHelper_ok w agg disk executableDir badFuzzPath data hr hw]
      exact ⟨rfl, _, rfl⟩

/-- An iteration of an analysis worker either goes on, `analysisCount` one higher and one
package queued for upload, or returns on an error, the increment of `analysisCount` taken
back. -/
theorem waitForAnalysisBody_cases (w : World Report) (agg : Aggregator Report) (disk : Disk)
    (executableDir badFuzzPath : String) :
    ((agg.waitForAnalysisBody w disk executableDir badFuzzPath).2.2 = true ∧
      ∃ u, (agg.waitForAnalysisBody w disk executableDir badFuzzPath).1 =
        { agg with analysisCount := agg.analysisCount + 1,
                   forUpload := agg.forUpload ++ [u] }) ∨
    ((agg.waitForAnalysisBody w disk executableDir badFuzzPath).2.2 = false ∧
      (agg.waitForAnalysisBody w disk executableDir badFuzzPath).1 =
        { agg with analysisCount := agg.analysisCount + 1 + -1 }) := by
  unfold Aggregator.waitForAnalysisBody Aggregator.waitForAnalysisFinish
  rcases analysisHelper_cases w (agg.addAnalysisCount 1) disk executableDir badFuzzPath with
    ⟨h1, u, h2⟩ | ⟨h1, h2⟩
  · left
    rcases hr : (agg.addAnalysisCount 1).analysisHelper w disk executableDir badFuzzPath with
      ⟨a, d, e⟩
    rw [hr] at h1 h2
    dsimp only at h1 h2
    subst h1
    subst h2
    exact ⟨rfl, u, rfl⟩
  · right
    rcases hr : (agg.addAnalysisCount 1).analysisHelper w disk executableDir badFuzzPath with
      ⟨a, d, e⟩
    rw [hr] at h1 h2
    dsimp only at h1 h2
    subst h2
    cases e with
    | none => exact absurd rfl h1
    | some e => exact ⟨rfl, rfl⟩

/-- An iteration of an upload worker adds one to `uploadCount`, leaves `analysisCount` and the
two other queues alone, and either forwards one bug-report package and goes on, or forwards
nothing and adds one to `bugReportCount`. -/
theorem waitForUploadsBody_cases [DecidableEq Report] (w : World Report)
    (agg : Aggregator Report) (p : uploadPackage) :
    (agg.waitForUploadsBody w p).1.analysisCount = agg.analysisCount ∧
    (agg.waitForUploadsBody w p).1.uploadCount = agg.uploadCount + 1 ∧
    (agg.waitForUploadsBody w p).1.forAnalysis = agg.forAnalysis ∧
    (agg.waitForUploadsBody w p).1.forUpload = agg.forUpload ∧
    (((agg.waitForUploadsBody w p).2 = true ∧
      (agg.waitForUploadsBody w p).1.bugReportCount = agg.bugReportCount ∧
      ∃ b, (agg.waitForUploadsBody w p).1.forBugReporting = agg.forBugReporting ++ [b]) ∨
     ((agg.waitForUploadsBody w p).1.bugReportCount = agg.bugReportCount + 1 ∧
      (agg.waitForUploadsBody w p).1.forBugReporting = agg.forBugReporting)) := by
  by_cases hg : p.FuzzType = GREY_FUZZ
  · cases hu : agg.UploadGreyFuzzes with
    | false =>
      rw [waitForUploadsBody_greySkip w agg p hu hg]
      exact ⟨rfl, rfl, rfl, rfl, Or.inr ⟨rfl, rfl⟩⟩
    | true =>
      rw [waitForUploadsBody_grey w agg p hu hg]
      by_cases hf : w.Open p.FilePath = .ok ∧
          ∀ i, i < 7 → w.writeErr (agg.storageClient.writes + i) = none
      · rw [uploadTail_ok w { agg with uploadCount := agg.uploadCount + 1 } p hf.1 hf.2,
          withName_grey _ p hg]
        exact ⟨rfl, rfl, rfl, rfl, Or.inl ⟨rfl, rfl, _, rfl⟩⟩
      · rw [uploadTail_fail w { agg with uploadCount := agg.uploadCount + 1 } p hf,
          withName_grey _ p hg]
        exact ⟨rfl, rfl, rfl, rfl, Or.inr ⟨rfl, rfl⟩⟩
  · by_cases hs : w.ParseReport p.Data ∈ agg.deduplicator.seen
    · rw [waitForUploadsBody_duplicate w agg p hg hs]
      exact ⟨rfl, rfl, rfl, rfl, Or.inr ⟨rfl, rfl⟩⟩
    · rw [waitForUploadsBody_unique w agg p hg hs]
      by_cases hf : w.Open p.FilePath = .ok ∧
          ∀ i, i < 7 → w.writeErr (agg.storageClient.writes + i) = none
      · rw [uploadTail_ok w
          { agg with
            uploadCount := agg.uploadCount + 1
            deduplicator :=
              { seen := agg.deduplicator.seen ++ [w.ParseReport p.Data]
                calls := agg.deduplicator.calls + 1 } } p hf.1 hf.2,
          withName_bad _ p hg]
        exact ⟨rfl, rfl, rfl, rfl, Or.inl ⟨rfl, rfl, _, rfl⟩⟩
      · rw [uploadTail_fail w
          { agg with
            uploadCount := agg.uploadCount + 1
            deduplicator :=
              { seen := agg.deduplicator.seen ++ [w.ParseReport p.Data]
                calls := agg.deduplicator.calls + 1 } } p hf,
          withName_bad _ p hg]
        exact ⟨rfl, rfl, rfl, rfl, Or.inr ⟨rfl, rfl⟩⟩

/-- An iteration of the bug-report worker adds one to `bugReportCount` and goes on. -/
theorem waitForBugReportingBody_eq (agg : Aggregator Report) (p : bugReportingPackage) :
    agg.waitForBugReportingBody p =
      ({ agg with bugReportCount := agg.bugReportCount + 1 }, true) := rfl

/-- The part of an analysis iteration after the increment: it leaves `analysisCount` alone
when the worker goes on and takes one off when the worker returns on an error. -/
theorem waitForAnalysisFinish_count (w : World Report) (agg : Aggregator Report) (disk : Disk)
    (executableDir badFuzzPath : String) :
    (agg.waitForAnalysisFinish w disk executableDir badFuzzPath).1.analysisCount =
      (if (agg.waitForAnalysisFinish w disk executableDir badFuzzPath).2.2 = true
        then agg.analysisCount else agg.analysisCount - 1) ∧
    (agg.waitForAnalysisFinish w disk executableDir badFuzzPath).1.uploadCount =
      agg.uploadCount ∧
    (agg.waitForAnalysisFinish w disk executableDir badFuzzPath).1.bugReportCount =
      agg.bugReportCount := by
  unfold Aggregator.waitForAnalysisFinish
  rcases analysisHelper_cases w agg disk executableDir badFuzzPath with ⟨h1, u, h2⟩ | ⟨h1, h2⟩
  · rcases hr : agg.analysisHelper w disk executableDir badFuzzPath with ⟨a, d, e⟩
    rw [hr] at h1 h2
    dsimp only at h1 h2
    subst h1
    subst h2
    exact ⟨rfl, rfl, rfl⟩
  · rcases hr : agg.analysisHelper w disk executableDir badFuzzPath with ⟨a, d, e⟩
    rw [hr] at h1 h2
    dsimp only at h1 h2
    subst h2
    cases e with
    | none => exact absurd rfl h1
    | some e => exact ⟨rfl, rfl, rfl⟩

/-- C11, as the code has it: over a whole iteration of a worker loop, also one that ends in an
error, no stage counter ends below its value at the start of the iteration: an analysis
iteration leaves `uploadCount` and `bugReportCount` alone and `analysisCount` at least where it
was, an upload iteration leaves `analysisCount` alone and the two others at least where they
were, a bug-report iteration adds one to `bugReportCount` only.  Inside an analysis iteration
the counter does go down: after the increment made when the path is received, the rest of the
iteration takes one off `analysisCount` exactly when it ends in an error. -/
theorem counters_over_iteration [DecidableEq Report] (w : World Report)
    (agg : Aggregator Report) (disk : Disk) (executableDir badFuzzPath : String)
    (p : uploadPackage) (b : bugReportingPackage) :
    (agg.analysisCount ≤ (agg.waitForAnalysisBody w disk executableDir badFuzzPath).1.analysisCount ∧
      (agg.waitForAnalysisBody w disk executableDir badFuzzPath).1.uploadCount =
        agg.uploadCount ∧
      (agg.waitForAnalysisBody w disk executableDir badFuzzPath).1.bugReportCount =
        agg.bugReportCount) ∧
    ((agg.waitForUploadsBody w p).1.analysisCount = agg.analysisCount ∧
      agg.uploadCount ≤ (agg.waitForUploadsBody w p).1.uploadCount ∧
      agg.bugReportCount ≤ (agg.waitForUploadsBody w p).1.bugReportCount) ∧
    ((agg.waitForBugReportingBody b).1.analysisCount = agg.analysisCount ∧
      (agg.waitForBugReportingBody b).1.uploadCount = agg.uploadCount ∧
      (agg.waitForBugReportingBody b).1.bugReportCount = agg.bugReportCount + 1) ∧
    ((agg.waitForAnalysisFinish w disk executableDir badFuzzPath).1.analysisCount =
      (if (agg.waitForAnalysisFinish w disk executableDir badFuzzPath).2.2 = true
        then agg.analysisCount else agg.analysisCount - 1)) := by
  refine ⟨?_, ?_, ⟨rfl, rfl, rfl⟩, (waitForAnalysisFinish_count w agg disk _ _).1⟩
  · rcases waitForAnalysisBody_cases w agg disk executableDir badFuzzPath with
      ⟨_, u, h⟩ | ⟨_, h⟩
    · rw [h]
      exact ⟨by dsimp only; omega, rfl, rfl⟩
    · rw [h]
      exact ⟨by dsimp only; omega, rfl, rfl⟩
  · obtain ⟨h1, h2, _, _, h5⟩ := waitForUploadsBody_cases w agg p
    refine ⟨h1, by omega, ?_⟩
    rcases h5 with ⟨_, h, _⟩ | ⟨h, _⟩ <;> omega

/-- C11, as stated, fails in the environment `exUnreadable`: an analysis worker has received a
path and `analysisCount` is 1; the file cannot be read, and the worker's next operation on the
counter, `atomic.AddInt64(&agg.analysisCount, -1)`, leaves it at 0. -/
theorem analysisCount_decreases_on_error :
    (exAgg.addAnalysisCount 1).analysisCount = 1 ∧
    ((exAgg.addAnalysisCount 1).waitForAnalysisFinish exUnreadable (Disk.mk [])
      "/exe/skpicture/analyzer0" "/afl/skpicture/fuzzer0/crashes/id:000000").2.2 = false ∧
    ((exAgg.addAnalysisCount 1).waitForAnalysisFinish exUnreadable (Disk.mk [])
      "/exe/skpicture/analyzer0" "/afl/skpicture/fuzzer0/crashes/id:000000").1.analysisCount
      = 0 ∧
    ¬ ((exAgg.addAnalysisCount 1).analysisCount ≤
      ((exAgg.addAnalysisCount 1).waitForAnalysisFinish exUnreadable (Disk.mk [])
        "/exe/skpicture/analyzer0"
        "/afl/skpicture/fuzzer0/crashes/id:000000").1.analysisCount) := by
  refine ⟨rfl, rfl, rfl, by decide⟩

/-! ## Drain convergence -/

/-- What one iteration does to the queues and the counters: the differences
`analysisCount - uploadCount - len(forUpload)` and
`uploadCount - bugReportCount - len(forBugReporting)` stay as they are and the weighted length
of the queues goes down, also when the iteration ends in an error; when it does not,
`analysisCount + len(forAnalysis)` stays as it is. -/
theorem Iteration_effect [DecidableEq Report] (w : World Report)
    (agg next : Aggregator Report) (cont : Bool) (h : Iteration w agg next cont) :
    next.analysisCount - next.uploadCount - next.forUpload.length =
      agg.analysisCount - agg.uploadCount - agg.forUpload.length ∧
    next.uploadCount - next.bugReportCount - next.forBugReporting.length =
      agg.uploadCount - agg.bugReportCount - agg.forBugReporting.length ∧
    3 * next.forAnalysis.length + 2 * next.forUpload.length + next.forBugReporting.length + 1
      ≤ 3 * agg.forAnalysis.length + 2 * agg.forUpload.length + agg.forBugReporting.length ∧
    (cont = true →
      next.analysisCount + next.forAnalysis.length =
        agg.analysisCount + agg.forAnalysis.length) := by
  cases h with
  | analysis badFuzzPath rest disk executableDir hq =>
    rcases waitForAnalysisBody_cases w { agg with forAnalysis := rest } disk executableDir
      badFuzzPath with ⟨hc, u, he⟩ | ⟨hc, he⟩
    · rw [he, hc, hq]
      dsimp only
      refine ⟨?_, ?_, ?_, fun _ => ?_⟩ <;>
        (try simp only [List.length_append, List.length_cons, List.length_nil]) <;> omega
    · rw [he, hc, hq]
      dsimp only
      refine ⟨?_, ?_, ?_, fun hf => Bool.noConfusion hf⟩ <;>
        (try simp only [List.length_append, List.length_cons, List.length_nil]) <;> omega
  | upload p rest hq =>
    obtain ⟨h1, h2, h3, h4, h5⟩ := waitForUploadsBody_cases w { agg with forUpload := rest } p
    dsimp only at h1 h2 h3 h4 h5
    rw [h1, h2, h3, h4, hq]
    rcases h5 with ⟨_, h6, b, h7⟩ | ⟨h6, h7⟩
    · rw [h6, h7]
      refine ⟨?_, ?_, ?_, fun _ => ?_⟩ <;>
        (try simp only [List.length_append, List.length_cons, List.length_nil]) <;> omega
    · rw [h6, h7]
      refine ⟨?_, ?_, ?_, fun _ => ?_⟩ <;>
        (try simp only [List.length_append, List.length_cons, List.length_nil]) <;> omega
  | bugReport p rest hq =>
    rw [waitForBugReportingBody_eq, hq]
    dsimp only
    refine ⟨?_, ?_, ?_, fun _ => ?_⟩ <;>
      (try simp only [List.length_append, List.length_cons, List.length_nil]) <;> omega

/-- An execution without a worker error keeps the three balances of the counters and pays for
each iteration with the weighted length of the queues. -/
theorem Execution_invariant [DecidableEq Report] (w : World Report) (agg0 : Aggregator Report)
    (n : Nat) (agg : Aggregator Report) (he : Execution w n agg0 agg) :
    agg.analysisCount - agg.uploadCount - agg.forUpload.length =
      agg0.analysisCount - agg0.uploadCount - agg0.forUpload.length ∧
    agg.uploadCount - agg.bugReportCount - agg.forBugReporting.length =
      agg0.uploadCount - agg0.bugReportCount - agg0.forBugReporting.length ∧
    n + (3 * agg.forAnalysis.length + 2 * agg.forUpload.length + agg.forBugReporting.length)
      ≤ 3 * agg0.forAnalysis.length + 2 * agg0.forUpload.length
        + agg0.forBugReporting.length ∧
    agg.analysisCount + agg.forAnalysis.length =
      agg0.analysisCount + agg0.forAnalysis.length := by
  induction he with
  | start => exact ⟨rfl, rfl, by omega, rfl⟩
  | step n agg0 mid next _ hi ih =>
    obtain ⟨h1, h2, h3, h4⟩ := Iteration_effect w mid next true hi
    obtain ⟨i1, i2, i3, i4⟩ := ih
    exact ⟨by omega, by omega, by omega, by have := h4 rfl; omega⟩

/-- C12: with one worker loop iteration as one step, from a fresh start (the three counters
zero, the upload and bug-report queues empty) with `N` paths in the analysis queue, every
execution without a worker error has at most `3 N` steps; as long as a queue is not empty some
worker has an iteration to make; and once the three queues are empty the three counters are
`N` and no worker has an iteration to make, so no counter changes any more. -/
theorem drain_convergence [DecidableEq Report] (w : World Report) (agg0 : Aggregator Report)
    (hc : agg0.analysisCount = 0 ∧ agg0.uploadCount = 0 ∧ agg0.bugReportCount = 0)
    (hq : agg0.forUpload = [] ∧ agg0.forBugReporting = [])
    (n : Nat) (agg : Aggregator Report) (he : Execution w n agg0 agg) :
    n + (3 * agg.forAnalysis.length + 2 * agg.forUpload.length
        + agg.forBugReporting.length) ≤ 3 * agg0.forAnalysis.length ∧
    n ≤ 3 * agg0.forAnalysis.length ∧
    (agg.forAnalysis = [] ∧ agg.forUpload = [] ∧ agg.forBugReporting = [] →
      agg.analysisCount = agg0.forAnalysis.length ∧ agg.uploadCount = agg0.forAnalysis.length ∧
      agg.bugReportCount = agg0.forAnalysis.length ∧
      ∀ (next : Aggregator Report) (cont : Bool), ¬ Iteration w agg next cont) ∧
    (¬ (agg.forAnalysis = [] ∧ agg.forUpload = [] ∧ agg.forBugReporting = []) →
      ∃ (next : Aggregator Report) (cont : Bool), Iteration w agg next cont) := by
  obtain ⟨i1, i2, i3, i4⟩ := Execution_invariant w agg0 n agg he
  rw [hc.1, hc.2.1, hq.1] at i1
  rw [hc.2.1, hc.2.2, hq.2] at i2
  rw [hq.1, hq.2] at i3
  rw [hc.1] at i4
  simp only [List.length_nil] at i1 i2 i3
  refine ⟨by omega, by omega, ?_, ?_⟩
  · rintro ⟨ha, hu, hb⟩
    rw [ha] at i4
    rw [hu] at i1
    rw [hb] at i2
    simp only [List.length_nil] at i1 i2 i4
    refine ⟨by omega, by omega, by omega, ?_⟩
    intro next cont hi
    cases hi with
    | analysis badFuzzPath rest disk executableDir hq2 => rw [ha] at hq2; cases hq2
    | upload p rest hq2 => rw [hu] at hq2; cases hq2
    | bugReport p rest hq2 => rw [hb] at hq2; cases hq2
  · intro hne
    cases ha : agg.forAnalysis with
    | cons path rest => exact ⟨_, _, Iteration.analysis agg path rest (Disk.mk []) "" ha⟩
    | nil =>
      cases hu : agg.forUpload with
      | cons p rest => exact ⟨_, _, Iteration.upload agg p rest hu⟩
      | nil =>
        cases hb : agg.forBugReporting with
        | cons p rest => exact ⟨_, _, Iteration.bugReport agg p rest hb⟩
        | nil => exact absurd ⟨ha, hu, hb⟩ hne

set_option maxRecDepth 1000000 in
/-- The two iterations that retire the path of `exOnePath`: the analysis, which queues a grey
package, and the upload, which skips it. -/
theorem exOnePath_execution : Execution exWorld 2 exOnePath exOnePathUploaded := by
  have h1 : Iteration exWorld exOnePath exOnePathAnalysed true :=
    Iteration.analysis exOnePath "/afl/skpicture/fuzzer0/crashes/id:000000" [] (Disk.mk [])
      "/exe/skpicture/analyzer0" rfl
  have h2 : Iteration exWorld exOnePathAnalysed exOnePathUploaded true :=
    Iteration.upload exOnePathAnalysed
      (exAgg.analyze exWorld "/exe/skpicture/analyzer0"
        (hexString (sha1Sum [65, 65, 65, 65]))).1 [] rfl
  exact Execution.step 1 _ _ _ (Execution.step 0 _ _ _ (Execution.start _) h1) h2

/-- C12, instantiated: the execution that retires the one path of `exOnePath` in two steps. -/
theorem drain_convergence_witness :
    (exOnePath.analysisCount = 0 ∧ exOnePath.uploadCount = 0 ∧ exOnePath.bugReportCount = 0) ∧
    (exOnePath.forUpload = [] ∧ exOnePath.forBugReporting = []) ∧
    Execution exWorld 2 exOnePath exOnePathUploaded ∧
    2 + (3 * exOnePathUploaded.forAnalysis.length + 2 * exOnePathUploaded.forUpload.length
        + exOnePathUploaded.forBugReporting.length) ≤ 3 * exOnePath.forAnalysis.length ∧
    2 ≤ 3 * exOnePath.forAnalysis.length ∧
    (exOnePathUploaded.forAnalysis = [] ∧ exOnePathUploaded.forUpload = [] ∧ exOnePathUploaded.forBugReporting = [] →
      exOnePathUploaded.analysisCount = exOnePath.forAnalysis.length ∧ exOnePathUploaded.uploadCount = exOnePath.forAnalysis.length ∧
      exOnePathUploaded.bugReportCount = exOnePath.forAnalysis.length ∧
      ∀ (next : Aggregator String) (cont : Bool), ¬ Iteration exWorld exOnePathUploaded next cont) ∧
    (¬ (exOnePathUploaded.forAnalysis = [] ∧ exOnePathUploaded.forUpload = [] ∧ exOnePathUploaded.forBugReporting = []) →
      ∃ (next : Aggregator String) (cont : Bool), Iteration exWorld exOnePathUploaded next cont) :=
  ⟨⟨rfl, rfl, rfl⟩, ⟨rfl, rfl⟩, exOnePath_execution,
    drain_convergence exWorld exOnePath ⟨rfl, rfl, rfl⟩ ⟨rfl, rfl⟩ 2 exOnePathUploaded
      exOnePath_execution⟩

/-! ## The errors of the scan -/

theorem scanFuzzerContents_error (w : World Report) (alreadyFoundFuzzes : SortedStringSlice)
    (path : String) :
    ∀ (entries : List FileInfo) (badFuzzPaths : List String),
      (∃ c ∈ entries, c.IsDir = true ∧ HasPrefix c.Name "crashes" = true ∧
        ∃ err, w.listDir (pathJoin path c.Name) = .error err) →
      ∃ err, scanFuzzerContents w alreadyFoundFuzzes path entries badFuzzPaths = .error err := by
  intro entries
  induction entries with
  | nil => intro acc h; obtain ⟨c, hc, _⟩ := h; exact absurd hc (List.not_mem_nil c)
  | cons info rest ih =>
    intro acc h
    obtain ⟨c, hc, hd, hp, e, he⟩ := h
    by_cases hi : (info.IsDir && HasPrefix info.Name "crashes") = true
    · cases hl : w.listDir (pathJoin path info.Name) with
      | error e2 => exact ⟨e2, by simp only [scanFuzzerContents, hi, if_true, hl]⟩
      | ok l =>
        rcases List.mem_cons.1 hc with rfl | hr
        · rw [hl] at he
          cases he
        · simp only [scanFuzzerContents, hi, if_true, hl]
          exact ih _ ⟨c, hr, hd, hp, e, he⟩
    · rcases List.mem_cons.1 hc with rfl | hr
      · exact absurd (by rw [Bool.and_eq_true]; exact ⟨hd, hp⟩) hi
      · simp only [scanFuzzerContents, hi, if_false]
        exact ih _ ⟨c, hr, hd, hp, e, he⟩

theorem scanFuzzerFolders_error (w : World Report) (alreadyFoundFuzzes : SortedStringSlice)
    (scanPath : String) :
    ∀ (entries : List FileInfo) (badFuzzPaths : List String),
      (∃ f ∈ entries, (∃ err, w.listDir (pathJoin scanPath f.Name) = .error err) ∨
        ∃ c ∈ w.ls (pathJoin scanPath f.Name), c.IsDir = true ∧
          HasPrefix c.Name "crashes" = true ∧
          ∃ err, w.listDir (pathJoin (pathJoin scanPath f.Name) c.Name) = .error err) →
      ∃ err, scanFuzzerFolders w alreadyFoundFuzzes scanPath entries badFuzzPaths
        = .error err := by
  intro entries
  induction entries with
  | nil => intro acc h; obtain ⟨f, hf, _⟩ := h; exact absurd hf (List.not_mem_nil f)
  | cons info rest ih =>
    intro acc h
    obtain ⟨f, hf, hfail⟩ := h
    cases hl : w.listDir (pathJoin scanPath info.Name) with
    | error e2 => exact ⟨e2, by simp only [scanFuzzerFolders, hl]⟩
    | ok l =>
      cases hc : scanFuzzerContents w alreadyFoundFuzzes (pathJoin scanPath info.Name) l acc with
      | error e3 => exact ⟨e3, by simp only [scanFuzzerFolders, hl, hc]⟩
      | ok acc2 =>
        simp only [scanFuzzerFolders, hl, hc]
        rcases List.mem_cons.1 hf with rfl | hr
        · rcases hfail with ⟨e, he⟩ | hcrash
          · rw [hl] at he
            cases he
          · rw [ls_of_listDir w _ _ hl] at hcrash
            obtain ⟨e, he⟩ := scanFuzzerContents_error w alreadyFoundFuzzes _ l acc hcrash
            rw [hc] at he
            cases he
        · exact ih _ ⟨f, hr, hfail⟩

/-- A scan in which a filesystem operation fails returns an error. -/
theorem findBadFuzzPaths_error (w : World Report) (agg : Aggregator Report)
    (alreadyFoundFuzzes : SortedStringSlice) (h : scanFails w (agg.scanPath w)) :
    ∃ err, agg.findBadFuzzPaths w alreadyFoundFuzzes = .error err := by
  have hls : ∀ f, f ∈ w.ls (agg.scanPath w) →
      ∃ l, w.Open (agg.scanPath w) = .ok ∧ w.Readdir (agg.scanPath w) = .ok l ∧ f ∈ l := by
    intro f hf
    unfold World.ls World.listDir at hf
    cases ho : w.Open (agg.scanPath w) with
    | notExist => rw [ho] at hf; exact absurd hf (List.not_mem_nil f)
    | failed e => rw [ho] at hf; exact absurd hf (List.not_mem_nil f)
    | ok =>
      rw [ho] at hf
      cases hr : w.Readdir (agg.scanPath w) with
      | error e => rw [hr] at hf; exact absurd hf (List.not_mem_nil f)
      | ok l => rw [hr] at hf; exact ⟨l, rfl, rfl, hf⟩
  rcases h with ⟨e, he⟩ | ⟨ho, e, he⟩ | ⟨f, hf, hfail⟩ | ⟨f, hf, hfail⟩
  · exact ⟨e, by simp only [Aggregator.findBadFuzzPaths, he]⟩
  · exact ⟨e, by simp only [Aggregator.findBadFuzzPaths, ho, he]⟩
  · obtain ⟨l, ho, hr, hfl⟩ := hls f hf
    simp only [Aggregator.findBadFuzzPaths, ho, hr]
    exact scanFuzzerFolders_error w alreadyFoundFuzzes _ l [] ⟨f, hfl, Or.inl hfail⟩
  · obtain ⟨l, ho, hr, hfl⟩ := hls f hf
    simp only [Aggregator.findBadFuzzPaths, ho, hr]
    exact scanFuzzerFolders_error w alreadyFoundFuzzes _ l [] ⟨f, hfl, Or.inr hfail⟩

/-- A scan either meets no root, or succeeds in every filesystem operation, or fails in one. -/
theorem scan_trichotomy (w : World Report) (scanPath : String) :
    w.Open scanPath = .notExist ∨ scanSucceeds w scanPath ∨ scanFails w scanPath := by
  by_cases hs : scanSucceeds w scanPath
  · exact Or.inr (Or.inl hs)
  cases ho : w.Open scanPath with
  | notExist => exact Or.inl rfl
  | failed e => exact Or.inr (Or.inr (Or.inl ⟨e, ho⟩))
  | ok =>
    right
    right
    cases hr : w.Readdir scanPath with
    | error e => exact Or.inr (Or.inl ⟨ho, e, hr⟩)
    | ok l =>
      unfold scanSucceeds at hs
      rw [not_and_or] at hs
      rcases hs with hs | hs
      · exact absurd ⟨ho, l, hr⟩ hs
      · push_neg at hs
        obtain ⟨f, hf, hfail⟩ := hs
        cases hl : w.listDir (pathJoin scanPath f.Name) with
        | error e => exact Or.inr (Or.inr (Or.inl ⟨f, hf, e, hl⟩))
        | ok l2 =>
          obtain ⟨c, hc, hd, hp, hall⟩ := hfail ⟨l2, hl⟩
          cases hl3 : w.listDir (pathJoin (pathJoin scanPath f.Name) c.Name) with
          | error e => exact Or.inr (Or.inr (Or.inr ⟨f, hf, c, hc, hd, hp, e, hl3⟩))
          | ok l3 => exact absurd hl3 (hall l3)

theorem exBrokenTree_scanFails : scanFails exBrokenTree (exAgg.scanPath exBrokenTree) :=
  Or.inr (Or.inr (Or.inr
    ⟨{ Name := "fuzzer0", IsDir := true }, by decide, { Name := "crashes", IsDir := true },
      by decide, rfl, by decide, "input/output error", rfl⟩))

/-- C17: when the scan root does not exist `findBadFuzzPaths` returns the empty list and no
error; when another filesystem operation of the scan fails (opening or listing the root, a
worker directory, or a crash directory) it returns an error, and `scanHelper` returns that
error with the aggregator, so the analysis queue, and the already-found slice as they were;
and when no operation fails it returns no error. -/
theorem scan_error_handling (w : World Report) (agg : Aggregator Report)
    (alreadyFoundFuzzes : SortedStringSlice) :
    (w.Open (agg.scanPath w) = .notExist →
      agg.findBadFuzzPaths w alreadyFoundFuzzes = .ok []) ∧
    (scanFails w (agg.scanPath w) →
      ∃ err, agg.findBadFuzzPaths w alreadyFoundFuzzes = .error err ∧
        agg.scanHelper w alreadyFoundFuzzes = (agg, alreadyFoundFuzzes, some err)) ∧
    (scanSucceeds w (agg.scanPath w) →
      ∃ paths, agg.findBadFuzzPaths w alreadyFoundFuzzes = .ok paths) := by
  refine ⟨?_, ?_, ?_⟩
  · intro ho
    simp only [Aggregator.findBadFuzzPaths, ho]
  · intro hf
    obtain ⟨e, he⟩ := findBadFuzzPaths_error w agg alreadyFoundFuzzes hf
    exact ⟨e, he, by simp only [Aggregator.scanHelper, he]⟩
  · intro hs
    exact ⟨_, findBadFuzzPaths_eq w agg alreadyFoundFuzzes hs⟩

/-- C17, instantiated: the scan of the tree `exBrokenTree`, whose `crashes` folder cannot be
listed, with one path found before. -/
theorem scan_error_handling_witness :
    scanFails exBrokenTree (exAgg.scanPath exBrokenTree) ∧
    ∃ err,
      exAgg.findBadFuzzPaths exBrokenTree
          { strings := ["/afl/skpicture/fuzzer0/crashes/id:000000"] } = .error err ∧
      exAgg.scanHelper exBrokenTree
          { strings := ["/afl/skpicture/fuzzer0/crashes/id:000000"] } =
        (exAgg, { strings := ["/afl/skpicture/fuzzer0/crashes/id:000000"] }, some err) :=
  ⟨exBrokenTree_scanFails,
    (scan_error_handling exBrokenTree exAgg
      { strings := ["/afl/skpicture/fuzzer0/crashes/id:000000"] }).2.1
      exBrokenTree_scanFails⟩

/-! ## The already-found slice over the scans -/

/-- A `scanHelper` call that returns no error has appended to the queue and to the slice what
`findBadFuzzPaths` returned. -/
theorem scanHelper_ok_inv (w : World Report) (agg next : Aggregator Report)
    (found after : SortedStringSlice) (h : agg.scanHelper w found = (next, after, none)) :
    ∃ newlyFound, agg.findBadFuzzPaths w found = .ok newlyFound ∧
      after = found.Append newlyFound ∧
      next = { agg with forAnalysis := agg.forAnalysis ++ newlyFound } := by
  unfold Aggregator.scanHelper at h
  cases hf : agg.findBadFuzzPaths w found with
  | error e =>
    rw [hf] at h
    simp at h
  | ok newlyFound =>
    rw [hf] at h
    simp only [Prod.mk.injEq, and_true] at h
    exact ⟨newlyFound, rfl, h.2.symm, h.1.symm⟩

/-- What `findBadFuzzPaths` returns without an error is nothing, or the candidate paths of a
scan in which no operation failed. -/
theorem findBadFuzzPaths_ok_inv (w : World Report) (agg : Aggregator Report)
    (found : SortedStringSlice) (paths : List String)
    (h : agg.findBadFuzzPaths w found = .ok paths) :
    paths = [] ∨ paths = candidatePaths w found (agg.scanPath w) := by
  rcases scan_trichotomy w (agg.scanPath w) with ho | hs | hf
  · left
    simp only [Aggregator.findBadFuzzPaths, ho] at h
    cases h
    rfl
  · right
    rw [findBadFuzzPaths_eq w agg found hs] at h
    cases h
    rfl
  · obtain ⟨e, he⟩ := findBadFuzzPaths_error w agg found hf
    rw [he] at h
    cases h

/-- C18: the already-found slice is ordered, without a repeated path, and only grows: after
every sequence of `scanHelper` calls that return no error, from the empty slice, on trees whose
listings are those of directories, the underlying slice is sorted in increasing order and
holds no path twice; and a further such call leaves in the slice every path that was in it. -/
theorem alreadyFound_invariant (found : SortedStringSlice) (h : ScanReach found) :
    found.strings.Sorted (fun x y => x ≤ y) ∧ found.strings.Nodup ∧
    ∀ {Report : Type} (w : World Report) (agg next : Aggregator Report)
      (after : SortedStringSlice), agg.scanHelper w found = (next, after, none) →
      ∀ p ∈ found.strings, p ∈ after.strings := by
  have hmono : ∀ (found : SortedStringSlice) {Report : Type} (w : World Report)
      (agg next : Aggregator Report) (after : SortedStringSlice),
      agg.scanHelper w found = (next, after, none) →
      ∀ p ∈ found.strings, p ∈ after.strings := by
    intro found Report w agg next after hs p hp
    obtain ⟨newlyFound, _, ha, _⟩ := scanHelper_ok_inv w agg next found after hs
    rw [ha, mem_Append]
    exact Or.inl hp
  refine ⟨?_, ?_, hmono found⟩
  · induction h with
    | empty => exact List.sorted_nil
    | scan w agg next found after _ _ hs _ =>
      obtain ⟨newlyFound, _, ha, _⟩ := scanHelper_ok_inv w agg next found after hs
      rw [ha]
      exact Append_sorted _ _
  · have hboth : found.strings.Sorted (fun x y => x ≤ y) ∧ found.strings.Nodup := by
      induction h with
      | empty => exact ⟨List.sorted_nil, List.nodup_nil⟩
      | scan w agg next found after _ hp hs ih =>
        obtain ⟨newlyFound, hf, ha, _⟩ := scanHelper_ok_inv w agg next found after hs
        rw [ha]
        refine ⟨Append_sorted _ _, ?_⟩
        rw [(Append_perm found newlyFound).nodup_iff, List.nodup_append]
        refine ⟨ih.2, ?_, ?_⟩
        · rcases findBadFuzzPaths_ok_inv w agg found newlyFound hf with hn | hn
          · rw [hn]
            exact List.nodup_nil
          · rw [hn]
            exact candidatePaths_nodup w found _ hp
        · intro p hp1 hp2
          rcases findBadFuzzPaths_ok_inv w agg found newlyFound hf with hn | hn
          · rw [hn] at hp2
            exact absurd hp2 (List.not_mem_nil p)
          · rw [hn, mem_candidatePaths] at hp2
            have := (Contains_iff_mem found ih.1 p).2 hp1
            rw [hp2.2] at this
            exact Bool.noConfusion this
    exact hboth.2

theorem exTree_scanReach :
    ScanReach { strings := ["/afl/skpicture/fuzzer0/crashes/id:000000"] } :=
  ScanReach.scan exTree exAgg
    { exAgg with forAnalysis := ["/afl/skpicture/fuzzer0/crashes/id:000000"] }
    { strings := [] } { strings := ["/afl/skpicture/fuzzer0/crashes/id:000000"] }
    ScanReach.empty exTree_properTree rfl

/-- C18, instantiated: the slice after the first scan of the tree `exTree`. -/
theorem alreadyFound_invariant_witness :
    ScanReach { strings := ["/afl/skpicture/fuzzer0/crashes/id:000000"] } ∧
    (SortedStringSlice.mk ["/afl/skpicture/fuzzer0/crashes/id:000000"]).strings.Sorted
      (fun x y => x ≤ y) ∧
    (SortedStringSlice.mk ["/afl/skpicture/fuzzer0/crashes/id:000000"]).strings.Nodup ∧
    ∀ {Report : Type} (w : World Report) (agg next : Aggregator Report)
      (after : SortedStringSlice),
      agg.scanHelper w { strings := ["/afl/skpicture/fuzzer0/crashes/id:000000"] } =
        (next, after, none) →
      ∀ p ∈ (SortedStringSlice.mk ["/afl/skpicture/fuzzer0/crashes/id:000000"]).strings,
        p ∈ after.strings :=
  ⟨exTree_scanReach, alreadyFound_invariant _ exTree_scanReach⟩

/-! ## Start and shutdown (`start`, `ShutDown`) -/

theorem spawnLoop_eq (n : Int) :
    ∀ (fuel i : Nat) (spawned : List Nat), (n - i).toNat ≤ fuel →
      spawnLoop n fuel i spawned = spawned ++ List.range' i (n - i).toNat := by
  intro fuel
  induction fuel with
  | zero =>
    intro i spawned h
    have h0 : (n - i).toNat = 0 := by omega
    simp [spawnLoop, h0]
  | succ fuel ih =>
    intro i spawned h
    by_cases hlt : (i : Int) < n
    · have hstep : spawnLoop n (fuel + 1) i spawned = spawnLoop n fuel (i + 1) (spawned ++ [i]) := by
        simp [spawnLoop, hlt]
      have hk : (n - i).toNat = (n - ((i + 1 : Nat) : Int)).toNat + 1 := by
        push_cast
        omega
      rw [hstep, ih (i + 1) (spawned ++ [i]) (by omega), hk, List.range'_succ]
      simp
    · have h0 : (n - i).toNat = 0 := by omega
      simp [spawnLoop, hlt, h0]

theorem spawnLoop_length (n : Int) :
    (spawnLoop n n.toNat 0 []).length = n.toNat := by
  rw [spawnLoop_eq n n.toNat 0 [] (by simp)]
  simp

theorem shutDownLoop_eq :
    ∀ (fuel : Nat) (ch : SignalChan) (sent : Nat), ch.cap - ch.len ≤ fuel →
      shutDownLoop fuel ch.len ch sent
        = some ({ len := max ch.len ch.cap, cap := ch.cap }, sent + (ch.cap - ch.len)) := by
  intro fuel
  induction fuel with
  | zero =>
    intro ch sent h
    have hge : ¬ ch.len < ch.cap := by omega
    have hmax : max ch.len ch.cap = ch.len := by omega
    have h0 : ch.cap - ch.len = 0 := by omega
    simp [shutDownLoop, hge, hmax, h0]
  | succ fuel ih =>
    intro ch sent h
    by_cases hlt : ch.len < ch.cap
    · have hstep : shutDownLoop (fuel + 1) ch.len ch sent
          = shutDownLoop fuel (ch.len + 1) { len := ch.len + 1, cap := ch.cap } (sent + 1) := by
        simp [shutDownLoop, SignalChan.send, hlt]
      have hnext := ih { len := ch.len + 1, cap := ch.cap } (sent + 1) (by simp; omega)
      simp only at hnext
      rw [hstep, hnext]
      have hmax : max (ch.len + 1) ch.cap = max ch.len ch.cap := by omega
      have hsent : sent + 1 + (ch.cap - (ch.len + 1)) = sent + (ch.cap - ch.len) := by omega
      rw [hmax, hsent]
    · have hmax : max ch.len ch.cap = ch.len := by omega
      have h0 : ch.cap - ch.len = 0 := by omega
      simp [shutDownLoop, hlt, hmax, h0]

theorem ShutDown_eq (ch : SignalChan) (h : ch.len ≤ ch.cap) :
    ShutDown ch = some ({ len := ch.cap, cap := ch.cap }, ch.cap - ch.len) := by
  have hmax : max ch.len ch.cap = ch.cap := by omega
  rw [ShutDown, shutDownLoop_eq ch.cap ch 0 (by omega), hmax]
  simp

/-- C21: when the build succeeds, `start` resets the three counters to zero, spawns `nA`
analysis workers, `nU` upload workers and one bug-report worker, where `nA` is
`NumAnalysisProcesses` when that is positive and 20 otherwise and `nU` is `NumUploadProcesses`
when that is positive and 5 otherwise, and creates the shutdown channel empty with capacity
`nA + nU + 1`.  From that channel the loop of `ShutDown` ends with no send blocked, having sent
`nA + nU + 1` signals, one for each aggregation worker spawned, and from any channel it sends
as many signals as the channel has room for. -/
theorem start_shutdown_signals (w : World Report) (agg : Aggregator Report)
    (hb : w.buildAnalysisBinaries = none) :
    ∃ (nA nU : Nat) (p : Pipeline),
      (nA : Int) = (if 0 < w.NumAnalysisProcesses then w.NumAnalysisProcesses else 20) ∧
      (nU : Int) = (if 0 < w.NumUploadProcesses then w.NumUploadProcesses else 5) ∧
      agg.start w
        = ({ agg with analysisCount := 0, uploadCount := 0, bugReportCount := 0 }, some p, none) ∧
      p.analysisWorkers.length = nA ∧ p.uploadWorkers.length = nU ∧ p.bugReportWorkers = 1 ∧
      p.aggregationWorkers = nA + nU + 1 ∧
      p.aggregationShutdown = { len := 0, cap := nA + nU + 1 } ∧
      ShutDown p.aggregationShutdown
        = some ({ len := nA + nU + 1, cap := nA + nU + 1 }, p.aggregationWorkers) ∧
      ∀ ch : SignalChan, ch.len ≤ ch.cap →
        ShutDown ch = some ({ len := ch.cap, cap := ch.cap }, ch.cap - ch.len) := by
  have hA : (0 : Int) ≤ (if w.NumAnalysisProcesses ≤ 0 then 20 else w.NumAnalysisProcesses) := by
    split_ifs <;> omega
  have hU : (0 : Int) ≤ (if w.NumUploadProcesses ≤ 0 then 5 else w.NumUploadProcesses) := by
    split_ifs <;> omega
  have hcap : ((if w.NumAnalysisProcesses ≤ 0 then (20 : Int) else w.NumAnalysisProcesses)
        + (if w.NumUploadProcesses ≤ 0 then 5 else w.NumUploadProcesses) + 1).toNat
      = (if w.NumAnalysisProcesses ≤ 0 then (20 : Int) else w.NumAnalysisProcesses).toNat
        + (if w.NumUploadProcesses ≤ 0 then (5 : Int) else w.NumUploadProcesses).toNat + 1 := by
    omega
  refine ⟨(if w.NumAnalysisProcesses ≤ 0 then (20 : Int) else w.NumAnalysisProcesses).toNat,
    (if w.NumUploadProcesses ≤ 0 then (5 : Int) else w.NumUploadProcesses).toNat, _, ?_, ?_,
    by simp only [Aggregator.start, hb]; rfl, ?_, ?_, rfl, ?_, ?_, ?_, ?_⟩
  · rw [Int.toNat_of_nonneg hA]
    split_ifs <;> first | rfl | omega
  · rw [Int.toNat_of_nonneg hU]
    split_ifs <;> first | rfl | omega
  · exact spawnLoop_length _
  · exact spawnLoop_length _
  · simp only [Pipeline.aggregationWorkers, spawnLoop_length]
  · simp only [hcap]
  · simp only [hcap, Pipeline.aggregationWorkers, spawnLoop_length]
    rw [ShutDown_eq _ (by simp)]
    simp
  · exact fun ch h => ShutDown_eq ch h

/-- C21, on the world where both numbers of processes are zero: twenty analysis workers, five
upload workers and one bug-report worker are spawned, and `ShutDown` sends 26 signals. -/
theorem start_shutdown_signals_witness :
    exWorld.buildAnalysisBinaries = none ∧
      (exAgg.start exWorld).2.1.map (fun p => (p.analysisWorkers.length, p.uploadWorkers.length,
        p.aggregationShutdown, ShutDown p.aggregationShutdown))
        = some (20, 5, { len := 0, cap := 26 }, some ({ len := 26, cap := 26 }, 26)) ∧
      ∃ (nA nU : Nat) (p : Pipeline),
        (nA : Int) = (if 0 < exWorld.NumAnalysisProcesses then exWorld.NumAnalysisProcesses
          else 20) ∧
        (nU : Int) = (if 0 < exWorld.NumUploadProcesses then exWorld.NumUploadProcesses
          else 5) ∧
        exAgg.start exWorld
          = ({ exAgg with analysisCount := 0, uploadCount := 0, bugReportCount := 0 }, some p,
              none) ∧
        p.analysisWorkers.length = nA ∧ p.uploadWorkers.length = nU ∧ p.bugReportWorkers = 1 ∧
        p.aggregationWorkers = nA + nU + 1 ∧
        p.aggregationShutdown = { len := 0, cap := nA + nU + 1 } ∧
        ShutDown p.aggregationShutdown
          = some ({ len := nA + nU + 1, cap := nA + nU + 1 }, p.aggregationWorkers) ∧
        ∀ ch : SignalChan, ch.len ≤ ch.cap →
          ShutDown ch = some ({ len := ch.cap, cap := ch.cap }, ch.cap - ch.len) :=
  ⟨by decide, by decide, start_shutdown_signals exWorld exAgg (by decide)⟩

/-! ## The counters and the queues -/

theorem start_fst (w : World Report) (agg : Aggregator Report) :
    (agg.start w).1
      = { agg with analysisCount := 0, uploadCount := 0, bugReportCount := 0 } := by
  unfold Aggregator.start
  cases w.buildAnalysisBinaries <;> rfl

theorem Iteration_balanced [DecidableEq Report] (w : World Report)
    (agg next : Aggregator Report) (cont : Bool) (hb : agg.balanced)
    (h : Iteration w agg next cont) : next.balanced := by
  obtain ⟨h1, h2, _, _⟩ := Iteration_effect w agg next cont h
  obtain ⟨b1, b2⟩ := hb
  constructor <;> omega

theorem Reachable_balanced [DecidableEq Report] (w : World Report)
    (agg0 agg : Aggregator Report) (hb : agg0.balanced) (hr : Reachable w agg0 agg) :
    agg.balanced := by
  induction hr with
  | start => exact hb
  | iteration mid next cont _ hi ih => exact Iteration_balanced w mid next cont ih hi
  | queued mid badFuzzPath _ ih => exact ih

theorem Reachable_of_Execution [DecidableEq Report] (w : World Report)
    (agg0 agg : Aggregator Report) (n : Nat) (he : Execution w n agg0 agg) :
    Reachable w agg0 agg := by
  induction he with
  | start => exact Reachable.start _
  | step n agg0 mid next _ hi ih => exact Reachable.iteration _ mid next true ih hi

/-- C23: with one worker loop iteration as one step, every state reached after a `start` that
finds the upload and bug-report queues empty satisfies
`analysisCount = uploadCount + len(forUpload)` and
`uploadCount = bugReportCount + len(forBugReporting)`; every iteration made from such a state
leads to a state satisfying both, in particular an analysis iteration that ends in an error,
an upload iteration that skips a grey package, one that skips a duplicate and one whose upload
fails; and when the upload and bug-report queues are empty the three counters are equal. -/
theorem balance_invariant [DecidableEq Report] (w : World Report) (agg0 : Aggregator Report)
    (hq : agg0.forUpload = [] ∧ agg0.forBugReporting = [])
    (agg : Aggregator Report) (hr : Reachable w (agg0.start w).1 agg) :
    (agg.analysisCount = agg.uploadCount + agg.forUpload.length ∧
      agg.uploadCount = agg.bugReportCount + agg.forBugReporting.length) ∧
    (∀ (next : Aggregator Report) (cont : Bool), Iteration w agg next cont → next.balanced) ∧
    (∀ (badFuzzPath : String) (rest : List String) (disk : Disk) (executableDir : String),
      agg.forAnalysis = badFuzzPath :: rest →
      (Aggregator.waitForAnalysisBody w { agg with forAnalysis := rest } disk executableDir
        badFuzzPath).2.2 = false →
      (Aggregator.waitForAnalysisBody w { agg with forAnalysis := rest } disk executableDir
        badFuzzPath).1.balanced) ∧
    (∀ (p : uploadPackage) (rest : List uploadPackage), agg.forUpload = p :: rest →
      (agg.UploadGreyFuzzes = false ∧ p.FuzzType = GREY_FUZZ) ∨
      (p.FuzzType ≠ GREY_FUZZ ∧ w.ParseReport p.Data ∈ agg.deduplicator.seen) ∨
      (Aggregator.waitForUploadsBody w { agg with forUpload := rest } p).2 = false →
      (Aggregator.waitForUploadsBody w { agg with forUpload := rest } p).1.balanced) ∧
    (agg.forUpload = [] → agg.forBugReporting = [] →
      agg.analysisCount = agg.uploadCount ∧ agg.uploadCount = agg.bugReportCount) := by
  have h0 : ((agg0.start w).1).balanced := by
    rw [start_fst]
    simp [Aggregator.balanced, hq.1, hq.2]
  have hb : agg.balanced := Reachable_balanced w _ agg h0 hr
  refine ⟨hb, fun next cont hi => Iteration_balanced w agg next cont hb hi, ?_, ?_, ?_⟩
  · intro badFuzzPath rest disk executableDir hh _
    exact Iteration_balanced w agg _ _ hb (Iteration.analysis agg badFuzzPath rest disk
      executableDir hh)
  · intro p rest hh _
    exact Iteration_balanced w agg _ _ hb (Iteration.upload agg p rest hh)
  · intro hu hbq
    obtain ⟨b1, b2⟩ := hb
    rw [hu] at b1
    rw [hbq] at b2
    simp only [List.length_nil] at b1 b2
    constructor <;> omega

/-- C23, instantiated: the two iterations that retire the one path of `exOnePath`. -/
theorem balance_invariant_witness :
    (exOnePath.forUpload = [] ∧ exOnePath.forBugReporting = []) ∧
    Reachable exWorld (exOnePath.start exWorld).1 exOnePathUploaded ∧
    exOnePathUploaded.balanced :=
  ⟨⟨rfl, rfl⟩, Reachable_of_Execution exWorld exOnePath exOnePathUploaded 2 exOnePath_execution,
    (balance_invariant exWorld exOnePath ⟨rfl, rfl⟩ exOnePathUploaded
      (Reachable_of_Execution exWorld exOnePath exOnePathUploaded 2 exOnePath_execution)).1⟩

/-! ## A failed upload and the deduplicator -/

theorem writeSeq_prefix (w : World Report) (os : List StorageObject) :
    ∀ c : StorageClient, ∃ k, k ≤ os.length ∧
      (writeSeq w c os).1.objects = c.objects ++ os.take k ∧
      ((writeSeq w c os).2 ≠ none → k < os.length) := by
  induction os with
  | nil => intro c; exact ⟨0, by simp, by simp [writeSeq], by simp [writeSeq]⟩
  | cons o os ih =>
    intro c
    cases h0 : w.writeErr c.writes with
    | some e =>
      have hw := write_fail w c o e h0
      exact ⟨0, by simp, by simp [writeSeq, hw], by simp⟩
    | none =>
      have hw := write_ok w c o h0
      obtain ⟨k, hk, ho, he⟩ := ih { objects := c.objects ++ [o], writes := c.writes + 1 }
      refine ⟨k + 1, by simpa using hk, ?_, ?_⟩
      · simp only [writeSeq, hw]
        rw [ho]
        simp
      · simp only [writeSeq, hw]
        intro hne
        have := he hne
        simpa using this

/-- A call of `upload` that returns an error has added fewer than seven of the artifacts of the
package to the bucket. -/
theorem upload_incomplete (w : World Report) (agg : Aggregator Report) (p : uploadPackage)
    (h : (agg.upload w p).2 ≠ none) :
    ∃ k, k < 7 ∧ (agg.upload w p).1.storageClient.objects
      = agg.storageClient.objects ++ (expectedObjects w.SkiaVersionHash p).take k := by
  by_cases ho : w.Open p.FilePath = .ok
  · rw [upload_eq w agg p ho] at h ⊢
    obtain ⟨k, _, hobj, hlt⟩ := writeSeq_prefix w (expectedObjects w.SkiaVersionHash p)
      agg.storageClient
    exact ⟨k, hlt h, hobj⟩
  · refine ⟨0, by decide, ?_⟩
    rw [(upload_noOpen w agg p ho).1, withName_storageClient]
    simp

/-- An iteration of the upload worker takes no report out of the deduplicator. -/
theorem waitForUploadsBody_seen [DecidableEq Report] (w : World Report)
    (agg : Aggregator Report) (p : uploadPackage) (r : Report)
    (hr : r ∈ agg.deduplicator.seen) :
    r ∈ (agg.waitForUploadsBody w p).1.deduplicator.seen := by
  by_cases hg : p.FuzzType = GREY_FUZZ
  · cases hu : agg.UploadGreyFuzzes with
    | false =>
      rw [waitForUploadsBody_greySkip w agg p hu hg]
      exact hr
    | true =>
      rw [waitForUploadsBody_grey w agg p hu hg]
      by_cases hf : w.Open p.FilePath = .ok ∧
          ∀ i, i < 7 → w.writeErr (agg.storageClient.writes + i) = none
      · rw [uploadTail_ok w { agg with uploadCount := agg.uploadCount + 1 } p hf.1 hf.2,
          withName_grey _ p hg]
        exact hr
      · rw [uploadTail_fail w { agg with uploadCount := agg.uploadCount + 1 } p hf,
          withName_grey _ p hg]
        exact hr
  · by_cases hs : w.ParseReport p.Data ∈ agg.deduplicator.seen
    · rw [waitForUploadsBody_duplicate w agg p hg hs]
      exact hr
    · rw [waitForUploadsBody_unique w agg p hg hs]
      by_cases hf : w.Open p.FilePath = .ok ∧
          ∀ i, i < 7 → w.writeErr (agg.storageClient.writes + i) = none
      · rw [uploadTail_ok w
          { agg with
            uploadCount := agg.uploadCount + 1
            deduplicator :=
              { seen := agg.deduplicator.seen ++ [w.ParseReport p.Data]
                calls := agg.deduplicator.calls + 1 } } p hf.1 hf.2,
          withName_bad _ p hg]
        exact List.mem_append_left _ hr
      · rw [uploadTail_fail w
          { agg with
            uploadCount := agg.uploadCount + 1
            deduplicator :=
              { seen := agg.deduplicator.seen ++ [w.ParseReport p.Data]
                calls := agg.deduplicator.calls + 1 } } p hf,
          withName_bad _ p hg]
        exact List.mem_append_left _ hr

theorem Iteration_seen [DecidableEq Report] (w : World Report)
    (agg next : Aggregator Report) (cont : Bool) (h : Iteration w agg next cont) (r : Report)
    (hr : r ∈ agg.deduplicator.seen) : r ∈ next.deduplicator.seen := by
  cases h with
  | analysis badFuzzPath rest disk executableDir hq =>
    rcases waitForAnalysisBody_cases w { agg with forAnalysis := rest } disk executableDir
      badFuzzPath with ⟨_, u, he⟩ | ⟨_, he⟩
    · rw [he]
      exact hr
    · rw [he]
      exact hr
  | upload p rest hq => exact waitForUploadsBody_seen w { agg with forUpload := rest } p r hr
  | bugReport p rest hq => exact hr

theorem Reachable_seen [DecidableEq Report] (w : World Report)
    (agg0 agg : Aggregator Report) (hr : Reachable w agg0 agg) (r : Report)
    (hs : r ∈ agg0.deduplicator.seen) : r ∈ agg.deduplicator.seen := by
  induction hr with
  | start => exact hs
  | iteration mid next cont _ hi ih => exact Iteration_seen w mid next cont hi r ih
  | queued mid badFuzzPath _ ih => exact ih

/-- C24: a confirmed-failure package whose report the deduplicator has not seen and whose
upload fails (the retained file does not open, or one of the seven writes fails).  The upload
worker has recorded the report before it calls `upload`, and the record stays: the worker
returns, fewer than seven artifacts of the package are in the bucket and no bug-report package
is forwarded.  In every state the pipeline reaches afterwards, a confirmed-failure package with
the same report is skipped as a duplicate by the upload worker that receives it: bucket and
bug-report queue stay as they are.  Once `RestartAnalysis` has cleared the deduplicator, such a
package is persisted and forwarded when the storage does not fail. -/
theorem failed_upload_keeps_signature [DecidableEq Report] (w : World Report)
    (agg : Aggregator Report) (p : uploadPackage) (hbad : p.FuzzType = BAD_FUZZ)
    (hnew : w.ParseReport p.Data ∉ agg.deduplicator.seen)
    (hf : ¬ (w.Open p.FilePath = .ok ∧
      ∀ i, i < 7 → w.writeErr (agg.storageClient.writes + i) = none)) :
    (agg.waitForUploadsBody w p).1 =
      { (Aggregator.upload w
          { agg with
            uploadCount := agg.uploadCount + 1
            deduplicator :=
              { seen := agg.deduplicator.seen ++ [w.ParseReport p.Data]
                calls := agg.deduplicator.calls + 1 } } p).1 with
        bugReportCount := agg.bugReportCount + 1 } ∧
    (agg.waitForUploadsBody w p).2 = false ∧
    (agg.waitForUploadsBody w p).1.deduplicator.seen =
      agg.deduplicator.seen ++ [w.ParseReport p.Data] ∧
    (agg.waitForUploadsBody w p).1.forBugReporting = agg.forBugReporting ∧
    (∃ k, k < 7 ∧ (agg.waitForUploadsBody w p).1.storageClient.objects =
      agg.storageClient.objects ++ (expectedObjects w.SkiaVersionHash p).take k) ∧
    (∀ (later : Aggregator Report), Reachable w (agg.waitForUploadsBody w p).1 later →
      ∀ (q : uploadPackage), q.FuzzType = BAD_FUZZ →
        w.ParseReport q.Data = w.ParseReport p.Data →
        later.waitForUploadsBody w q =
          ({ later with
              uploadCount := later.uploadCount + 1
              deduplicator := { later.deduplicator with calls := later.deduplicator.calls + 1 }
              bugReportCount := later.bugReportCount + 1 }, true) ∧
        (later.waitForUploadsBody w q).1.storageClient = later.storageClient ∧
        (later.waitForUploadsBody w q).1.forBugReporting = later.forBugReporting ∧
        (w.Open q.FilePath = .ok →
          (∀ i, i < 7 → w.writeErr (later.storageClient.writes + i) = none) →
          ((later.RestartAnalysis w).1.waitForUploadsBody w q).1.storageClient.objects =
            later.storageClient.objects ++ expectedObjects w.SkiaVersionHash q ∧
          ((later.RestartAnalysis w).1.waitForUploadsBody w q).1.forBugReporting =
            later.forBugReporting ++
              [{ FuzzName := q.Data.Name, CommitHash := w.SkiaVersionHash,
                 IsBadFuzz := true }])) := by
  have hg : p.FuzzType ≠ GREY_FUZZ := by rw [hbad]; exact BAD_FUZZ_ne_GREY_FUZZ
  have hbody := waitForUploadsBody_unique w agg p hg hnew
  have htail := uploadTail_fail w
    { agg with
      uploadCount := agg.uploadCount + 1
      deduplicator :=
        { seen := agg.deduplicator.seen ++ [w.ParseReport p.Data]
          calls := agg.deduplicator.calls + 1 } } p hf
  have herr : (Aggregator.upload w
      { agg with
        uploadCount := agg.uploadCount + 1
        deduplicator :=
          { seen := agg.deduplicator.seen ++ [w.ParseReport p.Data]
            calls := agg.deduplicator.calls + 1 } } p).2 ≠ none :=
    fun hc => hf ((upload_err_iff w
      { agg with
        uploadCount := agg.uploadCount + 1
        deduplicator :=
          { seen := agg.deduplicator.seen ++ [w.ParseReport p.Data]
            calls := agg.deduplicator.calls + 1 } } p).1 hc)
  have hframe := upload_frame w
    { agg with
      uploadCount := agg.uploadCount + 1
      deduplicator :=
        { seen := agg.deduplicator.seen ++ [w.ParseReport p.Data]
          calls := agg.deduplicator.calls + 1 } } p
  have hseen : (agg.waitForUploadsBody w p).1.deduplicator.seen =
      agg.deduplicator.seen ++ [w.ParseReport p.Data] := by
    rw [hbody, htail, withName_bad _ p hg]
  refine ⟨?_, ?_, hseen, ?_, ?_, ?_⟩
  · rw [hbody, htail]
    conv_rhs => rw [hframe]
  · rw [hbody, htail]
  · rw [hbody, htail, withName_bad _ p hg]
  · obtain ⟨k, hk, hobj⟩ := upload_incomplete w _ p herr
    refine ⟨k, hk, ?_⟩
    rw [hbody, htail]
    exact hobj
  · intro later hr q hq hsig
    have hgq : q.FuzzType ≠ GREY_FUZZ := by rw [hq]; exact BAD_FUZZ_ne_GREY_FUZZ
    have hin : w.ParseReport q.Data ∈ later.deduplicator.seen := by
      rw [hsig]
      exact Reachable_seen w _ later hr _ (by rw [hseen]; simp)
    have hdup := waitForUploadsBody_duplicate w later q hgq hin
    refine ⟨hdup, by rw [hdup], by rw [hdup], ?_⟩
    intro ho hw
    have hp : ((later.RestartAnalysis w).1).persists w q := by
      rw [Aggregator.RestartAnalysis, start_fst]
      exact ⟨fun h => hgq h.2, fun h => by simp [Deduplicator.Clear] at h, ho, hw⟩
    obtain ⟨h1, h2, _⟩ := waitForUploadsBody_persists w _ q hp
    rw [h1, h2, Aggregator.RestartAnalysis, start_fst, hq]
    simp

/-- C24, instantiated: the third write of the upload of `exBad` fails; the worker returns with
the report of `exBad` recorded, and `exBadTwin`, which has the same report, is then skipped. -/
theorem failed_upload_keeps_signature_witness :
    exBad.FuzzType = BAD_FUZZ ∧
    exThirdWriteFails.ParseReport exBad.Data ∉ exAgg.deduplicator.seen ∧
    ¬ (exThirdWriteFails.Open exBad.FilePath = .ok ∧
      ∀ i, i < 7 → exThirdWriteFails.writeErr (exAgg.storageClient.writes + i) = none) ∧
    (exAgg.waitForUploadsBody exThirdWriteFails exBad).2 = false ∧
    (exAgg.waitForUploadsBody exThirdWriteFails exBad).1.deduplicator.seen =
      exAgg.deduplicator.seen ++ [exThirdWriteFails.ParseReport exBad.Data] ∧
    ((exAgg.waitForUploadsBody exThirdWriteFails exBad).1.waitForUploadsBody exThirdWriteFails
      exBadTwin).1.storageClient =
      (exAgg.waitForUploadsBody exThirdWriteFails exBad).1.storageClient :=
  have h := failed_upload_keeps_signature exThirdWriteFails exAgg exBad rfl (by decide)
    (fun hc => absurd (hc.2 2 (by decide)) (by decide))
  ⟨rfl, by decide, fun hc => absurd (hc.2 2 (by decide)) (by decide), h.2.1, h.2.2.1,
    (h.2.2.2.2.2 _ (Reachable.start _) exBadTwin rfl rfl).2.1⟩

/-! ## The mocked bot list (`ListBots`, `ListFreeBots`) -/

namespace Swarming

theorem dimensionLoop_iff (env : Env) (hIn : ∀ s a, env.In s a = true ↔ s ∈ a)
    (k v : String) (dims : List SwarmingRpcsStringListPair) :
    dimensionLoop env k v dims = true ↔ ∃ dim ∈ dims, dim.Key = k ∧ v ∈ dim.Value := by
  induction dims with
  | nil => simp [dimensionLoop]
  | cons dim rest ih =>
    by_cases h : dim.Key = k ∧ v ∈ dim.Value
    · have hin : env.In v dim.Value = true := (hIn _ _).2 h.2
      simp only [dimensionLoop, h.1, hin, decide_True, Bool.and_self, if_true, true_iff]
      exact ⟨dim, List.mem_cons_self _ _, h⟩
    · have hc : (decide (dim.Key = k) && env.In v dim.Value) = false := by
        by_cases hk : dim.Key = k
        · have : env.In v dim.Value ≠ true := fun hi => h ⟨hk, (hIn _ _).1 hi⟩
          simp [hk, this]
        · simp [hk]
      simp only [dimensionLoop, hc, Bool.false_eq_true, if_false, ih, List.mem_cons]
      constructor
      · rintro ⟨d, hd, hp⟩
        exact ⟨d, Or.inr hd, hp⟩
      · rintro ⟨d, hd | hd, hp⟩
        · exact absurd (hd ▸ hp) h
        · exact ⟨d, hd, hp⟩

theorem matchLoop_iff (env : Env) (hIn : ∀ s a, env.In s a = true ↔ s ∈ a)
    (b : SwarmingRpcsBotInfo) (dimensions : List (String × String)) :
    matchLoop env b dimensions = true ↔
      ∀ kv ∈ dimensions, ∃ dim ∈ b.Dimensions, dim.Key = kv.1 ∧ kv.2 ∈ dim.Value := by
  induction dimensions with
  | nil => simp [matchLoop]
  | cons kv rest ih =>
    obtain ⟨k, v⟩ := kv
    by_cases h : dimensionLoop env k v b.Dimensions = true
    · simp only [matchLoop, h, Bool.not_true, Bool.false_eq_true, if_false, ih,
        List.forall_mem_cons]
      exact ⟨fun hr => ⟨(dimensionLoop_iff env hIn k v _).1 h, hr⟩, fun hr => hr.2⟩
    · have hf : dimensionLoop env k v b.Dimensions = false := by
        cases hd : dimensionLoop env k v b.Dimensions with
        | true => exact absurd hd h
        | false => rfl
      simp only [matchLoop, hf, Bool.not_false, if_true, Bool.false_eq_true, false_iff,
        List.forall_mem_cons]
      exact fun hr => h ((dimensionLoop_iff env hIn k v _).2 hr.1)

theorem listBotsLoop_eq (env : Env) (dimensions : List (String × String))
    (bots : List SwarmingRpcsBotInfo) :
    ∀ rv, listBotsLoop env dimensions bots rv
      = rv ++ bots.filter (fun b => matchLoop env b dimensions) := by
  induction bots with
  | nil => intro rv; simp [listBotsLoop]
  | cons b rest ih =>
    intro rv
    rw [listBotsLoop, ih]
    by_cases h : matchLoop env b dimensions = true
    · simp [h]
    · simp [h]

theorem freeBotsLoop_eq (bots : List SwarmingRpcsBotInfo) :
    ∀ rv, freeBotsLoop bots rv
      = rv ++ bots.filter
          (fun b => !b.Quarantined && !b.IsDead && decide (b.TaskId = "")) := by
  induction bots with
  | nil => intro rv; simp [freeBotsLoop]
  | cons b rest ih =>
    intro rv
    rw [freeBotsLoop, ih]
    by_cases h : (!b.Quarantined && !b.IsDead && decide (b.TaskId = "")) = true
    · have hf : List.filter
          (fun b : SwarmingRpcsBotInfo => !b.Quarantined && !b.IsDead && decide (b.TaskId = ""))
          (b :: rest) = b :: List.filter
          (fun b : SwarmingRpcsBotInfo => !b.Quarantined && !b.IsDead && decide (b.TaskId = ""))
          rest := List.filter_cons_of_pos h
      rw [if_pos h, hf]
      simp
    · have hf : List.filter
          (fun b : SwarmingRpcsBotInfo => !b.Quarantined && !b.IsDead && decide (b.TaskId = ""))
          (b :: rest) = List.filter
          (fun b : SwarmingRpcsBotInfo => !b.Quarantined && !b.IsDead && decide (b.TaskId = ""))
          rest := List.filter_cons_of_neg h
      rw [if_neg h, hf]

/-- C25: with `util.In` the membership test, for every mocked bot list and every dimension map
(its entries in any order) `ListBots` returns no error and the sublist of the mocked bots, in
the order of the mock list, that for every requested key and value have a dimension with that
key whose values include the value, which is every bot when the map is empty; `ListFreeBots`
returns no error and, in the same order, those bots of `ListBots` for the pool dimension that
are not quarantined, not dead and have an empty `TaskId`. -/
theorem ListBots_ListFreeBots (env : Env) (hIn : ∀ s a, env.In s a = true ↔ s ∈ a)
    (c : TestClient) (dimensions : List (String × String)) (pool : String) :
    c.ListBots env dimensions =
      (c.botList.filter (fun b => decide (∀ kv ∈ dimensions,
        ∃ dim ∈ b.Dimensions, dim.Key = kv.1 ∧ kv.2 ∈ dim.Value)), none) ∧
    c.ListBots env [] = (c.botList, none) ∧
    c.ListFreeBots env pool =
      ((c.ListBots env [(env.DIMENSION_POOL_KEY, pool)]).1.filter
        (fun b => decide (b.Quarantined = false ∧ b.IsDead = false ∧ b.TaskId = "")), none) := by
  have hfilter : ∀ dims : List (String × String),
      c.botList.filter (fun b => matchLoop env b dims)
        = c.botList.filter (fun b => decide (∀ kv ∈ dims,
            ∃ dim ∈ b.Dimensions, dim.Key = kv.1 ∧ kv.2 ∈ dim.Value)) := by
    intro dims
    apply List.filter_congr
    intro b _
    by_cases h : matchLoop env b dims = true
    · rw [h]
      exact (decide_eq_true ((matchLoop_iff env hIn b dims).1 h)).symm
    · have hn : ¬ ∀ kv ∈ dims, ∃ dim ∈ b.Dimensions, dim.Key = kv.1 ∧ kv.2 ∈ dim.Value :=
        fun hc => h ((matchLoop_iff env hIn b dims).2 hc)
      rw [decide_eq_false hn]
      simpa using h
  refine ⟨?_, ?_, ?_⟩
  · simp only [TestClient.ListBots, listBotsLoop_eq, List.nil_append, hfilter]
  · simp [TestClient.ListBots, listBotsLoop_eq, matchLoop]
  · simp only [TestClient.ListFreeBots, TestClient.ListBots, freeBotsLoop_eq, List.nil_append]
    congr 1
    apply List.filter_congr
    intro b _
    cases b.Quarantined <;> cases b.IsDead <;> simp

/-- C25, on the three bots of `exBots`: the two bots of the pool `Skia` are listed, in order,
and the first of them is free. -/
theorem ListBots_ListFreeBots_witness :
    (∀ s a, exEnv.In s a = true ↔ s ∈ a) ∧
    ((NewTestClient.MockBots exBots).ListBots exEnv [("pool", "Skia")]).1.map (fun b => b.BotId)
      = ["bot-1", "bot-2"] ∧
    ((NewTestClient.MockBots exBots).ListFreeBots exEnv "Skia").1.map (fun b => b.BotId)
      = ["bot-1"] ∧
    (NewTestClient.MockBots exBots).ListFreeBots exEnv "Skia" =
      (((NewTestClient.MockBots exBots).ListBots exEnv [(exEnv.DIMENSION_POOL_KEY, "Skia")]).1.filter
        (fun b => decide (b.Quarantined = false ∧ b.IsDead = false ∧ b.TaskId = "")), none) :=
  ⟨fun s a => by simp [exEnv], by decide, by decide,
    (ListBots_ListFreeBots exEnv (fun s a => by simp [exEnv]) (NewTestClient.MockBots exBots)
      [("pool", "Skia")] "Skia").2.2⟩

end Swarming

/-! ## The mocked trigger failure (`MockTriggerTaskFailure`, `TriggerTask`) -/

namespace Swarming

theorem filterTags_eq (tags : List String) :
    ∀ filtered, filterTags tags filtered
      = filtered ++ tags.filter (fun t => !HasPrefix t "sk_id") := by
  induction tags with
  | nil => intro filtered; simp [filterTags]
  | cons t rest ih =>
    intro filtered
    rw [filterTags, ih]
    cases h : HasPrefix t "sk_id" <;> simp [h]

theorem StringSliceSort_perm (a b : List String) (h : a.Perm b) :
    StringSliceSort a = StringSliceSort b := by
  unfold StringSliceSort
  apply List.eq_of_perm_of_sorted (r := fun x y : String => x ≤ y)
  · exact (List.perm_insertionSort _ a).trans (h.trans (List.perm_insertionSort _ b).symm)
  · exact List.sorted_insertionSort _ _
  · exact List.sorted_insertionSort _ _

/-- Tags that agree up to order once the tags starting with `sk_id` are left out have the same
digest. -/
theorem md5Tags_perm (env : Env) (a b : List String)
    (h : (a.filter (fun t => !HasPrefix t "sk_id")).Perm
      (b.filter (fun t => !HasPrefix t "sk_id"))) :
    md5Tags env a = md5Tags env b := by
  unfold md5Tags
  rw [filterTags_eq, filterTags_eq]
  simp only [List.nil_append]
  rw [StringSliceSort_perm _ _ h]

theorem BoolMap.get_delete_self (m : BoolMap) (k : String) : (m.delete k).get k = false := by
  induction m with
  | nil => rfl
  | cons e m ih =>
    obtain ⟨k0, v⟩ := e
    by_cases h : k0 = k
    · simpa [BoolMap.delete, h] using ih
    · have : BoolMap.delete ((k0, v) :: m) k = (k0, v) :: BoolMap.delete m k := by
        simp [BoolMap.delete, h]
      rw [this]
      simp [BoolMap.get, h, ih]

theorem BoolMap.get_delete_ne (m : BoolMap) (k k1 : String) (hne : k1 ≠ k) :
    (m.delete k1).get k = m.get k := by
  induction m with
  | nil => rfl
  | cons e m ih =>
    obtain ⟨k0, v⟩ := e
    by_cases h : k0 = k1
    · have hk : k0 ≠ k := by rw [h]; exact hne
      have : BoolMap.delete ((k0, v) :: m) k1 = BoolMap.delete m k1 := by
        simp [BoolMap.delete, h]
      rw [this, ih]
      simp [BoolMap.get, hk]
    · have : BoolMap.delete ((k0, v) :: m) k1 = (k0, v) :: BoolMap.delete m k1 := by
        simp [BoolMap.delete, h]
      rw [this]
      simp [BoolMap.get, ih]

theorem BoolMap.get_set_self (m : BoolMap) (k : String) (v : Bool) : (m.set k v).get k = v := by
  simp [BoolMap.set, BoolMap.get]

/-- A call of `TriggerTask` whose digest is another one leaves the entry of `key` as it is. -/
theorem TriggerTask_other (env : Env) (c c1 : TestClient) (t : SwarmingRpcsNewTaskRequest)
    (createdTs id key : String) (rv : Option SwarmingRpcsTaskRequestMetadata)
    (err : Option String) (hne : md5Tags env t.Tags ≠ some key)
    (h : c.TriggerTask env t createdTs id = some (c1, rv, err)) :
    c1.triggerFailure.get key = c.triggerFailure.get key := by
  unfold TestClient.TriggerTask at h
  cases hm : md5Tags env t.Tags with
  | none => rw [hm] at h; cases h
  | some md5 =>
    have hk : md5 ≠ key := fun hc => hne (by rw [hm, hc])
    rw [hm] at h
    by_cases hf : c.triggerFailure.get md5 = true
    · simp only [hf, if_true, Option.some.injEq, Prod.mk.injEq] at h
      rw [← h.1]
      exact BoolMap.get_delete_ne _ _ _ hk
    · simp only [hf, Bool.false_eq_true, if_false, Option.some.injEq, Prod.mk.injEq] at h
      rw [← h.1]

theorem triggerAll_other (env : Env) (key : String)
    (calls : List (SwarmingRpcsNewTaskRequest × String × String))
    (hne : ∀ o ∈ calls, md5Tags env o.1.Tags ≠ some key) :
    ∀ c c1 : TestClient, c.triggerAll env calls = some c1 →
      c1.triggerFailure.get key = c.triggerFailure.get key := by
  induction calls with
  | nil =>
    intro c c1 h
    simp only [TestClient.triggerAll, Option.some.injEq] at h
    rw [h]
  | cons o rest ih =>
    intro c c1 h
    obtain ⟨t, createdTs, id⟩ := o
    cases hr : c.TriggerTask env t createdTs id with
    | none => simp [TestClient.triggerAll, hr] at h
    | some r =>
      obtain ⟨c0, rv, err⟩ := r
      simp only [TestClient.triggerAll, hr] at h
      rw [ih (fun o ho => hne o (List.mem_cons_of_mem _ ho)) c0 c1 h]
      exact TriggerTask_other env c c0 t createdTs id key rv err
        (hne _ (List.mem_cons_self _ _)) hr

end Swarming

namespace Swarming

theorem StringSliceSort_perm_of_eq (a b : List String)
    (h : StringSliceSort a = StringSliceSort b) : a.Perm b := by
  have ha : (StringSliceSort a).Perm a := List.perm_insertionSort _ a
  have hb : (StringSliceSort b).Perm b := List.perm_insertionSort _ b
  exact ha.symm.trans (h ▸ hb)

/-- When the digest `key` of the given tags is the digest of no other slice, a request whose
tags do not agree with them has another digest. -/
theorem md5Tags_other (env : Env) (tags : List String) (key : String)
    (hfree : ∀ a, env.MD5SSlice a = .ok key →
      a = StringSliceSort (tags.filter (fun t => !HasPrefix t "sk_id")))
    (other : List String)
    (hne : ¬ (other.filter (fun t => !HasPrefix t "sk_id")).Perm
      (tags.filter (fun t => !HasPrefix t "sk_id"))) :
    md5Tags env other ≠ some key := by
  intro hc
  apply hne
  apply StringSliceSort_perm_of_eq
  apply hfree
  unfold md5Tags at hc
  rw [filterTags_eq] at hc
  simp only [List.nil_append] at hc
  cases hm : env.MD5SSlice
      (StringSliceSort (other.filter (fun t => !HasPrefix t "sk_id"))) with
  | error e => rw [hm] at hc; cases hc
  | ok rv =>
    rw [hm] at hc
    simp only [Option.some.injEq] at hc
    rw [hc]

theorem BoolMap.get_set_ne (m : BoolMap) (k k1 : String) (v : Bool) (hne : k1 ≠ k) :
    (m.set k1 v).get k = m.get k := by
  simp [BoolMap.set, BoolMap.get, hne, BoolMap.get_delete_ne m k k1 hne]

/-- C22: let `MockTriggerTaskFailure(tags)` be called, `key` being the digest `md5Tags` gives
the tags, which is the digest of no other slice.  A request matches when its tags agree with
`tags` up to order once the tags starting with `sk_id` are left out; take matching requests `t1`
and `t2`.  After any calls of `TriggerTask` with requests that do not match, the call with `t1`
returns the error and no task, takes the entry of `key` out and leaves the task list as it is;
after any further calls with requests that do not match, the call with `t2` returns no error
and appends one task, in state `PENDING`, to the task list.  A call with a request that does
not match, made right after the mock on a client on which no other failure is mocked, returns
no error and leaves the mocked failure in place. -/
theorem mock_trigger_failure (env : Env) (c : TestClient) (tags : List String) (key : String)
    (hkey : md5Tags env tags = some key)
    (hfree : ∀ a, env.MD5SSlice a = .ok key →
      a = StringSliceSort (tags.filter (fun t => !HasPrefix t "sk_id")))
    (t1 t2 : SwarmingRpcsNewTaskRequest)
    (h1 : (t1.Tags.filter (fun t => !HasPrefix t "sk_id")).Perm
      (tags.filter (fun t => !HasPrefix t "sk_id")))
    (h2 : (t2.Tags.filter (fun t => !HasPrefix t "sk_id")).Perm
      (tags.filter (fun t => !HasPrefix t "sk_id")))
    (createdTs1 id1 createdTs2 id2 : String) :
    c.MockTriggerTaskFailure env tags
      = some { c with triggerFailure := c.triggerFailure.set key true } ∧
    (∀ (before : List (SwarmingRpcsNewTaskRequest × String × String)) (c1 : TestClient),
      (∀ o ∈ before, ¬ (o.1.Tags.filter (fun t => !HasPrefix t "sk_id")).Perm
        (tags.filter (fun t => !HasPrefix t "sk_id"))) →
      TestClient.triggerAll env { c with triggerFailure := c.triggerFailure.set key true } before
        = some c1 →
      c1.TriggerTask env t1 createdTs1 id1 =
        some ({ c1 with triggerFailure := c1.triggerFailure.delete key }, none,
          some "Mocked trigger failure!") ∧
      ∀ (between : List (SwarmingRpcsNewTaskRequest × String × String)) (c2 : TestClient),
        (∀ o ∈ between, ¬ (o.1.Tags.filter (fun t => !HasPrefix t "sk_id")).Perm
          (tags.filter (fun t => !HasPrefix t "sk_id"))) →
        TestClient.triggerAll env { c1 with triggerFailure := c1.triggerFailure.delete key }
          between = some c2 →
        ∃ rv : SwarmingRpcsTaskRequestMetadata,
          c2.TriggerTask env t2 createdTs2 id2 =
            some ({ c2 with taskList := c2.taskList ++ [rv] }, some rv, none) ∧
          rv.TaskResult.State = "PENDING" ∧ rv.TaskId = id2 ∧ rv.Request.Tags = t2.Tags ∧
          rv.Request.Name = t2.Name) ∧
    (∀ (o : SwarmingRpcsNewTaskRequest) (createdTs id : String)
      (r : TestClient × Option SwarmingRpcsTaskRequestMetadata × Option String),
      ¬ (o.Tags.filter (fun t => !HasPrefix t "sk_id")).Perm
        (tags.filter (fun t => !HasPrefix t "sk_id")) →
      (∀ k, c.triggerFailure.get k = false) →
      TestClient.TriggerTask env { c with triggerFailure := c.triggerFailure.set key true } o
        createdTs id = some r →
      r.2.2 = none ∧ r.1.triggerFailure.get key = true ∧
      r.1.taskList.length = c.taskList.length + 1) := by
  have hk1 : md5Tags env t1.Tags = some key := by rw [md5Tags_perm env _ _ h1, hkey]
  have hk2 : md5Tags env t2.Tags = some key := by rw [md5Tags_perm env _ _ h2, hkey]
  refine ⟨by simp [TestClient.MockTriggerTaskFailure, hkey], ?_, ?_⟩
  · intro before c1 hb hrun1
    have hset : c1.triggerFailure.get key = true := by
      rw [triggerAll_other env key before
        (fun o ho => md5Tags_other env tags key hfree _ (hb o ho)) _ c1 hrun1]
      exact BoolMap.get_set_self _ _ _
    refine ⟨by simp [TestClient.TriggerTask, hk1, hset], ?_⟩
    intro between c2 hbt hrun2
    have hdel : c2.triggerFailure.get key = false := by
      rw [triggerAll_other env key between
        (fun o ho => md5Tags_other env tags key hfree _ (hbt o ho)) _ c2 hrun2]
      exact BoolMap.get_delete_self _ _
    exact ⟨_, by simp only [TestClient.TriggerTask, hk2, hdel]; rfl, rfl, rfl, rfl, rfl⟩
  · intro o createdTs id r hne hnone hr
    have hother := md5Tags_other env tags key hfree _ hne
    unfold TestClient.TriggerTask at hr
    cases hm : md5Tags env o.Tags with
    | none => rw [hm] at hr; cases hr
    | some md5 =>
      have hk : md5 ≠ key := fun hc => hother (by rw [hm, hc])
      have hget : (c.triggerFailure.set key true).get md5 = false := by
        rw [BoolMap.get_set_ne _ _ _ _ (fun hc => hk hc.symm)]
        exact hnone md5
      rw [hm] at hr
      simp only [hget, Bool.false_eq_true, if_false, Option.some.injEq] at hr
      rw [← hr]
      exact ⟨rfl, BoolMap.get_set_self _ _ _, by simp⟩

theorem comma_split (p : List Char) (hp : ',' ∉ p) :
    ∀ l r : List Char, l ++ ',' :: r = p ++ [','] → l = p ∧ r = [] := by
  induction p with
  | nil =>
    intro l r h
    cases l with
    | nil => simpa using h
    | cons c l => simp at h
  | cons c p ih =>
    intro l r h
    cases l with
    | nil =>
      simp only [List.nil_append, List.cons_append, List.cons.injEq] at h
      exact absurd (h.1 ▸ List.mem_cons_self _ _) hp
    | cons c1 l =>
      simp only [List.cons_append, List.cons.injEq] at h
      obtain ⟨hl, hr⟩ := ih (fun hc => hp (List.mem_cons_of_mem _ hc)) l r h.2
      exact ⟨by rw [h.1, hl], hr⟩

/-- In the environment `exEnv` the digest of the slice `pool:Skia` is the digest of no other
slice. -/
theorem exEnv_key_free (a : List String) (h : exEnv.MD5SSlice a = .ok "pool:Skia,") :
    a = ["pool:Skia"] := by
  have hd : (a.flatMap fun s => s.data ++ [',']) = "pool:Skia".data ++ [','] := by
    simp only [exEnv, Except.ok.injEq] at h
    have := congrArg String.data h
    simpa using this
  cases a with
  | nil => simp at hd
  | cons s rest =>
    rw [List.flatMap_cons, List.append_assoc] at hd
    obtain ⟨hs, hr⟩ := comma_split "pool:Skia".data (by decide) s.data _ hd
    have hrest : rest = [] := by
      cases rest with
      | nil => rfl
      | cons t rest => simp at hr
    rw [hrest, String.ext hs]

/-- C22, instantiated: the failure is mocked on a new client for the tags `sk_id:1`,
`pool:Skia`.  A request for the pool `CT` is triggered and succeeds; the request with the task
id `sk_id:2` fails; a request for the pool `CT` is triggered again; the request with the task id
`sk_id:3` succeeds and its task, in state `PENDING`, is the third of the task list. -/
theorem mock_trigger_failure_witness :
    md5Tags exEnv ["sk_id:1", "pool:Skia"] = some "pool:Skia," ∧
    ((exRequest "sk_id:2").Tags.filter (fun t => !HasPrefix t "sk_id")).Perm
      (["sk_id:1", "pool:Skia"].filter (fun t => !HasPrefix t "sk_id")) ∧
    ((exRequest "sk_id:3").Tags.filter (fun t => !HasPrefix t "sk_id")).Perm
      (["sk_id:1", "pool:Skia"].filter (fun t => !HasPrefix t "sk_id")) ∧
    NewTestClient.MockTriggerTaskFailure exEnv ["sk_id:1", "pool:Skia"] = some exMocked ∧
    TestClient.triggerAll exEnv exMocked [(exOther, "2016-03-01T12:00:00", "id-0")]
      = some exClient1 ∧
    exClient1.taskList.length = 1 ∧
    exClient1.TriggerTask exEnv (exRequest "sk_id:2") "2016-03-01T12:00:01" "id-1" =
      some ({ exClient1 with triggerFailure := exClient1.triggerFailure.delete "pool:Skia," },
        none, some "Mocked trigger failure!") ∧
    exClient2.taskList.length = 2 ∧
    ∃ rv : SwarmingRpcsTaskRequestMetadata,
      exClient2.TriggerTask exEnv (exRequest "sk_id:3") "2016-03-01T12:00:03" "id-3" =
        some ({ exClient2 with taskList := exClient2.taskList ++ [rv] }, some rv, none) ∧
      rv.TaskResult.State = "PENDING" ∧ rv.TaskId = "id-3" ∧
      rv.Request.Tags = (exRequest "sk_id:3").Tags ∧
      rv.Request.Name = (exRequest "sk_id:3").Name :=
  have h := mock_trigger_failure exEnv NewTestClient ["sk_id:1", "pool:Skia"] "pool:Skia,"
    (by decide) (fun a ha => (exEnv_key_free a ha).trans (by decide))
    (exRequest "sk_id:2") (exRequest "sk_id:3") (by decide) (by decide)
    "2016-03-01T12:00:01" "id-1" "2016-03-01T12:00:03" "id-3"
  have h1 := h.2.1 [(exOther, "2016-03-01T12:00:00", "id-0")] exClient1 (by decide) (by decide)
  ⟨by decide, by decide, by decide, h.1, by decide, by decide, h1.1, by decide,
    h1.2 [(exOther, "2016-03-01T12:00:02", "id-2")] exClient2 (by decide) (by decide)⟩

end Swarming

end

end Fuzzer
